import Mathlib

/-!
# streamingfast/shutter: a step semantics for `shutter.go`

The coordinator (`Shutter`) is embedded as a record of its fields.  Channels
are represented by a flag that says whether the channel has been closed,
and a `sync.Mutex` by a flag that says whether it is held.  Each method is
translated statement by statement into the transitions of a stack machine:
a frame is one activation of a method together with the statement it is
about to execute, and `step` executes that statement.  User code (callbacks,
the functions given to `LockedInit`, the main program) is a list of calls
into the package; its observable results are appended to a log.
-/

namespace shutter

/-! ## Values -/

/-- Go `error` values: `nil`, the package's sentinel, or an error made by
the user with `errors.New`. -/
inductive Error where
  | nil
  | ErrShutterWasAlreadyDown
  | New (id : Nat)
  deriving DecidableEq, Repr

/-- Function values handed to the package.  `closure id` is a function
literal of the user program, whose body is looked up in the code table;
`propagate target` is the closure `func(err error) { target.Shutdown(err) }`
built by `Bind`. -/
inductive Func where
  | closure (id : Nat)
  | propagate (target : Nat)
  deriving DecidableEq, Repr

/-- An error argument in user code: a literal value or the parameter of the
enclosing function. -/
inductive Arg where
  | lit (e : Error)
  | param
  deriving DecidableEq, Repr

/-- The value an argument denotes inside a function whose parameter is `p`. -/
def Arg.eval : Arg → Error → Error
  | .lit e, _ => e
  | .param, p => p

/-- Statements of user code.  Coordinators are named by their address. -/
inductive Call where
  | Shutdown (s : Nat) (e : Arg)
  | LockedInit (s : Nat) (fn : Func)
  | OnTerminating (s : Nat) (f : Func)
  | OnTerminated (s : Nat) (f : Func)
  | Err (s : Nat)
  | IsTerminating (s : Nat)
  | IsTerminated (s : Nat)
  | Bind (p : Nat) (c : Nat)
  | add (v : Nat) (k : Int)
  deriving DecidableEq, Repr

/-- The body of a user function: its statements and the error it returns
(ignored for a `func(error)`). -/
structure Body where
  calls : List Call
  result : Error
  deriving DecidableEq, Repr

/-- The code of a function value. -/
def Func.body (code : Nat → Body) : Func → Body
  | .closure id => code id
  | .propagate target => { calls := [Call.Shutdown target Arg.param], result := Error.nil }

/-! ## The coordinator -/

/-- The fields of `type Shutter struct`. -/
structure Shutter where
  lock : Bool
  err : Error
  once : Bool
  terminatingCh : Bool
  terminatingFunc : List Func
  terminatingFuncLock : Bool
  terminatedCh : Bool
  terminatedFunc : List Func
  terminatedFuncLock : Bool
  deriving DecidableEq, Repr

/-- The value built by `New()`: both channels open, everything else zero. -/
def New : Shutter :=
  { lock := false, err := Error.nil, once := false,
    terminatingCh := false, terminatingFunc := [], terminatingFuncLock := false,
    terminatedCh := false, terminatedFunc := [], terminatedFuncLock := false }

/-- The method `IsTerminating`: a non-blocking receive on `terminatingCh`. -/
def Shutter.IsTerminating (sh : Shutter) : Bool := sh.terminatingCh

/-- The method `IsTerminated`: a non-blocking receive on `terminatedCh`. -/
def Shutter.IsTerminated (sh : Shutter) : Bool := sh.terminatedCh

/-! ## Observable events -/

/-- The two callback lists. -/
inductive Phase where
  | terminating
  | terminated
  deriving DecidableEq, Repr

/-- What the log records. -/
inductive Event where
  /-- `Shutdown(e)` passed `once.Do`; `won` tells whether it executes. -/
  | gate (s : Nat) (e : Error) (won : Bool)
  /-- A channel of `s` was closed. -/
  | closed (s : Nat) (ph : Phase)
  /-- `Shutdown` on `s` invoked the callback `f` with `e`. -/
  | callback (s : Nat) (ph : Phase) (f : Func) (e : Error)
  /-- `LockedInit` on `s` invoked `fn`. -/
  | init (s : Nat) (fn : Func)
  /-- A user function returned. -/
  | returned (f : Func)
  /-- `LockedInit` on `s` returned `e`. -/
  | lockedInit (s : Nat) (e : Error)
  /-- `Err()` on `s` returned `e`. -/
  | err (s : Nat) (e : Error)
  /-- `IsTerminating()` on `s` returned `b`. -/
  | isTerminating (s : Nat) (b : Bool)
  /-- `IsTerminated()` on `s` returned `b`. -/
  | isTerminated (s : Nat) (b : Bool)
  deriving DecidableEq, Repr

/-- The shared state: the coordinators by address, the integer variables of
the user program, and the log. -/
structure World where
  shutters : Nat → Shutter
  vars : Nat → Int
  log : List Event

/-- Every address holds a coordinator as built by `New()`. -/
def World.init : World :=
  { shutters := fun _ => New, vars := fun _ => 0, log := [] }

/-- Store `sh` at address `s`. -/
def World.set (w : World) (s : Nat) (sh : Shutter) : World :=
  { w with shutters := fun i => if i = s then sh else w.shutters i }

/-- Append an event to the log. -/
def World.emit (w : World) (e : Event) : World :=
  { w with log := w.log ++ [e] }

/-- The statement `v += k`. -/
def World.add (w : World) (v : Nat) (k : Int) : World :=
  { w with vars := fun i => if i = v then w.vars i + k else w.vars i }

/-! ## Frames -/

/-- The statements of `Shutdown` (lines 80-111). -/
inductive ShutdownPc where
  | once
  | lock1
  | setErr
  | closeTerminating
  | unlock1
  | lockTerminatingFunc
  | rangeTerminating
  | callTerminating (rest : List Func)
  | unlockTerminatingFunc
  | lock2
  | closeTerminated
  | unlock2
  | lockTerminatedFunc
  | rangeTerminated
  | callTerminated (rest : List Func)
  | unlockTerminatedFunc
  deriving DecidableEq, Repr

/-- The statements of `LockedInit` (lines 71-78). -/
inductive LockedInitPc where
  | lock
  | check
  | deferred
  deriving DecidableEq, Repr

/-- The statements of `OnTerminating` and of `OnTerminated`. -/
inductive RegisterPc where
  | lock
  | append
  | unlock
  deriving DecidableEq, Repr

/-- The statements of `Err` (lines 157-162). -/
inductive ErrPc where
  | lock
  | read
  | deferred
  deriving DecidableEq, Repr

/-- The statements of `Bind`. -/
inductive BindPc where
  | first
  | second
  | done
  deriving DecidableEq, Repr

/-- One activation on the call stack. -/
inductive Frame where
  /-- User code: the function being run (`none` for the main program), the
  statements left, and the value of its parameter. -/
  | user (f : Option Func) (rest : List Call) (param : Error)
  | Shutdown (s : Nat) (err : Error) (pc : ShutdownPc)
  | LockedInit (s : Nat) (fn : Func) (pc : LockedInitPc)
  | OnTerminating (s : Nat) (f : Func) (pc : RegisterPc)
  | OnTerminated (s : Nat) (f : Func) (pc : RegisterPc)
  | Err (s : Nat) (pc : ErrPc)
  | Bind (p : Nat) (c : Nat) (pc : BindPc)
  deriving DecidableEq, Repr

/-- What executing one statement of an activation does. -/
inductive Act where
  /-- Continue this activation at `k`; the result register becomes `r`. -/
  | goto (w : World) (k : Frame) (r : Error)
  /-- Call `callee`; this activation continues at `k` when it returns. -/
  | call (w : World) (k : Frame) (callee : Frame)
  /-- Return `r` to the caller. -/
  | ret (w : World) (r : Error)
  /-- The statement waits for a mutex that is held. -/
  | blocked
  /-- The statement panics (closing a closed channel, unlocking an unlocked
  mutex). -/
  | panic

/-- `close(ch)` on the terminating channel of `s`. -/
def closeTerminatingCh (w : World) (s : Nat) (k : Frame) (r : Error) : Act :=
  if (w.shutters s).terminatingCh then Act.panic
  else Act.goto ((w.set s { w.shutters s with terminatingCh := true }).emit
    (Event.closed s Phase.terminating)) k r

/-- `close(ch)` on the terminated channel of `s`. -/
def closeTerminatedCh (w : World) (s : Nat) (k : Frame) (r : Error) : Act :=
  if (w.shutters s).terminatedCh then Act.panic
  else Act.goto ((w.set s { w.shutters s with terminatedCh := true }).emit
    (Event.closed s Phase.terminated)) k r

/-- The statements of user code. -/
def stepUser (code : Nat → Body) (w : World) (r : Error) (f : Option Func)
    (param : Error) : List Call → Act
  | [] =>
    match f with
    | none => Act.ret w r
    | some g => Act.ret (w.emit (Event.returned g)) (g.body code).result
  | Call.Shutdown s e :: rest =>
    Act.call w (Frame.user f rest param) (Frame.Shutdown s (e.eval param) ShutdownPc.once)
  | Call.LockedInit s fn :: rest =>
    Act.call w (Frame.user f rest param) (Frame.LockedInit s fn LockedInitPc.lock)
  | Call.OnTerminating s g :: rest =>
    Act.call w (Frame.user f rest param) (Frame.OnTerminating s g RegisterPc.lock)
  | Call.OnTerminated s g :: rest =>
    Act.call w (Frame.user f rest param) (Frame.OnTerminated s g RegisterPc.lock)
  | Call.Err s :: rest =>
    Act.call w (Frame.user f rest param) (Frame.Err s ErrPc.lock)
  | Call.IsTerminating s :: rest =>
    Act.goto (w.emit (Event.isTerminating s (w.shutters s).IsTerminating))
      (Frame.user f rest param) r
  | Call.IsTerminated s :: rest =>
    Act.goto (w.emit (Event.isTerminated s (w.shutters s).IsTerminated))
      (Frame.user f rest param) r
  | Call.Bind p c :: rest =>
    Act.call w (Frame.user f rest param) (Frame.Bind p c BindPc.first)
  | Call.add v k :: rest =>
    Act.goto (w.add v k) (Frame.user f rest param) r

/-- The method `Shutdown` (lines 80-111), one statement per case. -/
def stepShutdown (code : Nat → Body) (w : World) (r : Error) (s : Nat) (err : Error) :
    ShutdownPc → Act
  | .once =>
    -- s.once.Do(func() { execute = true }); if !execute { return }
    if (w.shutters s).once then Act.ret (w.emit (Event.gate s err false)) r
    else Act.goto ((w.set s { w.shutters s with once := true }).emit (Event.gate s err true))
      (Frame.Shutdown s err .lock1) r
  | .lock1 =>
    -- s.lock.Lock()
    if (w.shutters s).lock then Act.blocked
    else Act.goto (w.set s { w.shutters s with lock := true }) (Frame.Shutdown s err .setErr) r
  | .setErr =>
    -- s.err = err
    Act.goto (w.set s { w.shutters s with err := err }) (Frame.Shutdown s err .closeTerminating) r
  | .closeTerminating =>
    -- close(s.terminatingCh)
    closeTerminatingCh w s (Frame.Shutdown s err .unlock1) r
  | .unlock1 =>
    -- s.lock.Unlock()
    if (w.shutters s).lock then
      Act.goto (w.set s { w.shutters s with lock := false })
        (Frame.Shutdown s err .lockTerminatingFunc) r
    else Act.panic
  | .lockTerminatingFunc =>
    -- s.terminatingFuncLock.Lock()
    if (w.shutters s).terminatingFuncLock then Act.blocked
    else Act.goto (w.set s { w.shutters s with terminatingFuncLock := true })
      (Frame.Shutdown s err .rangeTerminating) r
  | .rangeTerminating =>
    -- for _, call := range s.terminatingFunc: the slice is evaluated once
    Act.goto w (Frame.Shutdown s err (.callTerminating (w.shutters s).terminatingFunc)) r
  | .callTerminating (f :: rest) =>
    -- call(err)
    Act.call (w.emit (Event.callback s Phase.terminating f err))
      (Frame.Shutdown s err (.callTerminating rest))
      (Frame.user (some f) (f.body code).calls err)
  | .callTerminating [] =>
    Act.goto w (Frame.Shutdown s err .unlockTerminatingFunc) r
  | .unlockTerminatingFunc =>
    -- s.terminatingFuncLock.Unlock()
    if (w.shutters s).terminatingFuncLock then
      Act.goto (w.set s { w.shutters s with terminatingFuncLock := false })
        (Frame.Shutdown s err .lock2) r
    else Act.panic
  | .lock2 =>
    -- s.lock.Lock()
    if (w.shutters s).lock then Act.blocked
    else Act.goto (w.set s { w.shutters s with lock := true })
      (Frame.Shutdown s err .closeTerminated) r
  | .closeTerminated =>
    -- close(s.terminatedCh)
    closeTerminatedCh w s (Frame.Shutdown s err .unlock2) r
  | .unlock2 =>
    -- s.lock.Unlock()
    if (w.shutters s).lock then
      Act.goto (w.set s { w.shutters s with lock := false })
        (Frame.Shutdown s err .lockTerminatedFunc) r
    else Act.panic
  | .lockTerminatedFunc =>
    -- s.terminatedFuncLock.Lock()
    if (w.shutters s).terminatedFuncLock then Act.blocked
    else Act.goto (w.set s { w.shutters s with terminatedFuncLock := true })
      (Frame.Shutdown s err .rangeTerminated) r
  | .rangeTerminated =>
    -- for _, call := range s.terminatedFunc
    Act.goto w (Frame.Shutdown s err (.callTerminated (w.shutters s).terminatedFunc)) r
  | .callTerminated (f :: rest) =>
    -- call(err)
    Act.call (w.emit (Event.callback s Phase.terminated f err))
      (Frame.Shutdown s err (.callTerminated rest))
      (Frame.user (some f) (f.body code).calls err)
  | .callTerminated [] =>
    Act.goto w (Frame.Shutdown s err .unlockTerminatedFunc) r
  | .unlockTerminatedFunc =>
    -- s.terminatedFuncLock.Unlock()
    if (w.shutters s).terminatedFuncLock then
      Act.ret (w.set s { w.shutters s with terminatedFuncLock := false }) r
    else Act.panic

/-- The method `LockedInit` (lines 71-78).  The named result `err` is the
result register. -/
def stepLockedInit (code : Nat → Body) (w : World) (r : Error) (s : Nat) (fn : Func) :
    LockedInitPc → Act
  | .lock =>
    -- s.lock.Lock(); defer s.lock.Unlock()
    if (w.shutters s).lock then Act.blocked
    else Act.goto (w.set s { w.shutters s with lock := true }) (Frame.LockedInit s fn .check) r
  | .check =>
    -- if s.IsTerminating() { return ErrShutterWasAlreadyDown }; return fn()
    if (w.shutters s).IsTerminating then
      Act.goto w (Frame.LockedInit s fn .deferred) Error.ErrShutterWasAlreadyDown
    else
      Act.call (w.emit (Event.init s fn)) (Frame.LockedInit s fn .deferred)
        (Frame.user (some fn) (fn.body code).calls Error.nil)
  | .deferred =>
    -- the deferred s.lock.Unlock(), then the return
    if (w.shutters s).lock then
      Act.ret ((w.set s { w.shutters s with lock := false }).emit (Event.lockedInit s r)) r
    else Act.panic

/-- The method `OnTerminating` (lines 142-146). -/
def stepOnTerminating (w : World) (r : Error) (s : Nat) (f : Func) : RegisterPc → Act
  | .lock =>
    if (w.shutters s).terminatingFuncLock then Act.blocked
    else Act.goto (w.set s { w.shutters s with terminatingFuncLock := true })
      (Frame.OnTerminating s f .append) r
  | .append =>
    Act.goto (w.set s { w.shutters s with
      terminatingFunc := (w.shutters s).terminatingFunc ++ [f] })
      (Frame.OnTerminating s f .unlock) r
  | .unlock =>
    if (w.shutters s).terminatingFuncLock then
      Act.ret (w.set s { w.shutters s with terminatingFuncLock := false }) r
    else Act.panic

/-- The method `OnTerminated` (lines 151-155). -/
def stepOnTerminated (w : World) (r : Error) (s : Nat) (f : Func) : RegisterPc → Act
  | .lock =>
    if (w.shutters s).terminatedFuncLock then Act.blocked
    else Act.goto (w.set s { w.shutters s with terminatedFuncLock := true })
      (Frame.OnTerminated s f .append) r
  | .append =>
    Act.goto (w.set s { w.shutters s with
      terminatedFunc := (w.shutters s).terminatedFunc ++ [f] })
      (Frame.OnTerminated s f .unlock) r
  | .unlock =>
    if (w.shutters s).terminatedFuncLock then
      Act.ret (w.set s { w.shutters s with terminatedFuncLock := false }) r
    else Act.panic

/-- The method `Err` (lines 157-162). -/
def stepErr (w : World) (r : Error) (s : Nat) : ErrPc → Act
  | .lock =>
    if (w.shutters s).lock then Act.blocked
    else Act.goto (w.set s { w.shutters s with lock := true }) (Frame.Err s .read) r
  | .read =>
    Act.goto w (Frame.Err s .deferred) (w.shutters s).err
  | .deferred =>
    if (w.shutters s).lock then
      Act.ret ((w.set s { w.shutters s with lock := false }).emit (Event.err s r)) r
    else Act.panic

/-- Modelled from the spec: `Bind` is called by the tests but its body is not
in `shutter.go`.  Section 4.4: "Binding is implemented by each side
registering a terminating callback on the other that invokes the other's
shutdown trigger with the originating error". -/
def stepBind (w : World) (r : Error) (p c : Nat) : BindPc → Act
  | .first =>
    Act.call w (Frame.Bind p c .second) (Frame.OnTerminating p (Func.propagate c) .lock)
  | .second =>
    Act.call w (Frame.Bind p c .done) (Frame.OnTerminating c (Func.propagate p) .lock)
  | .done => Act.ret w r

/-- Execute the next statement of an activation. -/
def Frame.step (code : Nat → Body) (w : World) (r : Error) : Frame → Act
  | .user f rest param => stepUser code w r f param rest
  | .Shutdown s err pc => stepShutdown code w r s err pc
  | .LockedInit s fn pc => stepLockedInit code w r s fn pc
  | .OnTerminating s f pc => stepOnTerminating w r s f pc
  | .OnTerminated s f pc => stepOnTerminated w r s f pc
  | .Err s pc => stepErr w r s pc
  | .Bind p c pc => stepBind w r p c pc

/-- A goroutine running against the shared state: `stack` has the current
activation first; `ret` holds the result of the last `return`. -/
structure Config where
  world : World
  stack : List Frame
  ret : Error

/-- The outcome of one transition. -/
inductive Step where
  | next (c : Config)
  | blocked
  | panic
  | done

/-- One transition of the goroutine: the statement of the activation on top
of the stack. -/
def step (code : Nat → Body) (c : Config) : Step :=
  match c.stack with
  | [] => Step.done
  | f :: st =>
    match f.step code c.world c.ret with
    | Act.goto w k r => Step.next { world := w, stack := k :: st, ret := r }
    | Act.call w k callee => Step.next { world := w, stack := callee :: k :: st, ret := c.ret }
    | Act.ret w r => Step.next { world := w, stack := st, ret := r }
    | Act.blocked => Step.blocked
    | Act.panic => Step.panic

/-- How a run ends. -/
inductive Outcome where
  /-- Every activation returned. -/
  | returned (w : World) (r : Error)
  /-- The goroutine waits for a mutex; alone, it waits forever. -/
  | deadlock (c : Config)
  | panic (c : Config)
  | outOfFuel (c : Config)

/-- Run the goroutine for at most `fuel` transitions. -/
def run (code : Nat → Body) : Nat → Config → Outcome
  | 0, c => Outcome.outOfFuel c
  | fuel + 1, c =>
    match step code c with
    | Step.next c' => run code fuel c'
    | Step.blocked => Outcome.deadlock c
    | Step.panic => Outcome.panic c
    | Step.done => Outcome.returned c.world c.ret

/-- The goroutine that runs `main` from the initial state. -/
def start (main : List Call) : Config :=
  { world := World.init, stack := [Frame.user none main Error.nil], ret := Error.nil }

/-- The configuration after `n` transitions, or the one where the goroutine
stopped (returned, blocked or panicked) before that. -/
def exec (code : Nat → Body) : Nat → Config → Config
  | 0, c => c
  | n + 1, c =>
    match step code c with
    | Step.next c' => exec code n c'
    | _ => c

/-! ## Which activations hold what -/

/-- The statements of `Shutdown` between `s.lock.Lock()` and `s.lock.Unlock()`. -/
def ShutdownPc.holdsLock : ShutdownPc → Bool
  | .setErr | .closeTerminating | .unlock1 | .closeTerminated | .unlock2 => true
  | _ => false

/-- The statements of `Shutdown` under `terminatingFuncLock`. -/
def ShutdownPc.holdsTerminatingFuncLock : ShutdownPc → Bool
  | .rangeTerminating | .callTerminating _ | .unlockTerminatingFunc => true
  | _ => false

/-- The statements of `Shutdown` under `terminatedFuncLock`. -/
def ShutdownPc.holdsTerminatedFuncLock : ShutdownPc → Bool
  | .rangeTerminated | .callTerminated _ | .unlockTerminatedFunc => true
  | _ => false

/-- The activation has passed `once.Do`. -/
def ShutdownPc.active : ShutdownPc → Bool
  | .once => false
  | _ => true

/-- The activation has passed `once.Do` and not yet executed `s.err = err`. -/
def ShutdownPc.beforeErr : ShutdownPc → Bool
  | .lock1 | .setErr => true
  | _ => false

/-- The activation has passed `once.Do` and not yet closed `terminatingCh`. -/
def ShutdownPc.beforeTerminating : ShutdownPc → Bool
  | .lock1 | .setErr | .closeTerminating => true
  | _ => false

/-- The activation has passed `once.Do` and not yet closed `terminatedCh`. -/
def ShutdownPc.beforeTerminated : ShutdownPc → Bool
  | .once | .unlock2 | .lockTerminatedFunc | .rangeTerminated | .callTerminated _
  | .unlockTerminatedFunc => false
  | _ => true

/-- The activation is in the loop over `terminatingFunc`. -/
def ShutdownPc.inTerminatingLoop : ShutdownPc → Bool
  | .callTerminating _ => true
  | _ => false

/-- The activation holds the entry guard `lock` of `s`. -/
def Frame.holdsLock (s : Nat) : Frame → Bool
  | .Shutdown s' _ pc => decide (s' = s) && pc.holdsLock
  | .LockedInit s' _ pc => decide (s' = s) && decide (pc ≠ LockedInitPc.lock)
  | .Err s' pc => decide (s' = s) && decide (pc ≠ ErrPc.lock)
  | _ => false

/-- The activation holds `terminatingFuncLock` of `s`. -/
def Frame.holdsTerminatingFuncLock (s : Nat) : Frame → Bool
  | .Shutdown s' _ pc => decide (s' = s) && pc.holdsTerminatingFuncLock
  | .OnTerminating s' _ pc => decide (s' = s) && decide (pc ≠ RegisterPc.lock)
  | _ => false

/-- The activation holds `terminatedFuncLock` of `s`. -/
def Frame.holdsTerminatedFuncLock (s : Nat) : Frame → Bool
  | .Shutdown s' _ pc => decide (s' = s) && pc.holdsTerminatedFuncLock
  | .OnTerminated s' _ pc => decide (s' = s) && decide (pc ≠ RegisterPc.lock)
  | _ => false

/-- An activation of `Shutdown` on `s` that passed `once.Do`. -/
def Frame.active (s : Nat) : Frame → Bool
  | .Shutdown s' _ pc => decide (s' = s) && pc.active
  | _ => false

/-- An activation of `Shutdown` on `s` that passed `once.Do` with an error
other than `e`. -/
def Frame.activeOther (s : Nat) (e : Option Error) : Frame → Bool
  | .Shutdown s' e' pc => decide (s' = s) && pc.active && decide (e ≠ some e')
  | _ => false

/-- An activation of `Shutdown` on `s` that has yet to store the error. -/
def Frame.beforeErr (s : Nat) : Frame → Bool
  | .Shutdown s' _ pc => decide (s' = s) && pc.beforeErr
  | _ => false

/-- An activation of `Shutdown` on `s` that has yet to close `terminatingCh`. -/
def Frame.beforeTerminating (s : Nat) : Frame → Bool
  | .Shutdown s' _ pc => decide (s' = s) && pc.beforeTerminating
  | _ => false

/-- An activation of `Shutdown` on `s` that has yet to close `terminatedCh`. -/
def Frame.beforeTerminated (s : Nat) : Frame → Bool
  | .Shutdown s' _ pc => decide (s' = s) && pc.beforeTerminated
  | _ => false

/-- An activation of `Shutdown` on `s` in its loop over `terminatingFunc`. -/
def Frame.inTerminatingLoop (s : Nat) : Frame → Bool
  | .Shutdown s' _ pc => decide (s' = s) && pc.inTerminatingLoop
  | _ => false

/-- The error an event passes through `once.Do` of `s`, if it is one. -/
def Event.gateOf (s : Nat) : Event → Option Error
  | .gate s' e _ => if s' = s then some e else none
  | _ => none

/-- The argument of the first `Shutdown` call on `s` in the log. -/
def firstShutdown (log : List Event) (s : Nat) : Option Error :=
  (log.filterMap (Event.gateOf s)).head?

/-- The activation can have activations above it: it is at a statement that
is reached when a call returns. -/
def Frame.isCaller : Frame → Bool
  | .user _ _ _ => true
  | .Shutdown _ _ (.callTerminating _) => true
  | .Shutdown _ _ (.callTerminated _) => true
  | .LockedInit _ _ .deferred => true
  | .Bind _ _ .second => true
  | .Bind _ _ .done => true
  | _ => false

/-- Reading the log from the left, the phase of `s` after an event, given
the phase `(terminating fired, terminated fired)` before it; `none` when the
event is out of order: a channel closed twice, `terminatedCh` closed while
`terminatingCh` is open, a terminating callback invoked outside the
terminating phase, a terminated callback invoked before `terminatedCh` was
closed. -/
def Event.phaseStep (s : Nat) : Bool × Bool → Event → Option (Bool × Bool)
  | (a, b), .closed s' Phase.terminating =>
    if s' = s then (if a then none else some (true, b)) else some (a, b)
  | (a, b), .closed s' Phase.terminated =>
    if s' = s then (if a && !b then some (a, true) else none) else some (a, b)
  | (a, b), .callback s' Phase.terminating _ _ =>
    if s' = s then (if a && !b then some (a, b) else none) else some (a, b)
  | (a, b), .callback s' Phase.terminated _ _ =>
    if s' = s then (if b then some (a, b) else none) else some (a, b)
  | q, _ => some q

/-- The phase of `s` at the end of a log all of whose events are in order. -/
def phaseScan (s : Nat) (log : List Event) : Option (Bool × Bool) :=
  log.foldl (fun q ev => q.bind (fun q => Event.phaseStep s q ev)) (some (false, false))

/-- What holds of every configuration the machine reaches from `start`:
each mutex is held exactly when one activation on the stack holds it, and
the channels and the error of a coordinator are where the one activation of
`Shutdown` that passed `once.Do` has brought them. -/
structure Inv (c : Config) : Prop where
  lock : ∀ s, c.stack.countP (Frame.holdsLock s) = (c.world.shutters s).lock.toNat
  terminatingFuncLock : ∀ s, c.stack.countP (Frame.holdsTerminatingFuncLock s)
    = (c.world.shutters s).terminatingFuncLock.toNat
  terminatedFuncLock : ∀ s, c.stack.countP (Frame.holdsTerminatedFuncLock s)
    = (c.world.shutters s).terminatedFuncLock.toNat
  active : ∀ s, c.stack.countP (Frame.active s) ≤ (c.world.shutters s).once.toNat
  terminating : ∀ s, (c.world.shutters s).terminatingCh.toNat
    + c.stack.countP (Frame.beforeTerminating s) = (c.world.shutters s).once.toNat
  terminated : ∀ s, (c.world.shutters s).terminatedCh.toNat
    + c.stack.countP (Frame.beforeTerminated s) = (c.world.shutters s).once.toNat
  first : ∀ s, (firstShutdown c.world.log s).isSome = (c.world.shutters s).once
  winner : ∀ s, c.stack.countP (Frame.activeOther s (firstShutdown c.world.log s)) = 0
  err : ∀ s, (c.world.shutters s).once = true → c.stack.countP (Frame.beforeErr s) = 0 →
    firstShutdown c.world.log s = some (c.world.shutters s).err
  guarded : ∀ s, (c.world.shutters s).terminatingCh = true →
    c.stack.tail.countP (Frame.holdsLock s) = 0
  callers : c.stack.tail.all Frame.isCaller = true
  order : ∀ s, phaseScan s c.world.log
    = some ((c.world.shutters s).terminatingCh, (c.world.shutters s).terminatedCh)


/-! ## Predicates used to state the properties -/

/-- What a transition never undoes: a closed channel stays closed, `once`
stays done, the log and the callback lists only grow. -/
structure Config.le (c c' : Config) : Prop where
  terminating : ∀ s, (c.world.shutters s).terminatingCh = true →
    (c'.world.shutters s).terminatingCh = true
  terminated : ∀ s, (c.world.shutters s).terminatedCh = true →
    (c'.world.shutters s).terminatedCh = true
  once : ∀ s, (c.world.shutters s).once = true → (c'.world.shutters s).once = true
  log : c.world.log <+: c'.world.log
  terminatingFunc : ∀ s, (c.world.shutters s).terminatingFunc
    <+: (c'.world.shutters s).terminatingFunc
  terminatedFunc : ∀ s, (c.world.shutters s).terminatedFunc
    <+: (c'.world.shutters s).terminatedFunc


/-- The activation is in the loop over `terminatedFunc`. -/
def ShutdownPc.inTerminatedLoop : ShutdownPc → Bool
  | .callTerminated _ => true
  | _ => false

/-- An activation of `Shutdown` on `s` in its loop over `terminatedFunc`. -/
def Frame.inTerminatedLoop (s : Nat) : Frame → Bool
  | .Shutdown s' _ pc => decide (s' = s) && pc.inTerminatedLoop
  | _ => false

/-- The activation has passed `once.Do` and has not left its loop over the
callbacks of the phase: it may still invoke one. -/
def ShutdownPc.canCall : Phase → ShutdownPc → Bool
  | .terminating, .lock1 | .terminating, .setErr | .terminating, .closeTerminating
  | .terminating, .unlock1 | .terminating, .lockTerminatingFunc
  | .terminating, .rangeTerminating | .terminating, .callTerminating _ => true
  | .terminating, _ => false
  | .terminated, .once | .terminated, .unlockTerminatedFunc => false
  | .terminated, _ => true

/-- An activation of `Shutdown` on `s` that may still invoke a callback of the
phase. -/
def Frame.canCall (s : Nat) (ph : Phase) : Frame → Bool
  | .Shutdown s' _ pc => decide (s' = s) && pc.canCall ph
  | _ => false

/-- The callback of `s` in phase `ph` that an event invokes, if it does. -/
def Event.callbackOf (s : Nat) (ph : Phase) : Event → Option (Func × Error)
  | .callback s' ph' f e => if s' = s ∧ ph' = ph then some (f, e) else none
  | _ => none

/-- The callbacks of `s` in phase `ph` invoked in a log, in order, each with
its argument. -/
def callbacksOf (s : Nat) (ph : Phase) (log : List Event) : List (Func × Error) :=
  log.filterMap (Event.callbackOf s ph)


/-! ## Example programs -/

/-- The function literals of the examples: `0` is `a += 2`, `1` is `a++`,
`2` is `a--`, `3` asks `IsTerminating` and `IsTerminated` of coordinator 0,
`4` registers `1` as a terminated callback of coordinator 0, every other one
does nothing. -/
def exampleCode : Nat → Body
  | 0 => { calls := [Call.add 0 2], result := Error.nil }
  | 1 => { calls := [Call.add 0 1], result := Error.nil }
  | 2 => { calls := [Call.add 0 (-1)], result := Error.nil }
  | 3 => { calls := [Call.IsTerminating 0, Call.IsTerminated 0], result := Error.nil }
  | 4 => { calls := [Call.OnTerminated 0 (Func.closure 1)], result := Error.nil }
  | _ => { calls := [], result := Error.nil }

/-- The program of `TestMultiTerminatingAndTerminatedCallbacks`. -/
def exampleMulti : List Call :=
  [Call.OnTerminating 0 (Func.closure 0), Call.OnTerminating 0 (Func.closure 0),
   Call.OnTerminated 0 (Func.closure 1), Call.OnTerminated 0 (Func.closure 1),
   Call.Shutdown 0 (Arg.lit Error.nil)]

/-- Two `Shutdown` calls on coordinator 0 with different errors. -/
def exampleTwice : List Call :=
  [Call.Shutdown 0 (Arg.lit (Error.New 1)), Call.Shutdown 0 (Arg.lit (Error.New 2))]

/-- A terminating and a terminated callback that ask `IsTerminating` and
`IsTerminated`, then `Shutdown(nil)`. -/
def exampleObserve : List Call :=
  [Call.OnTerminating 0 (Func.closure 3), Call.OnTerminated 0 (Func.closure 3),
   Call.Shutdown 0 (Arg.lit Error.nil)]

/-- The program of `TestLockedInitAlreadyShutdown`. -/
def exampleAlreadyDown : List Call :=
  [Call.OnTerminating 0 (Func.closure 2), Call.Shutdown 0 (Arg.lit Error.nil),
   Call.LockedInit 0 (Func.closure 1)]

/-- The program of `TestLockedInitNotShutdown`. -/
def exampleNotDown : List Call :=
  [Call.OnTerminating 0 (Func.closure 2), Call.LockedInit 0 (Func.closure 1),
   Call.Shutdown 0 (Arg.lit Error.nil)]

/-- A callback registered on each list after `Shutdown` has returned. -/
def exampleLate : List Call :=
  [Call.Shutdown 0 (Arg.lit (Error.New 1)), Call.OnTerminating 0 (Func.closure 1),
   Call.OnTerminated 0 (Func.closure 1)]

/-- A terminating callback that registers a terminated callback. -/
def exampleRegister : List Call :=
  [Call.OnTerminating 0 (Func.closure 4), Call.OnTerminated 0 (Func.closure 0),
   Call.Shutdown 0 (Arg.lit Error.nil)]

/-- The program of `TestBindDownStreamShutdown`, with an error. -/
def exampleBindDown : List Call :=
  [Call.OnTerminating 0 (Func.closure 1), Call.OnTerminating 1 (Func.closure 1),
   Call.Bind 0 1, Call.Shutdown 0 (Arg.lit (Error.New 7))]

/-- The program of `TestBindUpStreamShutdown`, with an error. -/
def exampleBindUp : List Call :=
  [Call.OnTerminating 0 (Func.closure 1), Call.OnTerminating 1 (Func.closure 1),
   Call.Bind 0 1, Call.Shutdown 1 (Arg.lit (Error.New 7))]


/-! ## User code that does not interfere -/

/-- A statement that, executed in world `w`, returns at once without changing
a coordinator: arithmetic, the two lock-free queries, `Shutdown` on a
coordinator that is already past `once.Do`, `Err` when the entry guard is
free, `LockedInit` on a terminating coordinator whose entry guard is free. -/
def Call.quiet (w : World) : Call → Bool
  | .add _ _ => true
  | .IsTerminating _ => true
  | .IsTerminated _ => true
  | .Shutdown s _ => (w.shutters s).once
  | .Err s => !(w.shutters s).lock
  | .LockedInit s _ => (w.shutters s).terminatingCh && !(w.shutters s).lock
  | _ => false

/-- Every statement of the function is quiet in `w`. -/
def Func.quiet (code : Nat → Body) (w : World) (f : Func) : Bool :=
  (f.body code).calls.all (Call.quiet w)

/-- What a quiet statement does to the world, inside a function whose
parameter is `p`. -/
def Call.effect (p : Error) (w : World) : Call → World
  | .add v k => w.add v k
  | .IsTerminating s => w.emit (Event.isTerminating s (w.shutters s).IsTerminating)
  | .IsTerminated s => w.emit (Event.isTerminated s (w.shutters s).IsTerminated)
  | .Shutdown s e => w.emit (Event.gate s (e.eval p) false)
  | .Err s => w.emit (Event.err s (w.shutters s).err)
  | .LockedInit s _ => w.emit (Event.lockedInit s Error.ErrShutterWasAlreadyDown)
  | _ => w

/-- What a list of quiet statements does to the world. -/
def quietEffect (p : Error) : World → List Call → World
  | w, [] => w
  | w, c :: rest => quietEffect p (c.effect p w) rest

/-- What the invocation of a quiet callback `f` of `s` with `e` does to the
world, from the record of the call to the record of the return. -/
def Func.effect (code : Nat → Body) (s : Nat) (ph : Phase) (e : Error) (w : World)
    (f : Func) : World :=
  (quietEffect e (w.emit (Event.callback s ph f e)) (f.body code).calls).emit
    (Event.returned f)

/-- The world in which the terminating callbacks of `Shutdown(e)` on `s`
start: the gate passed, the error stored, `terminatingCh` closed, the lock of
the list held. -/
def enterTerminating (s : Nat) (e : Error) (w : World) : World :=
  ((w.set s { w.shutters s with
      once := true, err := e, terminatingCh := true, terminatingFuncLock := true }).emit
    (Event.gate s e true)).emit (Event.closed s Phase.terminating)

/-- The world in which the terminated callbacks of `Shutdown` on `s` start:
the lock of the terminating list released, `terminatedCh` closed, the lock of
the terminated list held. -/
def enterTerminated (s : Nat) (w : World) : World :=
  (w.set s { w.shutters s with
      terminatingFuncLock := false, terminatedCh := true, terminatedFuncLock := true }).emit
    (Event.closed s Phase.terminated)

/-- The world after the terminated callbacks: the lock of the list released. -/
def leaveTerminated (s : Nat) (w : World) : World :=
  w.set s { w.shutters s with terminatedFuncLock := false }

/-- What the first `Shutdown(e)` on `s` does to the world when its callbacks
are quiet. -/
def shutdownEffect (code : Nat → Body) (s : Nat) (e : Error) (w : World) : World :=
  let w1 := enterTerminating s e w
  let w2 := (w1.shutters s).terminatingFunc.foldl (Func.effect code s Phase.terminating e) w1
  let w3 := enterTerminated s w2
  let w4 := (w3.shutters s).terminatedFunc.foldl (Func.effect code s Phase.terminated e) w3
  leaveTerminated s w4

/-- The coordinator is running and no operation on it is in progress: the
gate is open, both channels are open and the three mutexes are free. -/
def Shutter.idle (sh : Shutter) : Bool :=
  !sh.once && !sh.terminatingCh && !sh.terminatedCh && !sh.lock &&
    !sh.terminatingFuncLock && !sh.terminatedFuncLock

/-- The invocations of callbacks recorded in a log. -/
def invocations (log : List Event) : List Event :=
  log.filter (fun ev => match ev with
    | .callback _ _ _ _ => true
    | _ => false)

/-- Some number of transitions leads from `c` to `c'`. -/
def Reaches (code : Nat → Body) (c c' : Config) : Prop :=
  ∃ n, exec code n c = c'


/-- What `LockedInit(fn)` does to the world on a running coordinator `s` whose
entry guard is free, when `fn` is quiet: the guard is taken, `fn` runs, the
guard is released and the result of `fn` is returned. -/
def lockedInitEffect (code : Nat → Body) (s : Nat) (fn : Func) (w : World) : World :=
  let w1 := (w.set s { w.shutters s with lock := true }).emit (Event.init s fn)
  let w2 := (quietEffect Error.nil w1 (fn.body code).calls).emit (Event.returned fn)
  (w2.set s { w2.shutters s with lock := false }).emit
    (Event.lockedInit s (fn.body code).result)

/-- What a list of statements does to the variables. -/
def varsEffect : (Nat → Int) → List Call → (Nat → Int)
  | vars, [] => vars
  | vars, Call.add v k :: rest =>
    varsEffect (fun i => if i = v then vars i + k else vars i) rest
  | vars, _ :: rest => varsEffect vars rest


/-- In `w'` every coordinator is at least as far into its shutdown as in `w`
and the entry guards are as in `w`: what is quiet in `w` is quiet in `w'`. -/
structure World.later (w w' : World) : Prop where
  once : ∀ i, (w.shutters i).once = true → (w'.shutters i).once = true
  terminating : ∀ i, (w.shutters i).terminatingCh = true →
    (w'.shutters i).terminatingCh = true
  lock : ∀ i, (w'.shutters i).lock = (w.shutters i).lock

/-- What `Bind` does to the world when the locks of both terminating lists
are free: each coordinator gets the callback that shuts the other down. -/
def bindEffect (p c : Nat) (w : World) : World :=
  let w1 := w.set p { w.shutters p with
    terminatingFunc := (w.shutters p).terminatingFunc ++ [Func.propagate c] }
  w1.set c { w1.shutters c with
    terminatingFunc := (w1.shutters c).terminatingFunc ++ [Func.propagate p] }


/-- What `Shutdown(e)` on `a` does to the world when the terminating
callbacks of `a` are the quiet `ts` followed by the callback that shuts `b`
down: the terminating callbacks `ts` of `a`, the whole shutdown of `b`, then
the terminated callbacks of `a`. -/
def boundEffect (code : Nat → Body) (a b : Nat) (e : Error) (ts : List Func) (w : World) :
    World :=
  let w2 := ts.foldl (Func.effect code a Phase.terminating e) (enterTerminating a e w)
  let w3 := w2.emit (Event.callback a Phase.terminating (Func.propagate b) e)
  let w5 := (shutdownEffect code b e w3).emit (Event.returned (Func.propagate b))
  leaveTerminated a ((w.shutters a).terminatedFunc.foldl
    (Func.effect code a Phase.terminated e) (enterTerminated a w5))

/-- The invocations of callbacks when `Shutdown(e)` is called on `a`, bound to
`b`: the terminating callbacks `tsa` of `a`, the propagation to `b`, the
terminating callbacks `tsb` of `b`, the propagation back to `a`, the
terminated callbacks `dsb` of `b`, the terminated callbacks `dsa` of `a`. -/
def boundInvocations (a b : Nat) (e : Error) (tsa dsa tsb dsb : List Func) : List Event :=
  tsa.map (fun f => Event.callback a Phase.terminating f e)
    ++ [Event.callback a Phase.terminating (Func.propagate b) e]
    ++ tsb.map (fun f => Event.callback b Phase.terminating f e)
    ++ [Event.callback b Phase.terminating (Func.propagate a) e]
    ++ dsb.map (fun f => Event.callback b Phase.terminated f e)
    ++ dsa.map (fun f => Event.callback a Phase.terminated f e)

/-! ## Programs with re-entrant calls -/

/-- The function literals of the re-entrant examples, added to those of
`exampleCode`: `5` calls `Shutdown(errors.New("ouch"))` on coordinator 0 (the
callback of `TestShutterDeadlock`), `6` calls `Err()` and then
`LockedInit` on coordinator 0, `7` registers `1` as a terminating callback
of coordinator 0, `8` asks `IsTerminating` and `IsTerminated` and then calls
`Err()`, `9` is `a++`, then registers `2` (which is `a--`) as a terminating
callback of coordinator 0, then asks `IsTerminating`, and returns an error. -/
def hazardCode : Nat → Body
  | 5 => { calls := [Call.Shutdown 0 (Arg.lit (Error.New 2))], result := Error.nil }
  | 6 => { calls := [Call.Err 0, Call.LockedInit 0 (Func.closure 1)], result := Error.nil }
  | 7 => { calls := [Call.OnTerminating 0 (Func.closure 1)], result := Error.nil }
  | 8 => { calls := [Call.IsTerminating 0, Call.IsTerminated 0, Call.Err 0],
           result := Error.nil }
  | 9 => { calls := [Call.add 0 1, Call.OnTerminating 0 (Func.closure 2),
                     Call.IsTerminating 0],
           result := Error.New 3 }
  | n => exampleCode n

/-- The program of `TestShutterDeadlock`, followed by `Err()`. -/
def exampleReentrant : List Call :=
  [Call.OnTerminating 0 (Func.closure 5), Call.Shutdown 0 (Arg.lit (Error.New 1)),
   Call.Err 0]

/-- `Shutdown` called from inside the function given to `LockedInit`. -/
def exampleInitShutdown : List Call :=
  [Call.OnTerminating 0 (Func.closure 1), Call.LockedInit 0 (Func.closure 5)]

/-- A terminating and a terminated callback that call `Err()` and
`LockedInit`. -/
def exampleGuardFree : List Call :=
  [Call.OnTerminating 0 (Func.closure 6), Call.OnTerminated 0 (Func.closure 6),
   Call.Shutdown 0 (Arg.lit (Error.New 1))]

/-- A terminating callback that registers a terminating callback. -/
def exampleSelfRegister : List Call :=
  [Call.OnTerminating 0 (Func.closure 7), Call.Shutdown 0 (Arg.lit Error.nil)]

/-- A terminated callback that registers a terminated callback. -/
def exampleSelfRegisterLate : List Call :=
  [Call.OnTerminated 0 (Func.closure 4), Call.Shutdown 0 (Arg.lit Error.nil)]

/-- A terminated callback that registers a terminating callback. -/
def exampleCrossRegister : List Call :=
  [Call.OnTerminated 0 (Func.closure 7), Call.Shutdown 0 (Arg.lit Error.nil)]

/-- The queries and `Err()` called from inside the function given to
`LockedInit`. -/
def exampleInitErr : List Call :=
  [Call.LockedInit 0 (Func.closure 8)]

/-- The goroutine at `c` waits for a mutex that is held. -/
def blockedAt (code : Nat → Body) (c : Config) : Bool :=
  match step code c with
  | Step.blocked => true
  | _ => false

/-- The run ended with the goroutine waiting for a mutex. -/
def Outcome.isDeadlock : Outcome → Bool
  | .deadlock _ => true
  | _ => false

/-- The run ended with every activation returned. -/
def Outcome.isReturned : Outcome → Bool
  | .returned _ _ => true
  | _ => false

/-! ## Registering from inside user code -/

/-- The call that registers `f` on the list of phase `ph` of `s`:
`s.OnTerminating(f)` or `s.OnTerminated(f)`. -/
def Call.register : Phase → Nat → Func → Call
  | .terminating, s, f => Call.OnTerminating s f
  | .terminated, s, f => Call.OnTerminated s f

/-- The callback list of a phase. -/
def Shutter.callbacks : Phase → Shutter → List Func
  | .terminating, sh => sh.terminatingFunc
  | .terminated, sh => sh.terminatedFunc

/-- The mutex of the callback list of a phase. -/
def Shutter.listLock : Phase → Shutter → Bool
  | .terminating, sh => sh.terminatingFuncLock
  | .terminated, sh => sh.terminatedFuncLock

/-- The coordinator with `f` appended to the callback list of a phase. -/
def Shutter.append : Phase → Shutter → Func → Shutter
  | .terminating, sh, f => { sh with terminatingFunc := sh.terminatingFunc ++ [f] }
  | .terminated, sh, f => { sh with terminatedFunc := sh.terminatedFunc ++ [f] }

/-- What the statements `pre`, then the registration of `g` on the list of
phase `ph` of `s`, then the statements `post` do to the world, inside a
function whose parameter is `p`, when `pre` and `post` are quiet and the
mutex of the list is free. -/
def registerEffect (p : Error) (ph : Phase) (s : Nat) (g : Func) (pre post : List Call)
    (w : World) : World :=
  let w1 := quietEffect p w pre
  quietEffect p (w1.set s ((w1.shutters s).append ph g)) post

/-- What `LockedInit(fn)` does to the world on a running coordinator `s`
whose entry guard is free, when `fn` is the quiet statements `pre`, the
registration of `f` on the list of phase `ph` of `s`, and the quiet statements
`post`: the guard is taken, `fn` runs, the guard is released and the result of
`fn` is returned. -/
def lockedRegisterEffect (code : Nat → Body) (s : Nat) (fn : Func) (ph : Phase) (f : Func)
    (pre post : List Call) (w : World) : World :=
  let w1 := (w.set s { w.shutters s with lock := true }).emit (Event.init s fn)
  let w2 := (registerEffect Error.nil ph s f pre post w1).emit (Event.returned fn)
  (w2.set s { w2.shutters s with lock := false }).emit
    (Event.lockedInit s (fn.body code).result)

/-- The world after the terminating callbacks of `Shutdown(e)` on `s`, when
they are the quiet `ts1`, then `t`, whose statements are the quiet `pre`,
`OnTerminated(g)` on `s` and the quiet `post`, then the quiet `ts2`. -/
def registeringEffect (code : Nat → Body) (s : Nat) (e : Error) (ts1 : List Func)
    (t g : Func) (pre post : List Call) (ts2 : List Func) (w : World) : World :=
  let w2 := ts1.foldl (Func.effect code s Phase.terminating e) (enterTerminating s e w)
  let w3 := (registerEffect e Phase.terminated s g pre post
    (w2.emit (Event.callback s Phase.terminating t e))).emit (Event.returned t)
  ts2.foldl (Func.effect code s Phase.terminating e) w3

/-! ## Options of `New` -/

/-- The values of type `Option` (`func(shutter *Shutter)`) that the package
builds: `RegisterOnTerminated(f)` is `func(s *Shutter) { s.OnTerminated(f) }`
and `RegisterOnTerminating(f)` is `func(s *Shutter) { s.OnTerminating(f) }`. -/
inductive ShutterOption where
  | RegisterOnTerminated (f : Func)
  | RegisterOnTerminating (f : Func)
  deriving DecidableEq, Repr

/-- The method `OnTerminating` (lines 142-146) from call to return, on a
coordinator that no other activation uses; `none` when the call waits for
`terminatingFuncLock`. -/
def Shutter.OnTerminating (sh : Shutter) (f : Func) : Option Shutter :=
  if sh.terminatingFuncLock then none
  else
    -- s.terminatingFuncLock.Lock()
    let sh1 := { sh with terminatingFuncLock := true }
    -- s.terminatingFunc = append(s.terminatingFunc, f)
    let sh2 := { sh1 with terminatingFunc := sh1.terminatingFunc ++ [f] }
    -- s.terminatingFuncLock.Unlock()
    some { sh2 with terminatingFuncLock := false }

/-- The method `OnTerminated` (lines 151-155) from call to return, on a
coordinator that no other activation uses; `none` when the call waits for
`terminatedFuncLock`. -/
def Shutter.OnTerminated (sh : Shutter) (f : Func) : Option Shutter :=
  if sh.terminatedFuncLock then none
  else
    -- s.terminatedFuncLock.Lock()
    let sh1 := { sh with terminatedFuncLock := true }
    -- s.terminatedFunc = append(s.terminatedFunc, f)
    let sh2 := { sh1 with terminatedFunc := sh1.terminatedFunc ++ [f] }
    -- s.terminatedFuncLock.Unlock()
    some { sh2 with terminatedFuncLock := false }

/-- The call `opt(s)` of an option on a coordinator. -/
def ShutterOption.apply : ShutterOption → Shutter → Option Shutter
  | .RegisterOnTerminated f, sh => sh.OnTerminated f
  | .RegisterOnTerminating f, sh => sh.OnTerminating f

/-- The function `New(opts...)` (lines 29-38): the coordinator of `New()`
with no options, then `opt(s)` for each option in order; `none` when one of
these calls does not return. -/
def NewWith (opts : List ShutterOption) : Option Shutter :=
  opts.foldlM (fun sh opt => opt.apply sh) New

/-- The statement in the body of an option, for the coordinator at address
`s`. -/
def ShutterOption.call (s : Nat) : ShutterOption → Call
  | .RegisterOnTerminated f => Call.OnTerminated s f
  | .RegisterOnTerminating f => Call.OnTerminating s f

/-- The callback that an option registers on the list of a phase, if it
registers on that list. -/
def ShutterOption.callback : Phase → ShutterOption → Option Func
  | .terminating, .RegisterOnTerminating f => some f
  | .terminated, .RegisterOnTerminated f => some f
  | _, _ => none

/-- The callbacks that a list of options registers on the list of a phase, in
option order. -/
def registered (ph : Phase) (opts : List ShutterOption) : List Func :=
  opts.filterMap (ShutterOption.callback ph)

/-! ## Two goroutines -/

/-- Two goroutines running against the shared state, each with its call stack
and its result register. -/
structure Pair where
  world : World
  fst : List Frame
  fstRet : Error
  snd : List Frame
  sndRet : Error

/-- One transition of the goroutine that the scheduler picks (`true` for the
first one).  A goroutine that has returned, that waits for a mutex which is
held, or that has panicked, does not move. -/
def Pair.step (code : Nat → Body) (c : Pair) (pick : Bool) : Pair :=
  if pick then
    match shutter.step code ⟨c.world, c.fst, c.fstRet⟩ with
    | Step.next c' => { c with world := c'.world, fst := c'.stack, fstRet := c'.ret }
    | _ => c
  else
    match shutter.step code ⟨c.world, c.snd, c.sndRet⟩ with
    | Step.next c' => { c with world := c'.world, snd := c'.stack, sndRet := c'.ret }
    | _ => c

/-- The state after the transitions that a schedule picks, one after the
other. -/
def Pair.exec (code : Nat → Body) : List Bool → Pair → Pair
  | [], c => c
  | pick :: sched, c => Pair.exec code sched (c.step code pick)

/-- The first goroutine calls `LockedInit(fn)` on `s` while the second calls
`Shutdown(e)` on `s`. -/
def race (s : Nat) (fn : Func) (e : Error) (w : World) : Pair :=
  { world := w, fst := [Frame.LockedInit s fn LockedInitPc.lock], fstRet := Error.nil,
    snd := [Frame.Shutdown s e ShutdownPc.once], sndRet := Error.nil }

/-! ## Code that does not shut down -/

/-- A function that calm code may give to `LockedInit`: a function literal
whose identifier is in `ok`. -/
def Func.calm (ok : Nat → Bool) : Func → Bool
  | .closure id => ok id
  | .propagate _ => false

/-- A statement of calm code: anything but `Shutdown` and `Bind`, with
`LockedInit` given a calm function only. -/
def Call.calm (ok : Nat → Bool) : Call → Bool
  | .Shutdown _ _ => false
  | .Bind _ _ => false
  | .LockedInit _ fn => fn.calm ok
  | _ => true

/-- An activation made by calm code: user code whose statements left are
calm, `LockedInit` with a calm function, a registration, `Err`. -/
def Frame.calm (ok : Nat → Bool) : Frame → Bool
  | .user _ rest _ => rest.all (Call.calm ok)
  | .Shutdown _ _ _ => false
  | .Bind _ _ _ => false
  | .LockedInit _ fn _ => fn.calm ok
  | _ => true

/-- The states of the race in which the terminating signal of `s` has not
fired: the first goroutine has returned, or is in `LockedInit` before `fn`,
or has `fn` and what `fn` called above its `LockedInit`, or is at the deferred
`Unlock`, and all its activations are calm; the second is in `Shutdown` at or
before `close(s.terminatingCh)`; the entry guard is held exactly when one
activation is between its `Lock` and its `Unlock`; and until the second has
taken the guard, the error and the invocations in the log are those of the
initial world `w0`. -/
structure Before (ok : Nat → Bool) (s : Nat) (fn : Func) (e : Error) (w0 : World)
    (c : Pair) : Prop where
  unfired : (c.world.shutters s).terminatingCh = false
  calm : c.fst.all (Frame.calm ok) = true
  fst : c.fst = [] ∨ c.fst = [Frame.LockedInit s fn LockedInitPc.lock] ∨
    c.fst = [Frame.LockedInit s fn LockedInitPc.check] ∨
    ∃ top, c.fst = top ++ [Frame.LockedInit s fn LockedInitPc.deferred]
  snd : c.snd = [Frame.Shutdown s e ShutdownPc.once] ∨
    c.snd = [Frame.Shutdown s e ShutdownPc.lock1] ∨
    c.snd = [Frame.Shutdown s e ShutdownPc.setErr] ∨
    c.snd = [Frame.Shutdown s e ShutdownPc.closeTerminating]
  lock : (c.fst ++ c.snd).countP (Frame.holdsLock s) = (c.world.shutters s).lock.toNat
  early : c.snd = [Frame.Shutdown s e ShutdownPc.once] ∨
      c.snd = [Frame.Shutdown s e ShutdownPc.lock1] →
    (c.world.shutters s).err = (w0.shutters s).err ∧
      invocations c.world.log = invocations w0.log
  gate : c.snd = [Frame.Shutdown s e ShutdownPc.once] → (c.world.shutters s).once = false

/-- The states of the race in which the terminating signal of `s` has fired:
the first goroutine is in `LockedInit` without running `fn`, or has
returned. -/
structure After (s : Nat) (fn : Func) (c : Pair) : Prop where
  fired : (c.world.shutters s).terminatingCh = true
  fst : c.fst = [Frame.LockedInit s fn LockedInitPc.lock] ∨
    c.fst = [Frame.LockedInit s fn LockedInitPc.check] ∨
    c.fst = [Frame.LockedInit s fn LockedInitPc.deferred] ∨ c.fst = []


/-! # Properties

## The state -/

@[simp] theorem World.set_shutters (w : World) (s : Nat) (sh : Shutter) (i : Nat) :
    (w.set s sh).shutters i = if i = s then sh else w.shutters i := rfl

@[simp] theorem World.set_log (w : World) (s : Nat) (sh : Shutter) :
    (w.set s sh).log = w.log := rfl

@[simp] theorem World.set_vars (w : World) (s : Nat) (sh : Shutter) :
    (w.set s sh).vars = w.vars := rfl

@[simp] theorem World.emit_shutters (w : World) (e : Event) :
    (w.emit e).shutters = w.shutters := rfl

@[simp] theorem World.emit_log (w : World) (e : Event) : (w.emit e).log = w.log ++ [e] := rfl

@[simp] theorem World.emit_vars (w : World) (e : Event) : (w.emit e).vars = w.vars := rfl

@[simp] theorem World.add_shutters (w : World) (v : Nat) (k : Int) :
    (w.add v k).shutters = w.shutters := rfl

@[simp] theorem World.add_log (w : World) (v : Nat) (k : Int) : (w.add v k).log = w.log := rfl

theorem firstShutdown_append (log : List Event) (ev : Event) (s : Nat) :
    firstShutdown (log ++ [ev]) s = (firstShutdown log s).or (ev.gateOf s) := by
  unfold firstShutdown
  rw [List.filterMap_append, List.head?_append]
  congr 1
  cases h : ev.gateOf s <;> simp [List.filterMap_cons, h]

theorem phaseScan_append (s : Nat) (log : List Event) (ev : Event) :
    phaseScan s (log ++ [ev]) = (phaseScan s log).bind (fun q => Event.phaseStep s q ev) := by
  simp [phaseScan, List.foldl_append]

/-! ## Counting activations -/

theorem countP_activeOther_le (s : Nat) (x : Option Error) (st : List Frame) :
    st.countP (Frame.activeOther s x) ≤ st.countP (Frame.active s) := by
  apply List.countP_mono_left
  intro f _ hf
  cases f <;> simp_all [Frame.activeOther, Frame.active]

theorem countP_tail_le (p : Frame → Bool) (st : List Frame) :
    st.tail.countP p ≤ st.countP p := by
  cases st with
  | nil => simp
  | cons a l => simp [List.countP_cons]

theorem all_tail_of_all (p : Frame → Bool) (st : List Frame) (h : st.all p = true) :
    st.tail.all p = true := by
  cases st with
  | nil => simp
  | cons a l => simp_all

theorem countP_beforeTerminating_le (s : Nat) (st : List Frame) :
    st.countP (Frame.beforeTerminating s) ≤ st.countP (Frame.beforeTerminated s) := by
  apply List.countP_mono_left
  intro f _ hf
  cases f with
  | Shutdown s' e pc =>
    cases pc <;>
      simp [Frame.beforeTerminating, Frame.beforeTerminated, ShutdownPc.beforeTerminating, ShutdownPc.beforeTerminated] at hf ⊢ <;>
      exact hf
  | _ => simp [Frame.beforeTerminating] at hf

theorem countP_beforeTerminated_le (s : Nat) (st : List Frame) :
    st.countP (Frame.beforeTerminated s) ≤ st.countP (Frame.active s) := by
  apply List.countP_mono_left
  intro f _ hf
  cases f with
  | Shutdown s' e pc =>
    cases pc <;>
      simp [Frame.beforeTerminated, Frame.active, ShutdownPc.beforeTerminated, ShutdownPc.active] at hf ⊢ <;>
      exact hf
  | _ => simp [Frame.beforeTerminated] at hf

theorem countP_beforeErr_le (s : Nat) (st : List Frame) :
    st.countP (Frame.beforeErr s) ≤ st.countP (Frame.beforeTerminating s) := by
  apply List.countP_mono_left
  intro f _ hf
  cases f with
  | Shutdown s' e pc =>
    cases pc <;>
      simp [Frame.beforeErr, Frame.beforeTerminating, ShutdownPc.beforeErr, ShutdownPc.beforeTerminating] at hf ⊢ <;>
      exact hf
  | _ => simp [Frame.beforeErr] at hf

/-! ## The invariant is kept by every transition -/

/-- A transition keeps `Inv.lock`. -/
theorem inv_step_lock (code : Nat → Body) (w : World) (f : Frame) (st : List Frame)
    (r : Error) (c' : Config) (h : Inv ⟨w, f :: st, r⟩)
    (hs : step code ⟨w, f :: st, r⟩ = Step.next c') (s' : Nat) :
    c'.stack.countP (Frame.holdsLock s') = (c'.world.shutters s').lock.toNat := by
  have h1 := h.lock s'
  rcases f with ⟨_ | g, _ | ⟨_ | _, rest⟩, p⟩ | ⟨s, e, _ | _ | _ | _ | _ | _ | _ | ⟨_ | _⟩ | _ | _ | _ | _ | _ | _ | ⟨_ | _⟩ | _⟩ |
    ⟨s, fn, _ | _⟩ | ⟨s, g, _ | _⟩ | ⟨s, g, _ | _⟩ | ⟨s, _ | _⟩ | ⟨p, q, _ | _⟩ <;>
    simp only [step, Frame.step, stepUser, stepShutdown, stepLockedInit, stepOnTerminating,
      stepOnTerminated, stepErr, stepBind, closeTerminatingCh, closeTerminatedCh,
      Shutter.IsTerminating, Shutter.IsTerminated] at hs <;>
    (try split_ifs at hs) <;>
    (try simp only [Step.next.injEq, reduceCtorEq] at hs) <;>
    (try subst hs) <;>
    simp [List.countP_cons, Frame.holdsLock, ShutdownPc.holdsLock,
      Frame.holdsTerminatingFuncLock, ShutdownPc.holdsTerminatingFuncLock,
      Frame.holdsTerminatedFuncLock, ShutdownPc.holdsTerminatedFuncLock, Frame.active,
      ShutdownPc.active, Frame.activeOther, Frame.beforeErr, ShutdownPc.beforeErr,
      Frame.beforeTerminating, ShutdownPc.beforeTerminating, Frame.beforeTerminated,
      ShutdownPc.beforeTerminated, firstShutdown_append, Event.gateOf, phaseScan_append,
      Event.phaseStep, -List.countP_eq_zero] at h1 ⊢ <;>
    (try split_ifs at h1 ⊢) <;>
    (try subst_vars) <;>
    (try simp_all [-List.countP_eq_zero]) <;> (try omega)

/-- A transition keeps `Inv.terminatingFuncLock`. -/
theorem inv_step_terminatingFuncLock (code : Nat → Body) (w : World) (f : Frame) (st : List Frame)
    (r : Error) (c' : Config) (h : Inv ⟨w, f :: st, r⟩)
    (hs : step code ⟨w, f :: st, r⟩ = Step.next c') (s' : Nat) :
    c'.stack.countP (Frame.holdsTerminatingFuncLock s')
      = (c'.world.shutters s').terminatingFuncLock.toNat := by
  have h1 := h.terminatingFuncLock s'
  rcases f with ⟨_ | g, _ | ⟨_ | _, rest⟩, p⟩ | ⟨s, e, _ | _ | _ | _ | _ | _ | _ | ⟨_ | _⟩ | _ | _ | _ | _ | _ | _ | ⟨_ | _⟩ | _⟩ |
    ⟨s, fn, _ | _⟩ | ⟨s, g, _ | _⟩ | ⟨s, g, _ | _⟩ | ⟨s, _ | _⟩ | ⟨p, q, _ | _⟩ <;>
    simp only [step, Frame.step, stepUser, stepShutdown, stepLockedInit, stepOnTerminating,
      stepOnTerminated, stepErr, stepBind, closeTerminatingCh, closeTerminatedCh,
      Shutter.IsTerminating, Shutter.IsTerminated] at hs <;>
    (try split_ifs at hs) <;>
    (try simp only [Step.next.injEq, reduceCtorEq] at hs) <;>
    (try subst hs) <;>
    simp [List.countP_cons, Frame.holdsLock, ShutdownPc.holdsLock,
      Frame.holdsTerminatingFuncLock, ShutdownPc.holdsTerminatingFuncLock,
      Frame.holdsTerminatedFuncLock, ShutdownPc.holdsTerminatedFuncLock, Frame.active,
      ShutdownPc.active, Frame.activeOther, Frame.beforeErr, ShutdownPc.beforeErr,
      Frame.beforeTerminating, ShutdownPc.beforeTerminating, Frame.beforeTerminated,
      ShutdownPc.beforeTerminated, firstShutdown_append, Event.gateOf, phaseScan_append,
      Event.phaseStep, -List.countP_eq_zero] at h1 ⊢ <;>
    (try split_ifs at h1 ⊢) <;>
    (try subst_vars) <;>
    (try simp_all [-List.countP_eq_zero]) <;> (try omega)

/-- A transition keeps `Inv.terminatedFuncLock`. -/
theorem inv_step_terminatedFuncLock (code : Nat → Body) (w : World) (f : Frame) (st : List Frame)
    (r : Error) (c' : Config) (h : Inv ⟨w, f :: st, r⟩)
    (hs : step code ⟨w, f :: st, r⟩ = Step.next c') (s' : Nat) :
    c'.stack.countP (Frame.holdsTerminatedFuncLock s')
      = (c'.world.shutters s').terminatedFuncLock.toNat := by
  have h1 := h.terminatedFuncLock s'
  rcases f with ⟨_ | g, _ | ⟨_ | _, rest⟩, p⟩ | ⟨s, e, _ | _ | _ | _ | _ | _ | _ | ⟨_ | _⟩ | _ | _ | _ | _ | _ | _ | ⟨_ | _⟩ | _⟩ |
    ⟨s, fn, _ | _⟩ | ⟨s, g, _ | _⟩ | ⟨s, g, _ | _⟩ | ⟨s, _ | _⟩ | ⟨p, q, _ | _⟩ <;>
    simp only [step, Frame.step, stepUser, stepShutdown, stepLockedInit, stepOnTerminating,
      stepOnTerminated, stepErr, stepBind, closeTerminatingCh, closeTerminatedCh,
      Shutter.IsTerminating, Shutter.IsTerminated] at hs <;>
    (try split_ifs at hs) <;>
    (try simp only [Step.next.injEq, reduceCtorEq] at hs) <;>
    (try subst hs) <;>
    simp [List.countP_cons, Frame.holdsLock, ShutdownPc.holdsLock,
      Frame.holdsTerminatingFuncLock, ShutdownPc.holdsTerminatingFuncLock,
      Frame.holdsTerminatedFuncLock, ShutdownPc.holdsTerminatedFuncLock, Frame.active,
      ShutdownPc.active, Frame.activeOther, Frame.beforeErr, ShutdownPc.beforeErr,
      Frame.beforeTerminating, ShutdownPc.beforeTerminating, Frame.beforeTerminated,
      ShutdownPc.beforeTerminated, firstShutdown_append, Event.gateOf, phaseScan_append,
      Event.phaseStep, -List.countP_eq_zero] at h1 ⊢ <;>
    (try split_ifs at h1 ⊢) <;>
    (try subst_vars) <;>
    (try simp_all [-List.countP_eq_zero]) <;> (try omega)

/-- A transition keeps `Inv.active`. -/
theorem inv_step_active (code : Nat → Body) (w : World) (f : Frame) (st : List Frame)
    (r : Error) (c' : Config) (h : Inv ⟨w, f :: st, r⟩)
    (hs : step code ⟨w, f :: st, r⟩ = Step.next c') (s' : Nat) :
    c'.stack.countP (Frame.active s') ≤ (c'.world.shutters s').once.toNat := by
  have h1 := h.active s'
  rcases f with ⟨_ | g, _ | ⟨_ | _, rest⟩, p⟩ | ⟨s, e, _ | _ | _ | _ | _ | _ | _ | ⟨_ | _⟩ | _ | _ | _ | _ | _ | _ | ⟨_ | _⟩ | _⟩ |
    ⟨s, fn, _ | _⟩ | ⟨s, g, _ | _⟩ | ⟨s, g, _ | _⟩ | ⟨s, _ | _⟩ | ⟨p, q, _ | _⟩ <;>
    simp only [step, Frame.step, stepUser, stepShutdown, stepLockedInit, stepOnTerminating,
      stepOnTerminated, stepErr, stepBind, closeTerminatingCh, closeTerminatedCh,
      Shutter.IsTerminating, Shutter.IsTerminated] at hs <;>
    (try split_ifs at hs) <;>
    (try simp only [Step.next.injEq, reduceCtorEq] at hs) <;>
    (try subst hs) <;>
    simp [List.countP_cons, Frame.holdsLock, ShutdownPc.holdsLock,
      Frame.holdsTerminatingFuncLock, ShutdownPc.holdsTerminatingFuncLock,
      Frame.holdsTerminatedFuncLock, ShutdownPc.holdsTerminatedFuncLock, Frame.active,
      ShutdownPc.active, Frame.activeOther, Frame.beforeErr, ShutdownPc.beforeErr,
      Frame.beforeTerminating, ShutdownPc.beforeTerminating, Frame.beforeTerminated,
      ShutdownPc.beforeTerminated, firstShutdown_append, Event.gateOf, phaseScan_append,
      Event.phaseStep, -List.countP_eq_zero] at h1 ⊢ <;>
    (try split_ifs at h1 ⊢) <;>
    (try subst_vars) <;>
    (try simp_all [-List.countP_eq_zero]) <;> (try omega)

/-- A transition keeps `Inv.terminating`. -/
theorem inv_step_terminating (code : Nat → Body) (w : World) (f : Frame) (st : List Frame)
    (r : Error) (c' : Config) (h : Inv ⟨w, f :: st, r⟩)
    (hs : step code ⟨w, f :: st, r⟩ = Step.next c') (s' : Nat) :
    (c'.world.shutters s').terminatingCh.toNat + c'.stack.countP (Frame.beforeTerminating s')
      = (c'.world.shutters s').once.toNat := by
  have h1 := h.terminating s'
  rcases f with ⟨_ | g, _ | ⟨_ | _, rest⟩, p⟩ | ⟨s, e, _ | _ | _ | _ | _ | _ | _ | ⟨_ | _⟩ | _ | _ | _ | _ | _ | _ | ⟨_ | _⟩ | _⟩ |
    ⟨s, fn, _ | _⟩ | ⟨s, g, _ | _⟩ | ⟨s, g, _ | _⟩ | ⟨s, _ | _⟩ | ⟨p, q, _ | _⟩ <;>
    simp only [step, Frame.step, stepUser, stepShutdown, stepLockedInit, stepOnTerminating,
      stepOnTerminated, stepErr, stepBind, closeTerminatingCh, closeTerminatedCh,
      Shutter.IsTerminating, Shutter.IsTerminated] at hs <;>
    (try split_ifs at hs) <;>
    (try simp only [Step.next.injEq, reduceCtorEq] at hs) <;>
    (try subst hs) <;>
    simp [List.countP_cons, Frame.holdsLock, ShutdownPc.holdsLock,
      Frame.holdsTerminatingFuncLock, ShutdownPc.holdsTerminatingFuncLock,
      Frame.holdsTerminatedFuncLock, ShutdownPc.holdsTerminatedFuncLock, Frame.active,
      ShutdownPc.active, Frame.activeOther, Frame.beforeErr, ShutdownPc.beforeErr,
      Frame.beforeTerminating, ShutdownPc.beforeTerminating, Frame.beforeTerminated,
      ShutdownPc.beforeTerminated, firstShutdown_append, Event.gateOf, phaseScan_append,
      Event.phaseStep, -List.countP_eq_zero] at h1 ⊢ <;>
    (try split_ifs at h1 ⊢) <;>
    (try subst_vars) <;>
    (try simp_all [-List.countP_eq_zero]) <;> (try omega)

/-- A transition keeps `Inv.terminated`. -/
theorem inv_step_terminated (code : Nat → Body) (w : World) (f : Frame) (st : List Frame)
    (r : Error) (c' : Config) (h : Inv ⟨w, f :: st, r⟩)
    (hs : step code ⟨w, f :: st, r⟩ = Step.next c') (s' : Nat) :
    (c'.world.shutters s').terminatedCh.toNat + c'.stack.countP (Frame.beforeTerminated s')
      = (c'.world.shutters s').once.toNat := by
  have h1 := h.terminated s'
  rcases f with ⟨_ | g, _ | ⟨_ | _, rest⟩, p⟩ | ⟨s, e, _ | _ | _ | _ | _ | _ | _ | ⟨_ | _⟩ | _ | _ | _ | _ | _ | _ | ⟨_ | _⟩ | _⟩ |
    ⟨s, fn, _ | _⟩ | ⟨s, g, _ | _⟩ | ⟨s, g, _ | _⟩ | ⟨s, _ | _⟩ | ⟨p, q, _ | _⟩ <;>
    simp only [step, Frame.step, stepUser, stepShutdown, stepLockedInit, stepOnTerminating,
      stepOnTerminated, stepErr, stepBind, closeTerminatingCh, closeTerminatedCh,
      Shutter.IsTerminating, Shutter.IsTerminated] at hs <;>
    (try split_ifs at hs) <;>
    (try simp only [Step.next.injEq, reduceCtorEq] at hs) <;>
    (try subst hs) <;>
    simp [List.countP_cons, Frame.holdsLock, ShutdownPc.holdsLock,
      Frame.holdsTerminatingFuncLock, ShutdownPc.holdsTerminatingFuncLock,
      Frame.holdsTerminatedFuncLock, ShutdownPc.holdsTerminatedFuncLock, Frame.active,
      ShutdownPc.active, Frame.activeOther, Frame.beforeErr, ShutdownPc.beforeErr,
      Frame.beforeTerminating, ShutdownPc.beforeTerminating, Frame.beforeTerminated,
      ShutdownPc.beforeTerminated, firstShutdown_append, Event.gateOf, phaseScan_append,
      Event.phaseStep, -List.countP_eq_zero] at h1 ⊢ <;>
    (try split_ifs at h1 ⊢) <;>
    (try subst_vars) <;>
    (try simp_all [-List.countP_eq_zero]) <;> (try omega)

/-- A transition keeps `Inv.first`. -/
theorem inv_step_first (code : Nat → Body) (w : World) (f : Frame) (st : List Frame)
    (r : Error) (c' : Config) (h : Inv ⟨w, f :: st, r⟩)
    (hs : step code ⟨w, f :: st, r⟩ = Step.next c') (s' : Nat) :
    (firstShutdown c'.world.log s').isSome = (c'.world.shutters s').once := by
  have h1 := h.first s'
  rcases f with ⟨_ | g, _ | ⟨_ | _, rest⟩, p⟩ | ⟨s, e, _ | _ | _ | _ | _ | _ | _ | ⟨_ | _⟩ | _ | _ | _ | _ | _ | _ | ⟨_ | _⟩ | _⟩ |
    ⟨s, fn, _ | _⟩ | ⟨s, g, _ | _⟩ | ⟨s, g, _ | _⟩ | ⟨s, _ | _⟩ | ⟨p, q, _ | _⟩ <;>
    simp only [step, Frame.step, stepUser, stepShutdown, stepLockedInit, stepOnTerminating,
      stepOnTerminated, stepErr, stepBind, closeTerminatingCh, closeTerminatedCh,
      Shutter.IsTerminating, Shutter.IsTerminated] at hs <;>
    (try split_ifs at hs) <;>
    (try simp only [Step.next.injEq, reduceCtorEq] at hs) <;>
    (try subst hs) <;>
    simp [List.countP_cons, Frame.holdsLock, ShutdownPc.holdsLock,
      Frame.holdsTerminatingFuncLock, ShutdownPc.holdsTerminatingFuncLock,
      Frame.holdsTerminatedFuncLock, ShutdownPc.holdsTerminatedFuncLock, Frame.active,
      ShutdownPc.active, Frame.activeOther, Frame.beforeErr, ShutdownPc.beforeErr,
      Frame.beforeTerminating, ShutdownPc.beforeTerminating, Frame.beforeTerminated,
      ShutdownPc.beforeTerminated, firstShutdown_append, Event.gateOf, phaseScan_append,
      Event.phaseStep, -List.countP_eq_zero] at h1 ⊢ <;>
    (try split_ifs at h1 ⊢) <;>
    (try subst_vars) <;>
    (try simp_all [-List.countP_eq_zero]) <;> (try omega)

/-- A transition keeps `Inv.winner`. -/
theorem inv_step_winner (code : Nat → Body) (w : World) (f : Frame) (st : List Frame)
    (r : Error) (c' : Config) (h : Inv ⟨w, f :: st, r⟩)
    (hs : step code ⟨w, f :: st, r⟩ = Step.next c') (s' : Nat) :
    c'.stack.countP (Frame.activeOther s' (firstShutdown c'.world.log s')) = 0 := by
  have h1 := h.winner s'
  have h2 := h.first s'
  have h3 := h.active s'
  have hm := fun x => countP_activeOther_le s' x st
  rcases hfs : firstShutdown w.log s' with _ | e0 <;> rw [hfs] at h1 h2 <;>
  rcases f with ⟨_ | g, _ | ⟨_ | _, rest⟩, p⟩ | ⟨s, e, _ | _ | _ | _ | _ | _ | _ | ⟨_ | _⟩ | _ | _ | _ | _ | _ | _ | ⟨_ | _⟩ | _⟩ |
    ⟨s, fn, _ | _⟩ | ⟨s, g, _ | _⟩ | ⟨s, g, _ | _⟩ | ⟨s, _ | _⟩ | ⟨p, q, _ | _⟩ <;>
    simp only [step, Frame.step, stepUser, stepShutdown, stepLockedInit, stepOnTerminating,
      stepOnTerminated, stepErr, stepBind, closeTerminatingCh, closeTerminatedCh,
      Shutter.IsTerminating, Shutter.IsTerminated] at hs <;>
    (try split_ifs at hs) <;>
    (try simp only [Step.next.injEq, reduceCtorEq] at hs) <;>
    (try subst hs) <;>
    simp [List.countP_cons, Frame.holdsLock, ShutdownPc.holdsLock,
      Frame.holdsTerminatingFuncLock, ShutdownPc.holdsTerminatingFuncLock,
      Frame.holdsTerminatedFuncLock, ShutdownPc.holdsTerminatedFuncLock, Frame.active,
      ShutdownPc.active, Frame.activeOther, Frame.beforeErr, ShutdownPc.beforeErr,
      Frame.beforeTerminating, ShutdownPc.beforeTerminating, Frame.beforeTerminated,
      ShutdownPc.beforeTerminated, firstShutdown_append, Event.gateOf, phaseScan_append,
      Event.phaseStep, -List.countP_eq_zero] at h1 h2 h3 ⊢ <;>
    (try split_ifs at h1 h2 h3 ⊢) <;>
    (try subst_vars) <;>
    (try simp_all [-List.countP_eq_zero]) <;> (try omega) <;>
    (try exact Nat.eq_zero_of_le_zero (le_trans (hm _) (by omega)))

/-- A transition keeps `Inv.err`. -/
theorem inv_step_err (code : Nat → Body) (w : World) (f : Frame) (st : List Frame)
    (r : Error) (c' : Config) (h : Inv ⟨w, f :: st, r⟩)
    (hs : step code ⟨w, f :: st, r⟩ = Step.next c') (s' : Nat) :
    (c'.world.shutters s').once = true → c'.stack.countP (Frame.beforeErr s') = 0 →
      firstShutdown c'.world.log s' = some (c'.world.shutters s').err := by
  have h1 := h.err s'
  have h2 := h.first s'
  have h3 := h.winner s'
  rcases hfs : firstShutdown w.log s' with _ | e0 <;> rw [hfs] at h1 h2 h3 <;>
  rcases f with ⟨_ | g, _ | ⟨_ | _, rest⟩, p⟩ | ⟨s, e, _ | _ | _ | _ | _ | _ | _ | ⟨_ | _⟩ | _ | _ | _ | _ | _ | _ | ⟨_ | _⟩ | _⟩ |
    ⟨s, fn, _ | _⟩ | ⟨s, g, _ | _⟩ | ⟨s, g, _ | _⟩ | ⟨s, _ | _⟩ | ⟨p, q, _ | _⟩ <;>
    simp only [step, Frame.step, stepUser, stepShutdown, stepLockedInit, stepOnTerminating,
      stepOnTerminated, stepErr, stepBind, closeTerminatingCh, closeTerminatedCh,
      Shutter.IsTerminating, Shutter.IsTerminated] at hs <;>
    (try split_ifs at hs) <;>
    (try simp only [Step.next.injEq, reduceCtorEq] at hs) <;>
    (try subst hs) <;>
    simp [List.countP_cons, Frame.holdsLock, ShutdownPc.holdsLock,
      Frame.holdsTerminatingFuncLock, ShutdownPc.holdsTerminatingFuncLock,
      Frame.holdsTerminatedFuncLock, ShutdownPc.holdsTerminatedFuncLock, Frame.active,
      ShutdownPc.active, Frame.activeOther, Frame.beforeErr, ShutdownPc.beforeErr,
      Frame.beforeTerminating, ShutdownPc.beforeTerminating, Frame.beforeTerminated,
      ShutdownPc.beforeTerminated, firstShutdown_append, Event.gateOf, phaseScan_append,
      Event.phaseStep, -List.countP_eq_zero] at h1 h2 h3 ⊢ <;>
    (try split_ifs at h1 h2 h3 ⊢) <;>
    (try subst_vars) <;>
    (try simp_all [-List.countP_eq_zero]) <;> (try omega) <;>
    (try (intro hc; exact h1 hc (fun hh => absurd hh.symm (by assumption))))

/-- A transition keeps `Inv.guarded`. -/
theorem inv_step_guarded (code : Nat → Body) (w : World) (f : Frame) (st : List Frame)
    (r : Error) (c' : Config) (h : Inv ⟨w, f :: st, r⟩)
    (hs : step code ⟨w, f :: st, r⟩ = Step.next c') (s' : Nat) :
    (c'.world.shutters s').terminatingCh = true →
      c'.stack.tail.countP (Frame.holdsLock s') = 0 := by
  have h1 := h.guarded s'
  have h2 := h.lock s'
  have ht := countP_tail_le (Frame.holdsLock s') st
  have hb := Bool.toNat_le (w.shutters s').lock
  rcases f with ⟨_ | g, _ | ⟨_ | _, rest⟩, p⟩ | ⟨s, e, _ | _ | _ | _ | _ | _ | _ | ⟨_ | _⟩ | _ | _ | _ | _ | _ | _ | ⟨_ | _⟩ | _⟩ |
    ⟨s, fn, _ | _⟩ | ⟨s, g, _ | _⟩ | ⟨s, g, _ | _⟩ | ⟨s, _ | _⟩ | ⟨p, q, _ | _⟩ <;>
    simp only [step, Frame.step, stepUser, stepShutdown, stepLockedInit, stepOnTerminating,
      stepOnTerminated, stepErr, stepBind, closeTerminatingCh, closeTerminatedCh,
      Shutter.IsTerminating, Shutter.IsTerminated] at hs <;>
    (try split_ifs at hs) <;>
    (try simp only [Step.next.injEq, reduceCtorEq] at hs) <;>
    (try subst hs) <;>
    simp [List.countP_cons, Frame.holdsLock, ShutdownPc.holdsLock,
      Frame.holdsTerminatingFuncLock, ShutdownPc.holdsTerminatingFuncLock,
      Frame.holdsTerminatedFuncLock, ShutdownPc.holdsTerminatedFuncLock, Frame.active,
      ShutdownPc.active, Frame.activeOther, Frame.beforeErr, ShutdownPc.beforeErr,
      Frame.beforeTerminating, ShutdownPc.beforeTerminating, Frame.beforeTerminated,
      ShutdownPc.beforeTerminated, firstShutdown_append, Event.gateOf, phaseScan_append,
      Event.phaseStep, -List.countP_eq_zero] at h1 h2 ⊢ <;>
    (try split_ifs at h1 h2 ⊢) <;>
    (try subst_vars) <;>
    (try simp_all [-List.countP_eq_zero]) <;> (try omega) <;>
    (try (intro hc; have h5 := h1 hc; simp_all [-List.countP_eq_zero]; done))

/-- A transition keeps `Inv.callers`. -/
theorem inv_step_callers (code : Nat → Body) (w : World) (f : Frame) (st : List Frame)
    (r : Error) (c' : Config) (h : Inv ⟨w, f :: st, r⟩)
    (hs : step code ⟨w, f :: st, r⟩ = Step.next c') :
    c'.stack.tail.all Frame.isCaller = true := by
  have h1 : st.all Frame.isCaller = true := h.callers
  have ht := all_tail_of_all Frame.isCaller st h1
  rcases f with ⟨_ | g, _ | ⟨_ | _, rest⟩, p⟩ | ⟨s, e, _ | _ | _ | _ | _ | _ | _ | ⟨_ | _⟩ | _ | _ | _ | _ | _ | _ | ⟨_ | _⟩ | _⟩ |
    ⟨s, fn, _ | _⟩ | ⟨s, g, _ | _⟩ | ⟨s, g, _ | _⟩ | ⟨s, _ | _⟩ | ⟨p, q, _ | _⟩ <;>
    simp only [step, Frame.step, stepUser, stepShutdown, stepLockedInit, stepOnTerminating,
      stepOnTerminated, stepErr, stepBind, closeTerminatingCh, closeTerminatedCh,
      Shutter.IsTerminating, Shutter.IsTerminated] at hs <;>
    (try split_ifs at hs) <;>
    (try simp only [Step.next.injEq, reduceCtorEq] at hs) <;>
    (try subst hs) <;>
    first
    | exact h1
    | exact ht
    | (simp only [List.tail_cons, List.all_cons, Frame.isCaller, Bool.true_and]; exact h1)

/-- A transition keeps `Inv.order`. -/
theorem inv_step_order (code : Nat → Body) (w : World) (f : Frame) (st : List Frame)
    (r : Error) (c' : Config) (h : Inv ⟨w, f :: st, r⟩)
    (hs : step code ⟨w, f :: st, r⟩ = Step.next c') (s' : Nat) :
    phaseScan s' c'.world.log
      = some ((c'.world.shutters s').terminatingCh, (c'.world.shutters s').terminatedCh) := by
  have h1 := h.order s'
  have h2 := h.terminating s'
  have h3 := h.terminated s'
  have h4 := h.active s'
  have m1 := countP_beforeTerminating_le s' st
  have m2 := countP_beforeTerminated_le s' st
  have b1 := Bool.toNat_le (w.shutters s').once
  rcases f with ⟨_ | g, _ | ⟨_ | _, rest⟩, p⟩ | ⟨s, e, _ | _ | _ | _ | _ | _ | _ | ⟨_ | _⟩ | _ | _ | _ | _ | _ | _ | ⟨_ | _⟩ | _⟩ |
    ⟨s, fn, _ | _⟩ | ⟨s, g, _ | _⟩ | ⟨s, g, _ | _⟩ | ⟨s, _ | _⟩ | ⟨p, q, _ | _⟩ <;>
    simp only [step, Frame.step, stepUser, stepShutdown, stepLockedInit, stepOnTerminating,
      stepOnTerminated, stepErr, stepBind, closeTerminatingCh, closeTerminatedCh,
      Shutter.IsTerminating, Shutter.IsTerminated] at hs <;>
    (try split_ifs at hs) <;>
    (try simp only [Step.next.injEq, reduceCtorEq] at hs) <;>
    (try subst hs) <;>
    simp [List.countP_cons, Frame.holdsLock, ShutdownPc.holdsLock,
      Frame.holdsTerminatingFuncLock, ShutdownPc.holdsTerminatingFuncLock,
      Frame.holdsTerminatedFuncLock, ShutdownPc.holdsTerminatedFuncLock, Frame.active,
      ShutdownPc.active, Frame.activeOther, Frame.beforeErr, ShutdownPc.beforeErr,
      Frame.beforeTerminating, ShutdownPc.beforeTerminating, Frame.beforeTerminated,
      ShutdownPc.beforeTerminated, firstShutdown_append, Event.gateOf, phaseScan_append,
      Event.phaseStep, -List.countP_eq_zero] at h1 h2 h3 h4 ⊢ <;>
    (try split_ifs at h1 h2 h3 h4 ⊢) <;>
    (try subst_vars) <;>
    (try simp_all [-List.countP_eq_zero]) <;> (try omega) <;>
    (try (rcases hA : (w.shutters s).terminatingCh <;> rcases hB : (w.shutters s).terminatedCh <;>
      simp_all [-List.countP_eq_zero] <;> omega))

/-- Every transition keeps the invariant. -/
theorem Inv.step {code : Nat → Body} {c c' : Config} (h : Inv c)
    (hs : step code c = Step.next c') : Inv c' := by
  obtain ⟨w, st, r⟩ := c
  cases st with
  | nil => simp [shutter.step] at hs
  | cons f st =>
    exact
      { lock := inv_step_lock code w f st r c' h hs
        terminatingFuncLock := inv_step_terminatingFuncLock code w f st r c' h hs
        terminatedFuncLock := inv_step_terminatedFuncLock code w f st r c' h hs
        active := inv_step_active code w f st r c' h hs
        terminating := inv_step_terminating code w f st r c' h hs
        terminated := inv_step_terminated code w f st r c' h hs
        first := inv_step_first code w f st r c' h hs
        winner := inv_step_winner code w f st r c' h hs
        err := inv_step_err code w f st r c' h hs
        guarded := inv_step_guarded code w f st r c' h hs
        callers := inv_step_callers code w f st r c' h hs
        order := inv_step_order code w f st r c' h hs }

/-- The invariant holds when the main program starts. -/
theorem Inv.start (main : List Call) : Inv (start main) := by
  constructor <;>
    simp [shutter.start, World.init, New, Frame.holdsLock, Frame.holdsTerminatingFuncLock,
      Frame.holdsTerminatedFuncLock, Frame.active, Frame.activeOther, Frame.beforeErr,
      Frame.beforeTerminating, Frame.beforeTerminated, firstShutdown, phaseScan]

/-- The invariant holds after any number of transitions. -/
theorem Inv.exec (code : Nat → Body) (n : Nat) {c : Config} (h : Inv c) :
    Inv (exec code n c) := by
  induction n generalizing c with
  | zero => exact h
  | succ n ih =>
    unfold shutter.exec
    split
    · next c' hs => exact ih (h.step hs)
    · exact h

/-- The invariant holds in every configuration a program reaches. -/
theorem inv_reach (code : Nat → Body) (main : List Call) (n : Nat) :
    Inv (exec code n (start main)) :=
  Inv.exec code n (Inv.start main)


/-! ## Runs -/

theorem exec_zero (code : Nat → Body) (c : Config) : exec code 0 c = c := rfl

theorem exec_succ_of_next {code : Nat → Body} {c c' : Config} (n : Nat)
    (h : step code c = Step.next c') : exec code (n + 1) c = exec code n c' := by
  simp [exec, h]

theorem exec_of_not_next {code : Nat → Body} {c : Config} (n : Nat)
    (h : ∀ c', step code c ≠ Step.next c') : exec code n c = c := by
  cases n with
  | zero => rfl
  | succ n =>
    unfold exec
    split
    · next c' hs => exact absurd hs (h c')
    · rfl

theorem exec_add (code : Nat → Body) (a b : Nat) (c : Config) :
    exec code (a + b) c = exec code b (exec code a c) := by
  induction a generalizing c with
  | zero => simp [exec]
  | succ a ih =>
    rw [Nat.add_right_comm]
    cases hs : step code c with
    | next c' => rw [exec_succ_of_next _ hs, exec_succ_of_next _ hs, ih]
    | _ =>
      have hn : ∀ c', step code c ≠ Step.next c' := by
        intro c' h
        rw [hs] at h
        cases h
      rw [exec_of_not_next _ hn, exec_of_not_next _ hn, exec_of_not_next _ hn]

/-- A property kept by every transition is kept by every run. -/
theorem exec_induction (code : Nat → Body) (P : Config → Prop)
    (hstep : ∀ c c', P c → step code c = Step.next c' → P c') (n : Nat) (c : Config)
    (h : P c) : P (exec code n c) := by
  induction n generalizing c with
  | zero => exact h
  | succ n ih =>
    unfold exec
    split
    · next c' hs => exact ih c' (hstep c c' h hs)
    · exact h

/-- A relation to the first configuration that every transition extends holds
along every run. -/
theorem exec_rel {code : Nat → Body} (R : Config → Config → Prop) (hrefl : ∀ c, R c c)
    (hstep : ∀ c0 c c', R c0 c → step code c = Step.next c' → R c0 c') (n : Nat)
    (c : Config) : R c (exec code n c) :=
  exec_induction code (R c) (hstep c) n c (hrefl c)

theorem Config.le_refl (c : Config) : c.le c :=
  ⟨fun _ h => h, fun _ h => h, fun _ h => h, List.prefix_refl _, fun _ => List.prefix_refl _,
    fun _ => List.prefix_refl _⟩

theorem Config.le_trans {a b c : Config} (h1 : a.le b) (h2 : b.le c) : a.le c :=
  ⟨fun s h => h2.terminating s (h1.terminating s h), fun s h => h2.terminated s (h1.terminated s h),
    fun s h => h2.once s (h1.once s h), h1.log.trans h2.log,
    fun s => (h1.terminatingFunc s).trans (h2.terminatingFunc s),
    fun s => (h1.terminatedFunc s).trans (h2.terminatedFunc s)⟩

theorem step_le (code : Nat → Body) (w : World) (f : Frame) (st : List Frame) (r : Error)
    (c' : Config) (hs : step code ⟨w, f :: st, r⟩ = Step.next c') :
    Config.le ⟨w, f :: st, r⟩ c' := by
  rcases f with ⟨_ | g, _ | ⟨_ | _, rest⟩, p⟩ | ⟨s, e, _ | _ | _ | _ | _ | _ | _ | ⟨_ | _⟩ | _ | _ | _ | _ | _ | _ | ⟨_ | _⟩ | _⟩ |
    ⟨s, fn, _ | _⟩ | ⟨s, g, _ | _⟩ | ⟨s, g, _ | _⟩ | ⟨s, _ | _⟩ | ⟨p, q, _ | _⟩ <;>
    simp only [step, Frame.step, stepUser, stepShutdown, stepLockedInit, stepOnTerminating,
      stepOnTerminated, stepErr, stepBind, closeTerminatingCh, closeTerminatedCh,
      Shutter.IsTerminating, Shutter.IsTerminated] at hs <;>
    (try split_ifs at hs) <;>
    (try simp only [Step.next.injEq, reduceCtorEq] at hs) <;>
    (try subst hs) <;>
    constructor <;> (try intro s') <;> simp <;> (try split_ifs) <;> (try subst_vars) <;>
    simp_all

theorem Config.le_step {code : Nat → Body} {c c' : Config}
    (hs : step code c = Step.next c') : c.le c' := by
  obtain ⟨w, st, r⟩ := c
  cases st with
  | nil => simp [step] at hs
  | cons f st => exact step_le code w f st r c' hs

theorem Config.le_exec (code : Nat → Body) (n : Nat) (c : Config) : c.le (exec code n c) :=
  exec_rel Config.le Config.le_refl (fun _ _ _ h hs => Config.le_trans h (Config.le_step hs)) n c

theorem firstShutdown_mono {l l' : List Event} (h : l <+: l') (s : Nat) (e : Error)
    (hf : firstShutdown l s = some e) : firstShutdown l' s = some e := by
  obtain ⟨t, rfl⟩ := h
  unfold firstShutdown at hf ⊢
  rw [List.filterMap_append, List.head?_append, hf]
  rfl


/-! ## Phase ordering -/

theorem terminating_of_terminated {c : Config} (h : Inv c) (s : Nat)
    (ht : (c.world.shutters s).terminatedCh = true) :
    (c.world.shutters s).terminatingCh = true := by
  have h1 := h.terminating s
  have h2 := h.terminated s
  have m := countP_beforeTerminating_le s c.stack
  have b := Bool.toNat_le (c.world.shutters s).once
  rw [ht] at h2
  cases hc : (c.world.shutters s).terminatingCh
  · rw [hc] at h1
    simp at h1 h2
    omega
  · rfl

/-- C3: in every configuration a program reaches, also in the middle of a
`Shutdown` and inside callbacks, `IsTerminated()` implies `IsTerminating()`;
and once a signal has fired it stays fired in every later configuration. -/
theorem phase_ordering (code : Nat → Body) (main : List Call) (n m s : Nat) :
    (((exec code n (start main)).world.shutters s).IsTerminated = true →
      ((exec code n (start main)).world.shutters s).IsTerminating = true) ∧
    (((exec code n (start main)).world.shutters s).IsTerminating = true →
      ((exec code m (exec code n (start main))).world.shutters s).IsTerminating = true) ∧
    (((exec code n (start main)).world.shutters s).IsTerminated = true →
      ((exec code m (exec code n (start main))).world.shutters s).IsTerminated = true) :=
  ⟨terminating_of_terminated (inv_reach code main n) s,
    (Config.le_exec code m _).terminating s, (Config.le_exec code m _).terminated s⟩

theorem phase_ordering_witness :
    ((exec exampleCode 60 (start exampleMulti)).world.shutters 0).IsTerminated = true ∧
    ((exec exampleCode 60 (start exampleMulti)).world.shutters 0).IsTerminating = true :=
  ⟨by decide, (phase_ordering exampleCode exampleMulti 60 0 0).1 (by decide)⟩


/-! ## The error -/

theorem once_of_terminating {c : Config} (h : Inv c) (s : Nat)
    (ht : (c.world.shutters s).terminatingCh = true) :
    (c.world.shutters s).once = true ∧ c.stack.countP (Frame.beforeTerminating s) = 0 := by
  have h1 := h.terminating s
  have b := Bool.toNat_le (c.world.shutters s).once
  rw [ht] at h1
  simp at h1
  constructor
  · cases ho : (c.world.shutters s).once
    · rw [ho] at h1
      simp at h1
    · rfl
  · omega

theorem err_of_terminating {c : Config} (h : Inv c) (s : Nat)
    (ht : (c.world.shutters s).terminatingCh = true) :
    firstShutdown c.world.log s = some (c.world.shutters s).err := by
  obtain ⟨ho, hb⟩ := once_of_terminating h s ht
  have m := countP_beforeErr_le s c.stack
  exact h.err s ho (by omega)

/-- C5: in every configuration a program reaches in which `IsTerminating()`
is true, the stored error is the argument of the first `Shutdown` call on
that coordinator, and it is the same in every later configuration. -/
theorem err_immutable (code : Nat → Body) (main : List Call) (n m s : Nat) :
    (((exec code n (start main)).world.shutters s).IsTerminating = true →
      firstShutdown (exec code n (start main)).world.log s
        = some ((exec code n (start main)).world.shutters s).err) ∧
    (((exec code n (start main)).world.shutters s).IsTerminating = true →
      ((exec code m (exec code n (start main))).world.shutters s).err
        = ((exec code n (start main)).world.shutters s).err) := by
  have hi := inv_reach code main n
  refine ⟨err_of_terminating hi s, fun ht => ?_⟩
  have hle := Config.le_exec code m (exec code n (start main))
  have h1 := err_of_terminating hi s ht
  have h2 := err_of_terminating (Inv.exec code m hi) s (hle.terminating s ht)
  rw [firstShutdown_mono hle.log s _ h1] at h2
  exact (Option.some.inj h2).symm

theorem err_immutable_witness :
    ((exec exampleCode 5 (start exampleTwice)).world.shutters 0).IsTerminating = true ∧
    firstShutdown (exec exampleCode 5 (start exampleTwice)).world.log 0 = some (Error.New 1) ∧
    ((exec exampleCode 40 (exec exampleCode 5 (start exampleTwice))).world.shutters 0).err
      = Error.New 1 :=
  ⟨by decide,
    ((err_immutable exampleCode exampleTwice 5 40 0).1 (by decide)).trans (by decide),
    ((err_immutable exampleCode exampleTwice 5 40 0).2 (by decide)).trans (by decide)⟩


/-! ## Signals and callbacks -/

theorem countP_add_le (p q r : Frame → Bool) (st : List Frame)
    (hpq : ∀ f, p f = true → q f = true → False) (hp : ∀ f, p f = true → r f = true)
    (hq : ∀ f, q f = true → r f = true) :
    st.countP p + st.countP q ≤ st.countP r := by
  induction st with
  | nil => simp
  | cons a l ih =>
    simp only [List.countP_cons]
    have h1 := hpq a
    have h2 := hp a
    have h3 := hq a
    cases hpa : p a <;> cases hqa : q a <;> cases hra : r a <;> simp_all <;> omega

theorem countP_terminatingLoop_le (s : Nat) (st : List Frame) :
    st.countP (Frame.beforeTerminating s) + st.countP (Frame.inTerminatingLoop s)
      ≤ st.countP (Frame.active s) := by
  apply countP_add_le <;> intro f <;> cases f with
  | Shutdown s' e pc =>
    cases pc <;>
      simp [Frame.beforeTerminating, Frame.inTerminatingLoop, Frame.active,
        ShutdownPc.beforeTerminating, ShutdownPc.inTerminatingLoop, ShutdownPc.active]
  | _ => simp [Frame.beforeTerminating, Frame.inTerminatingLoop, Frame.active]

theorem countP_terminatedLoop_le (s : Nat) (st : List Frame) :
    st.countP (Frame.beforeTerminated s) + st.countP (Frame.inTerminatedLoop s)
      ≤ st.countP (Frame.active s) := by
  apply countP_add_le <;> intro f <;> cases f with
  | Shutdown s' e pc =>
    cases pc <;>
      simp [Frame.beforeTerminated, Frame.inTerminatedLoop, Frame.active,
        ShutdownPc.beforeTerminated, ShutdownPc.inTerminatedLoop, ShutdownPc.active]
  | _ => simp [Frame.beforeTerminated, Frame.inTerminatedLoop, Frame.active]

theorem countP_inTerminatingLoop_le (s : Nat) (st : List Frame) :
    st.countP (Frame.inTerminatingLoop s) ≤ st.countP (Frame.beforeTerminated s) := by
  apply List.countP_mono_left
  intro f _ hf
  cases f with
  | Shutdown s' e pc =>
    cases pc <;>
      simp [Frame.inTerminatingLoop, Frame.beforeTerminated, ShutdownPc.inTerminatingLoop,
        ShutdownPc.beforeTerminated] at hf ⊢ <;>
      exact hf
  | _ => simp [Frame.inTerminatingLoop] at hf

theorem in_terminating_loop {c : Config} (h : Inv c) (s : Nat) (fr : Frame)
    (hm : fr ∈ c.stack) (hf : fr.inTerminatingLoop s = true) :
    (c.world.shutters s).terminatingCh = true ∧ (c.world.shutters s).terminatedCh = false := by
  have hpos : 0 < c.stack.countP (Frame.inTerminatingLoop s) :=
    List.countP_pos.mpr ⟨fr, hm, hf⟩
  have h1 := h.terminating s
  have h2 := h.terminated s
  have h3 := h.active s
  have m1 := countP_terminatingLoop_le s c.stack
  have m2 := countP_inTerminatingLoop_le s c.stack
  have b := Bool.toNat_le (c.world.shutters s).once
  constructor
  · cases hc : (c.world.shutters s).terminatingCh
    · rw [hc] at h1
      simp at h1
      omega
    · rfl
  · cases hc : (c.world.shutters s).terminatedCh
    · rfl
    · rw [hc] at h2
      simp at h2
      omega

theorem in_terminated_loop {c : Config} (h : Inv c) (s : Nat) (fr : Frame)
    (hm : fr ∈ c.stack) (hf : fr.inTerminatedLoop s = true) :
    (c.world.shutters s).terminatedCh = true := by
  have hpos : 0 < c.stack.countP (Frame.inTerminatedLoop s) :=
    List.countP_pos.mpr ⟨fr, hm, hf⟩
  have h2 := h.terminated s
  have h3 := h.active s
  have m1 := countP_terminatedLoop_le s c.stack
  have b := Bool.toNat_le (c.world.shutters s).once
  cases hc : (c.world.shutters s).terminatedCh
  · rw [hc] at h2
    simp at h2
    omega
  · rfl

theorem no_terminating_loop_at_close {c : Config} (h : Inv c) (s : Nat) (e : Error)
    (st : List Frame) (hst : c.stack = Frame.Shutdown s e ShutdownPc.closeTerminated :: st) :
    c.stack.countP (Frame.inTerminatingLoop s) = 0 := by
  have h3 := h.active s
  have m1 := countP_terminatingLoop_le s st
  have b := Bool.toNat_le (c.world.shutters s).once
  rw [hst] at h3 ⊢
  simp [List.countP_cons, Frame.active, ShutdownPc.active, Frame.inTerminatingLoop,
    ShutdownPc.inTerminatingLoop, -List.countP_eq_zero] at h3 ⊢
  omega

/-- C4: in every configuration a program reaches, (1) while `Shutdown` on `s`
is in its loop over the terminating callbacks, so whenever one of them is
invoked or running, `IsTerminating()` is true and `IsTerminated()` is false;
(2) while it is in its loop over the terminated callbacks `IsTerminated()`
is true; (3) when it is about to close `terminatedCh` no activation is in
the terminating loop of `s`, so every terminating callback has returned;
(4) the log is in the fixed order: the terminating signal, the terminating
callbacks, the terminated signal, the terminated callbacks. -/
theorem shutdown_interleaving (code : Nat → Body) (main : List Call) (n s : Nat) :
    (∀ fr ∈ (exec code n (start main)).stack, fr.inTerminatingLoop s = true →
      ((exec code n (start main)).world.shutters s).IsTerminating = true ∧
      ((exec code n (start main)).world.shutters s).IsTerminated = false) ∧
    (∀ fr ∈ (exec code n (start main)).stack, fr.inTerminatedLoop s = true →
      ((exec code n (start main)).world.shutters s).IsTerminated = true) ∧
    (∀ e st, (exec code n (start main)).stack
        = Frame.Shutdown s e ShutdownPc.closeTerminated :: st →
      (exec code n (start main)).stack.countP (Frame.inTerminatingLoop s) = 0) ∧
    phaseScan s (exec code n (start main)).world.log
      = some (((exec code n (start main)).world.shutters s).IsTerminating,
          ((exec code n (start main)).world.shutters s).IsTerminated) :=
  ⟨in_terminating_loop (inv_reach code main n) s, in_terminated_loop (inv_reach code main n) s,
    no_terminating_loop_at_close (inv_reach code main n) s, (inv_reach code main n).order s⟩

theorem shutdown_interleaving_witness :
    (exec exampleCode 17 (start exampleObserve)).stack
      = [Frame.user (some (Func.closure 3)) [Call.IsTerminating 0, Call.IsTerminated 0] Error.nil,
          Frame.Shutdown 0 Error.nil (ShutdownPc.callTerminating []),
          Frame.user none [] Error.nil] ∧
    (((exec exampleCode 17 (start exampleObserve)).world.shutters 0).IsTerminating = true ∧
      ((exec exampleCode 17 (start exampleObserve)).world.shutters 0).IsTerminated = false) ∧
    ((exec exampleCode 28 (start exampleObserve)).world.shutters 0).IsTerminated = true ∧
    (exec exampleCode 23 (start exampleObserve)).stack.countP (Frame.inTerminatingLoop 0) = 0 :=
  ⟨by decide,
    (shutdown_interleaving exampleCode exampleObserve 17 0).1
      (Frame.Shutdown 0 Error.nil (ShutdownPc.callTerminating [])) (by decide) (by decide),
    (shutdown_interleaving exampleCode exampleObserve 28 0).2.1
      (Frame.Shutdown 0 Error.nil (ShutdownPc.callTerminated [])) (by decide) (by decide),
    (shutdown_interleaving exampleCode exampleObserve 23 0).2.2.1 Error.nil
      [Frame.user none [] Error.nil] (by decide)⟩


/-! ## The entry guard -/

theorem shutter_eq_of_fields {a b : Shutter} (h1 : a.lock = b.lock) (h2 : a.err = b.err)
    (h3 : a.once = b.once) (h4 : a.terminatingCh = b.terminatingCh)
    (h5 : a.terminatingFunc = b.terminatingFunc)
    (h6 : a.terminatingFuncLock = b.terminatingFuncLock)
    (h7 : a.terminatedCh = b.terminatedCh) (h8 : a.terminatedFunc = b.terminatedFunc)
    (h9 : a.terminatedFuncLock = b.terminatedFuncLock) : a = b := by
  cases a
  cases b
  simp_all

theorem world_eq_of_fields {a b : World} (h1 : ∀ i, a.shutters i = b.shutters i)
    (h2 : a.vars = b.vars) (h3 : a.log = b.log) : a = b := by
  obtain ⟨sa, va, la⟩ := a
  obtain ⟨sb, vb, lb⟩ := b
  simp only [World.mk.injEq]
  exact ⟨funext h1, h2, h3⟩

/-- With the coordinator terminating and the entry guard free, `LockedInit`
returns the sentinel in three transitions and changes nothing. -/
theorem lockedInit_down (code : Nat → Body) (w : World) (s : Nat) (fn : Func)
    (st : List Frame) (r : Error) (hl : (w.shutters s).lock = false)
    (ht : (w.shutters s).terminatingCh = true) :
    exec code 3 ⟨w, Frame.LockedInit s fn LockedInitPc.lock :: st, r⟩
      = ⟨w.emit (Event.lockedInit s Error.ErrShutterWasAlreadyDown), st,
          Error.ErrShutterWasAlreadyDown⟩ := by
  simp [exec, step, Frame.step, stepLockedInit, hl, ht, Shutter.IsTerminating]
  apply world_eq_of_fields
  · intro i
    by_cases hi : i = s
    · subst hi
      apply shutter_eq_of_fields <;> simp [hl, ht]
    · simp [hi]
  · simp
  · simp

/-- With the entry guard free, `Err()` returns the stored error in three
transitions and changes nothing. -/
theorem err_returns (code : Nat → Body) (w : World) (s : Nat) (st : List Frame) (r : Error)
    (hl : (w.shutters s).lock = false) :
    exec code 3 ⟨w, Frame.Err s ErrPc.lock :: st, r⟩
      = ⟨w.emit (Event.err s (w.shutters s).err), st, (w.shutters s).err⟩ := by
  simp [exec, step, Frame.step, stepErr, hl]
  apply world_eq_of_fields
  · intro i
    by_cases hi : i = s
    · subst hi
      apply shutter_eq_of_fields <;> simp [hl]
    · simp [hi]
  · simp
  · simp

/-- When the coordinator is terminating, only the activation on top of the
stack can hold the entry guard. -/
theorem lock_free_of_terminating {c : Config} (h : Inv c) (s : Nat) (f : Frame)
    (st : List Frame) (hst : c.stack = f :: st) (hf : f.holdsLock s = false)
    (ht : (c.world.shutters s).terminatingCh = true) : (c.world.shutters s).lock = false := by
  have h1 := h.lock s
  have h2 := h.guarded s ht
  rw [hst] at h1 h2
  simp [List.countP_cons, hf, -List.countP_eq_zero] at h1 h2
  rw [h2] at h1
  simpa using h1.symm

/-- C7: in every configuration a program reaches in which `LockedInit(fn)`
is entered on a coordinator whose terminating signal has fired, the call
returns `ErrShutterWasAlreadyDown` after three transitions; the coordinators
and the variables are as before and the log has gained only the record of
that return: `fn` was not invoked. -/
theorem lockedInit_already_down (code : Nat → Body) (main : List Call) (n s : Nat) (fn : Func)
    (st : List Frame)
    (hst : (exec code n (start main)).stack = Frame.LockedInit s fn LockedInitPc.lock :: st)
    (ht : ((exec code n (start main)).world.shutters s).IsTerminating = true) :
    (exec code 3 (exec code n (start main))).stack = st ∧
    (exec code 3 (exec code n (start main))).ret = Error.ErrShutterWasAlreadyDown ∧
    (exec code 3 (exec code n (start main))).world.shutters
      = (exec code n (start main)).world.shutters ∧
    (exec code 3 (exec code n (start main))).world.vars
      = (exec code n (start main)).world.vars ∧
    (exec code 3 (exec code n (start main))).world.log
      = (exec code n (start main)).world.log
        ++ [Event.lockedInit s Error.ErrShutterWasAlreadyDown] := by
  have hi := inv_reach code main n
  have hl := lock_free_of_terminating hi s _ st hst (by simp [Frame.holdsLock]) ht
  generalize exec code n (start main) = c at hst ht hl
  obtain ⟨w, stack, r⟩ := c
  simp only at hst
  subst hst
  rw [lockedInit_down code w s fn st r hl ht]
  simp

theorem lockedInit_already_down_witness :
    (exec exampleCode 3 (exec exampleCode 25 (start exampleAlreadyDown))).ret
      = Error.ErrShutterWasAlreadyDown ∧
    (exec exampleCode 3 (exec exampleCode 25 (start exampleAlreadyDown))).world.log
      = (exec exampleCode 25 (start exampleAlreadyDown)).world.log
        ++ [Event.lockedInit 0 Error.ErrShutterWasAlreadyDown] ∧
    (exec exampleCode 3 (exec exampleCode 25 (start exampleAlreadyDown))).world.vars 0 = -1 :=
  ⟨(lockedInit_already_down exampleCode exampleAlreadyDown 25 0 (Func.closure 1)
      [Frame.user none [] Error.nil] (by decide) (by decide)).2.1,
    (lockedInit_already_down exampleCode exampleAlreadyDown 25 0 (Func.closure 1)
      [Frame.user none [] Error.nil] (by decide) (by decide)).2.2.2.2,
    by decide⟩


/-! ## Running quiet code -/

theorem Reaches.refl (code : Nat → Body) (c : Config) : Reaches code c c := ⟨0, rfl⟩

theorem Reaches.trans {code : Nat → Body} {a b c : Config} (h1 : Reaches code a b)
    (h2 : Reaches code b c) : Reaches code a c := by
  obtain ⟨n, rfl⟩ := h1
  obtain ⟨m, rfl⟩ := h2
  exact ⟨n + m, exec_add code n m a⟩

theorem Reaches.of_step {code : Nat → Body} {c c' : Config} (h : step code c = Step.next c') :
    Reaches code c c' :=
  ⟨1, by simp [exec, h]⟩

theorem Reaches.head {code : Nat → Body} {a : Config} (b : Config) {c : Config}
    (h : step code a = Step.next b)
    (h2 : Reaches code b c) : Reaches code a c :=
  (Reaches.of_step h).trans h2

@[simp] theorem call_effect_shutters (p : Error) (w : World) (c : Call) :
    (c.effect p w).shutters = w.shutters := by
  cases c <;> rfl

@[simp] theorem quietEffect_shutters (p : Error) (w : World) (calls : List Call) :
    (quietEffect p w calls).shutters = w.shutters := by
  induction calls generalizing w with
  | nil => rfl
  | cons c rest ih => simp [quietEffect, ih]

theorem call_quiet_congr {w w' : World} (h : w'.shutters = w.shutters) (c : Call) :
    c.quiet w' = c.quiet w := by
  cases c <;> simp [Call.quiet, h]

/-- A quiet statement returns to the function that executes it, with its
effect on the world. -/
theorem quiet_call_runs (code : Nat → Body) (w : World) (f : Option Func) (c : Call)
    (rest : List Call) (p : Error) (st : List Frame) (r : Error) (hq : c.quiet w = true) :
    ∃ r', Reaches code ⟨w, Frame.user f (c :: rest) p :: st, r⟩
      ⟨c.effect p w, Frame.user f rest p :: st, r'⟩ := by
  cases c with
  | add v k => exact ⟨r, Reaches.of_step (by simp [step, Frame.step, stepUser, Call.effect])⟩
  | IsTerminating s =>
    exact ⟨r, Reaches.of_step (by simp [step, Frame.step, stepUser, Call.effect])⟩
  | IsTerminated s =>
    exact ⟨r, Reaches.of_step (by simp [step, Frame.step, stepUser, Call.effect])⟩
  | Shutdown s e =>
    simp only [Call.quiet] at hq
    exact ⟨r, 2, by simp [exec, step, Frame.step, stepUser, stepShutdown, hq, Call.effect]⟩
  | Err s =>
    simp only [Call.quiet, Bool.not_eq_true'] at hq
    refine ⟨(w.shutters s).err, Reaches.head ⟨w, Frame.Err s ErrPc.lock :: Frame.user f rest p :: st, r⟩
      (by simp [step, Frame.step, stepUser]) ⟨3, ?_⟩⟩
    rw [err_returns code w s _ r hq]
    rfl
  | LockedInit s fn =>
    simp only [Call.quiet, Bool.and_eq_true, Bool.not_eq_true'] at hq
    refine ⟨Error.ErrShutterWasAlreadyDown, Reaches.head
      ⟨w, Frame.LockedInit s fn LockedInitPc.lock :: Frame.user f rest p :: st, r⟩
      (by simp [step, Frame.step, stepUser]) ⟨3, ?_⟩⟩
    rw [lockedInit_down code w s fn _ r hq.2 hq.1]
    rfl
  | OnTerminating s g => simp [Call.quiet] at hq
  | OnTerminated s g => simp [Call.quiet] at hq
  | Bind a b => simp [Call.quiet] at hq

/-- Quiet statements run to the end of the list. -/
theorem quiet_calls_run (code : Nat → Body) (f : Option Func) (calls : List Call) (p : Error)
    (st : List Frame) (w : World) (r : Error) (hq : calls.all (Call.quiet w) = true) :
    ∃ r', Reaches code ⟨w, Frame.user f calls p :: st, r⟩
      ⟨quietEffect p w calls, Frame.user f [] p :: st, r'⟩ := by
  induction calls generalizing w r with
  | nil => exact ⟨r, Reaches.refl _ _⟩
  | cons c rest ih =>
    simp only [List.all_cons, Bool.and_eq_true] at hq
    obtain ⟨r1, h1⟩ := quiet_call_runs code w f c rest p st r hq.1
    have hq2 : rest.all (Call.quiet (c.effect p w)) = true := by
      rw [← hq.2]
      congr 1
      funext x
      exact call_quiet_congr (call_effect_shutters p w c) x
    obtain ⟨r2, h2⟩ := ih (c.effect p w) r1 hq2
    exact ⟨r2, h1.trans h2⟩

/-- A quiet function called by the package runs and returns its result. -/
theorem quiet_func_runs (code : Nat → Body) (g : Func) (p : Error) (st : List Frame)
    (w : World) (r : Error) (hq : g.quiet code w = true) :
    Reaches code ⟨w, Frame.user (some g) (g.body code).calls p :: st, r⟩
      ⟨(quietEffect p w (g.body code).calls).emit (Event.returned g), st,
        (g.body code).result⟩ := by
  obtain ⟨r', h⟩ := quiet_calls_run code (some g) (g.body code).calls p st w r hq
  exact h.trans (Reaches.of_step (by simp [step, Frame.step, stepUser]))


theorem func_quiet_congr (code : Nat → Body) {w w' : World} (h : w'.shutters = w.shutters)
    (f : Func) : f.quiet code w' = f.quiet code w := by
  unfold Func.quiet
  congr 1
  funext x
  exact call_quiet_congr h x

@[simp] theorem func_effect_shutters (code : Nat → Body) (s : Nat) (ph : Phase) (e : Error)
    (w : World) (f : Func) : (Func.effect code s ph e w f).shutters = w.shutters := by
  simp [Func.effect]

@[simp] theorem foldl_effect_shutters (code : Nat → Body) (s : Nat) (ph : Phase) (e : Error)
    (fs : List Func) (w : World) :
    (fs.foldl (Func.effect code s ph e) w).shutters = w.shutters := by
  induction fs generalizing w with
  | nil => rfl
  | cons f fs ih => simp [List.foldl_cons, ih]

/-- The loop over the terminating callbacks runs through a list of quiet
callbacks. -/
theorem terminating_loop_runs (code : Nat → Body) (s : Nat) (e : Error) (fs rest : List Func)
    (st : List Frame) (w : World) (r : Error) (hq : ∀ f ∈ fs, f.quiet code w = true) :
    ∃ r', Reaches code
      ⟨w, Frame.Shutdown s e (ShutdownPc.callTerminating (fs ++ rest)) :: st, r⟩
      ⟨fs.foldl (Func.effect code s Phase.terminating e) w,
        Frame.Shutdown s e (ShutdownPc.callTerminating rest) :: st, r'⟩ := by
  induction fs generalizing w r with
  | nil => exact ⟨r, Reaches.refl _ _⟩
  | cons f fs ih =>
    have hf : f.quiet code (w.emit (Event.callback s Phase.terminating f e)) = true := by
      rw [func_quiet_congr code (World.emit_shutters w _)]
      exact hq f (List.mem_cons_self f fs)
    have h1 := quiet_func_runs code f e
      (Frame.Shutdown s e (ShutdownPc.callTerminating (fs ++ rest)) :: st)
      (w.emit (Event.callback s Phase.terminating f e)) r hf
    have hq2 : ∀ g ∈ fs, g.quiet code (Func.effect code s Phase.terminating e w f) = true := by
      intro g hg
      rw [func_quiet_congr code (func_effect_shutters code s _ e w f)]
      exact hq g (List.mem_cons_of_mem f hg)
    obtain ⟨r2, h2⟩ := ih (Func.effect code s Phase.terminating e w f) (f.body code).result hq2
    refine ⟨r2, Reaches.head _ ?_ (h1.trans h2)⟩
    simp [step, Frame.step, stepShutdown]

/-- The loop over the terminated callbacks runs through a list of quiet
callbacks. -/
theorem terminated_loop_runs (code : Nat → Body) (s : Nat) (e : Error) (fs rest : List Func)
    (st : List Frame) (w : World) (r : Error) (hq : ∀ f ∈ fs, f.quiet code w = true) :
    ∃ r', Reaches code
      ⟨w, Frame.Shutdown s e (ShutdownPc.callTerminated (fs ++ rest)) :: st, r⟩
      ⟨fs.foldl (Func.effect code s Phase.terminated e) w,
        Frame.Shutdown s e (ShutdownPc.callTerminated rest) :: st, r'⟩ := by
  induction fs generalizing w r with
  | nil => exact ⟨r, Reaches.refl _ _⟩
  | cons f fs ih =>
    have hf : f.quiet code (w.emit (Event.callback s Phase.terminated f e)) = true := by
      rw [func_quiet_congr code (World.emit_shutters w _)]
      exact hq f (List.mem_cons_self f fs)
    have h1 := quiet_func_runs code f e
      (Frame.Shutdown s e (ShutdownPc.callTerminated (fs ++ rest)) :: st)
      (w.emit (Event.callback s Phase.terminated f e)) r hf
    have hq2 : ∀ g ∈ fs, g.quiet code (Func.effect code s Phase.terminated e w f) = true := by
      intro g hg
      rw [func_quiet_congr code (func_effect_shutters code s _ e w f)]
      exact hq g (List.mem_cons_of_mem f hg)
    obtain ⟨r2, h2⟩ := ih (Func.effect code s Phase.terminated e w f) (f.body code).result hq2
    refine ⟨r2, Reaches.head _ ?_ (h1.trans h2)⟩
    simp [step, Frame.step, stepShutdown]

@[simp] theorem enterTerminating_terminatingFunc (s : Nat) (e : Error) (w : World) :
    ((enterTerminating s e w).shutters s).terminatingFunc = (w.shutters s).terminatingFunc := by
  simp [enterTerminating]

@[simp] theorem enterTerminating_terminatedFunc (s : Nat) (e : Error) (w : World) :
    ((enterTerminating s e w).shutters s).terminatedFunc = (w.shutters s).terminatedFunc := by
  simp [enterTerminating]

@[simp] theorem enterTerminated_terminatedFunc (s : Nat) (w : World) :
    ((enterTerminated s w).shutters s).terminatedFunc = (w.shutters s).terminatedFunc := by
  simp [enterTerminated]

theorem Shutter.idle_iff (sh : Shutter) : sh.idle = true ↔
    sh.once = false ∧ sh.terminatingCh = false ∧ sh.terminatedCh = false ∧ sh.lock = false ∧
      sh.terminatingFuncLock = false ∧ sh.terminatedFuncLock = false := by
  simp [Shutter.idle, and_assoc]

/-- From `once.Do` to the loop over the terminating callbacks. -/
theorem shutdown_prologue (code : Nat → Body) (s : Nat) (e : Error) (st : List Frame)
    (w : World) (r : Error) (hi : (w.shutters s).idle = true) :
    exec code 7 ⟨w, Frame.Shutdown s e ShutdownPc.once :: st, r⟩
      = ⟨enterTerminating s e w,
          Frame.Shutdown s e (ShutdownPc.callTerminating (w.shutters s).terminatingFunc) :: st,
          r⟩ := by
  obtain ⟨h1, h2, h3, h4, h5, h6⟩ := (Shutter.idle_iff _).mp hi
  simp [exec, step, Frame.step, stepShutdown, closeTerminatingCh, h1, h2, h3, h4, h5, h6,
    enterTerminating]
  apply world_eq_of_fields
  · intro i
    by_cases hi : i = s
    · subst hi
      apply shutter_eq_of_fields <;> simp [h1, h2, h3, h4, h5, h6]
    · simp [hi]
  · simp
  · simp

/-- From the end of the terminating loop to the loop over the terminated
callbacks. -/
theorem shutdown_middle (code : Nat → Body) (s : Nat) (e : Error) (st : List Frame)
    (w : World) (r : Error) (h1 : (w.shutters s).lock = false)
    (h2 : (w.shutters s).terminatedCh = false)
    (h3 : (w.shutters s).terminatingFuncLock = true)
    (h4 : (w.shutters s).terminatedFuncLock = false) :
    exec code 7 ⟨w, Frame.Shutdown s e (ShutdownPc.callTerminating []) :: st, r⟩
      = ⟨enterTerminated s w,
          Frame.Shutdown s e (ShutdownPc.callTerminated (w.shutters s).terminatedFunc) :: st,
          r⟩ := by
  simp [exec, step, Frame.step, stepShutdown, closeTerminatedCh, h1, h2, h3, h4,
    enterTerminated]
  apply world_eq_of_fields
  · intro i
    by_cases hi : i = s
    · subst hi
      apply shutter_eq_of_fields <;> simp [h1, h2, h3, h4]
    · simp [hi]
  · simp
  · simp

/-- From the end of the terminated loop to the return. -/
theorem shutdown_epilogue (code : Nat → Body) (s : Nat) (e : Error) (st : List Frame)
    (w : World) (r : Error) (h : (w.shutters s).terminatedFuncLock = true) :
    exec code 2 ⟨w, Frame.Shutdown s e (ShutdownPc.callTerminated []) :: st, r⟩
      = ⟨leaveTerminated s w, st, r⟩ := by
  simp [exec, step, Frame.step, stepShutdown, h, leaveTerminated]

/-- The first `Shutdown(e)` on an idle coordinator whose callbacks are quiet
returns to its caller, and the world then is `shutdownEffect`. -/
theorem shutdown_runs (code : Nat → Body) (s : Nat) (e : Error) (st : List Frame) (w : World)
    (r : Error) (hi : (w.shutters s).idle = true)
    (hq1 : ∀ f ∈ (w.shutters s).terminatingFunc, f.quiet code (enterTerminating s e w) = true)
    (hq2 : ∀ f ∈ (w.shutters s).terminatedFunc, f.quiet code (enterTerminating s e w) = true) :
    ∃ r', Reaches code ⟨w, Frame.Shutdown s e ShutdownPc.once :: st, r⟩
      ⟨shutdownEffect code s e w, st, r'⟩ := by
  obtain ⟨h1, h2, h3, h4, h5, h6⟩ := (Shutter.idle_iff _).mp hi
  have p1 : Reaches code ⟨w, Frame.Shutdown s e ShutdownPc.once :: st, r⟩ _ :=
    ⟨7, shutdown_prologue code s e st w r hi⟩
  obtain ⟨r2, p2⟩ := terminating_loop_runs code s e (w.shutters s).terminatingFunc [] st
    (enterTerminating s e w) r hq1
  rw [List.append_nil] at p2
  have hs1 : (enterTerminating s e w).shutters s = { w.shutters s with
      once := true, err := e, terminatingCh := true, terminatingFuncLock := true } := by
    simp [enterTerminating]
  have hf1 : ((enterTerminating s e w).shutters s).terminatingFunc
      = (w.shutters s).terminatingFunc := by rw [hs1]
  have hw2 : ((w.shutters s).terminatingFunc.foldl (Func.effect code s Phase.terminating e)
      (enterTerminating s e w)).shutters s = (enterTerminating s e w).shutters s := by simp
  have p3 := shutdown_middle code s e st
    ((w.shutters s).terminatingFunc.foldl (Func.effect code s Phase.terminating e)
      (enterTerminating s e w)) r2
    (by rw [hw2, hs1]; exact h4) (by rw [hw2, hs1]; exact h3) (by rw [hw2, hs1])
    (by rw [hw2, hs1]; exact h6)
  have hq3 : ∀ f ∈ (w.shutters s).terminatedFunc, f.quiet code
      (enterTerminated s ((w.shutters s).terminatingFunc.foldl
        (Func.effect code s Phase.terminating e) (enterTerminating s e w))) = true := by
    intro f hf
    rw [← hq2 f hf]
    unfold Func.quiet
    congr 1
    funext c
    cases c <;> simp [Call.quiet, enterTerminated, enterTerminating] <;> split_ifs <;> simp
  have hf3 : (((w.shutters s).terminatingFunc.foldl (Func.effect code s Phase.terminating e)
      (enterTerminating s e w)).shutters s).terminatedFunc = (w.shutters s).terminatedFunc := by
    rw [hw2, hs1]
  rw [hf3] at p3
  obtain ⟨r4, p4⟩ := terminated_loop_runs code s e (w.shutters s).terminatedFunc [] st _ r2 hq3
  rw [List.append_nil] at p4
  have p5 := shutdown_epilogue code s e st
    ((w.shutters s).terminatedFunc.foldl (Func.effect code s Phase.terminated e)
      (enterTerminated s ((w.shutters s).terminatingFunc.foldl
        (Func.effect code s Phase.terminating e) (enterTerminating s e w)))) r4
    (by simp [enterTerminated])
  refine ⟨r4, ?_⟩
  have hfin : shutdownEffect code s e w = leaveTerminated s
      ((w.shutters s).terminatedFunc.foldl (Func.effect code s Phase.terminated e)
        (enterTerminated s ((w.shutters s).terminatingFunc.foldl
          (Func.effect code s Phase.terminating e) (enterTerminating s e w)))) := by
    simp only [shutdownEffect, enterTerminated_terminatedFunc, foldl_effect_shutters,
      enterTerminating_terminatedFunc, enterTerminating_terminatingFunc]
  rw [hfin]
  have p3' : Reaches code _ _ := ⟨7, p3⟩
  have p5' : Reaches code _ _ := ⟨2, p5⟩
  exact p1.trans (p2.trans (p3'.trans (p4.trans p5')))


/-! ## What the first `Shutdown` invokes -/

@[simp] theorem invocations_append (l l' : List Event) :
    invocations (l ++ l') = invocations l ++ invocations l' := by
  simp [invocations]

theorem call_effect_invocations (p : Error) (w : World) (c : Call) :
    invocations (c.effect p w).log = invocations w.log := by
  cases c <;> simp [Call.effect, invocations]

theorem quietEffect_invocations (p : Error) (w : World) (calls : List Call) :
    invocations (quietEffect p w calls).log = invocations w.log := by
  induction calls generalizing w with
  | nil => rfl
  | cons c rest ih => simp [quietEffect, ih, call_effect_invocations]

theorem func_effect_invocations (code : Nat → Body) (s : Nat) (ph : Phase) (e : Error)
    (w : World) (f : Func) :
    invocations (Func.effect code s ph e w f).log
      = invocations w.log ++ [Event.callback s ph f e] := by
  simp [Func.effect, quietEffect_invocations]
  simp [invocations]

theorem foldl_effect_invocations (code : Nat → Body) (s : Nat) (ph : Phase) (e : Error)
    (fs : List Func) (w : World) :
    invocations (fs.foldl (Func.effect code s ph e) w).log
      = invocations w.log ++ fs.map (fun f => Event.callback s ph f e) := by
  induction fs generalizing w with
  | nil => simp
  | cons f fs ih => simp [List.foldl_cons, ih, func_effect_invocations]

theorem shutdownEffect_invocations (code : Nat → Body) (s : Nat) (e : Error) (w : World) :
    invocations (shutdownEffect code s e w).log
      = invocations w.log
        ++ (w.shutters s).terminatingFunc.map (fun f => Event.callback s Phase.terminating f e)
        ++ (w.shutters s).terminatedFunc.map (fun f => Event.callback s Phase.terminated f e) := by
  simp only [shutdownEffect, leaveTerminated, World.set_log, foldl_effect_invocations,
    enterTerminated_terminatedFunc, foldl_effect_shutters, enterTerminating_terminatedFunc,
    enterTerminating_terminatingFunc]
  simp [enterTerminated, enterTerminating, foldl_effect_invocations]
  simp [invocations]

theorem shutdownEffect_shutters (code : Nat → Body) (s : Nat) (e : Error) (w : World)
    (i : Nat) :
    (shutdownEffect code s e w).shutters i
      = if i = s then { w.shutters s with
          once := true, err := e, terminatingCh := true, terminatedCh := true,
          terminatingFuncLock := false, terminatedFuncLock := false }
        else w.shutters i := by
  simp only [shutdownEffect, leaveTerminated, World.set_shutters, foldl_effect_shutters]
  split_ifs with h
  · subst h
    simp [enterTerminated, enterTerminating]
  · simp [enterTerminated, enterTerminating, h]

/-- C1, as amended: on a coordinator that is running with no operation in
progress, whose callbacks are quiet (they neither register callbacks nor
bind, and every call they make into the package returns at once), the first
`Shutdown(err)` returns to its caller and the callbacks it has invoked are
exactly `t1(err), ..., tm(err), d1(err), ..., dn(err)`: the terminating list
in registration order, then the terminated list in registration order, each
callback once per registration and each with `err`. -/
theorem shutdown_invokes (code : Nat → Body) (s : Nat) (e : Error) (st : List Frame)
    (w : World) (r : Error) (hi : (w.shutters s).idle = true)
    (hq : ∀ f ∈ (w.shutters s).terminatingFunc ++ (w.shutters s).terminatedFunc,
      f.quiet code (enterTerminating s e w) = true) :
    ∃ w' r', Reaches code ⟨w, Frame.Shutdown s e ShutdownPc.once :: st, r⟩ ⟨w', st, r'⟩ ∧
      invocations w'.log = invocations w.log
        ++ (w.shutters s).terminatingFunc.map (fun f => Event.callback s Phase.terminating f e)
        ++ (w.shutters s).terminatedFunc.map (fun f => Event.callback s Phase.terminated f e) := by
  obtain ⟨r', h⟩ := shutdown_runs code s e st w r hi
    (fun f hf => hq f (List.mem_append_left _ hf))
    (fun f hf => hq f (List.mem_append_right _ hf))
  exact ⟨shutdownEffect code s e w, r', h, shutdownEffect_invocations code s e w⟩

theorem shutdown_invokes_witness :
    ((exec exampleCode 16 (start exampleMulti)).world.shutters 0).idle = true ∧
    ∃ w' r', Reaches exampleCode
        ⟨(exec exampleCode 16 (start exampleMulti)).world,
          [Frame.Shutdown 0 Error.nil ShutdownPc.once], Error.nil⟩ ⟨w', [], r'⟩ ∧
      invocations w'.log = invocations (exec exampleCode 16 (start exampleMulti)).world.log
        ++ ((exec exampleCode 16 (start exampleMulti)).world.shutters 0).terminatingFunc.map
            (fun f => Event.callback 0 Phase.terminating f Error.nil)
        ++ ((exec exampleCode 16 (start exampleMulti)).world.shutters 0).terminatedFunc.map
            (fun f => Event.callback 0 Phase.terminated f Error.nil) :=
  ⟨by decide,
    shutdown_invokes exampleCode 0 Error.nil [] (exec exampleCode 16 (start exampleMulti)).world
      Error.nil (by decide) (by decide)⟩

/-- C1 as stated fails: with the terminating callback `t1` that registers
`g` as a terminated callback and the terminated callback `d1`, the first
`Shutdown(nil)` on the running coordinator returns after 28 transitions and
has invoked `t1(nil), d1(nil), g(nil)`, not `t1(nil), d1(nil)`. -/
theorem shutdown_invokes_counterexample :
    (exec exampleCode 9 (start exampleRegister)).stack
      = [Frame.Shutdown 0 Error.nil ShutdownPc.once, Frame.user none [] Error.nil] ∧
    ((exec exampleCode 9 (start exampleRegister)).world.shutters 0).idle = true ∧
    ((exec exampleCode 9 (start exampleRegister)).world.shutters 0).terminatingFunc
      = [Func.closure 4] ∧
    ((exec exampleCode 9 (start exampleRegister)).world.shutters 0).terminatedFunc
      = [Func.closure 0] ∧
    invocations (exec exampleCode 9 (start exampleRegister)).world.log = [] ∧
    (exec exampleCode 28 (exec exampleCode 9 (start exampleRegister))).stack
      = [Frame.user none [] Error.nil] ∧
    invocations (exec exampleCode 28 (exec exampleCode 9 (start exampleRegister))).world.log
      = [Event.callback 0 Phase.terminating (Func.closure 4) Error.nil,
          Event.callback 0 Phase.terminated (Func.closure 0) Error.nil,
          Event.callback 0 Phase.terminated (Func.closure 1) Error.nil] ∧
    invocations (exec exampleCode 28 (exec exampleCode 9 (start exampleRegister))).world.log
      ≠ [Event.callback 0 Phase.terminating (Func.closure 4) Error.nil,
          Event.callback 0 Phase.terminated (Func.closure 0) Error.nil] := by
  decide


/-! ## After `Shutdown` has returned -/

/-- No transition of a configuration that satisfies the invariant panics:
`Shutdown` never closes a closed channel and no method unlocks a mutex it
does not hold. -/
theorem no_panic (code : Nat → Body) (w : World) (f : Frame) (st : List Frame) (r : Error)
    (h : Inv ⟨w, f :: st, r⟩) : step code ⟨w, f :: st, r⟩ ≠ Step.panic := by
  intro hs
  rcases f with ⟨_ | g, _ | ⟨_ | _, rest⟩, p⟩ | ⟨s, e, _ | _ | _ | _ | _ | _ | _ | ⟨_ | _⟩ | _ | _ | _ | _ | _ | _ | ⟨_ | _⟩ | _⟩ |
    ⟨s, fn, _ | _⟩ | ⟨s, g, _ | _⟩ | ⟨s, g, _ | _⟩ | ⟨s, _ | _⟩ | ⟨p, q, _ | _⟩ <;>
    simp only [step, Frame.step, stepUser, stepShutdown, stepLockedInit, stepOnTerminating,
      stepOnTerminated, stepErr, stepBind, closeTerminatingCh, closeTerminatedCh,
      Shutter.IsTerminating, Shutter.IsTerminated] at hs <;>
    (try split_ifs at hs) <;>
    (try simp only [reduceCtorEq] at hs) <;>
    (have h1 := h.lock s
     have h2 := h.terminatingFuncLock s
     have h3 := h.terminatedFuncLock s
     have h4 := h.terminating s
     have h5 := h.terminated s
     have b := Bool.toNat_le (w.shutters s).once
     simp [List.countP_cons, Frame.holdsLock, ShutdownPc.holdsLock,
       Frame.holdsTerminatingFuncLock, ShutdownPc.holdsTerminatingFuncLock,
       Frame.holdsTerminatedFuncLock, ShutdownPc.holdsTerminatedFuncLock,
       Frame.beforeTerminating, ShutdownPc.beforeTerminating, Frame.beforeTerminated,
       ShutdownPc.beforeTerminated, -List.countP_eq_zero] at h1 h2 h3 h4 h5
     simp_all [-List.countP_eq_zero]) <;>
    omega

/-- The state in which a first `Shutdown` call is found to have returned. -/
theorem shutdown_returned (code : Nat → Body) (c0 : Config) (hinv : Inv c0) (m s : Nat)
    (a : Arg) (f : Option Func) (rest : List Call) (p : Error) (st : List Frame)
    (h0 : c0.stack = Frame.user f (Call.Shutdown s a :: rest) p :: st)
    (hrun : (c0.world.shutters s).once = false)
    (h1 : (exec code m c0).stack = Frame.user f rest p :: st) :
    firstShutdown (exec code m c0).world.log s = some (a.eval p) ∧
    ((exec code m c0).world.shutters s).once = true ∧
    (exec code m c0).stack.countP (Frame.active s) = 0 := by
  obtain ⟨w, stack, r⟩ := c0
  simp only at h0 hrun
  subst h0
  have hfirst : firstShutdown w.log s = none := by
    have := hinv.first s
    simp only [hrun] at this
    cases hf : firstShutdown w.log s
    · rfl
    · rw [hf] at this
      simp at this
  have hact := hinv.active s
  simp only [hrun, Bool.toNat_false, Nat.le_zero_eq, List.countP_cons, Frame.active] at hact
  have h2 : exec code 2 ⟨w, Frame.user f (Call.Shutdown s a :: rest) p :: st, r⟩
      = ⟨(w.set s { w.shutters s with once := true }).emit (Event.gate s (a.eval p) true),
          Frame.Shutdown s (a.eval p) ShutdownPc.lock1 :: Frame.user f rest p :: st, r⟩ := by
    simp [exec, step, Frame.step, stepUser, stepShutdown, hrun]
  match m, h1 with
  | 0, h1 =>
    simp only [exec, List.cons.injEq, Frame.user.injEq, true_and, and_true] at h1
    exact absurd h1 (List.cons_ne_self _ _)
  | 1, h1 =>
    simp [exec, step, Frame.step, stepUser] at h1
  | m + 2, h1 =>
    rw [Nat.add_comm, exec_add, h2] at h1 ⊢
    have hle := Config.le_exec code m
      ⟨(w.set s { w.shutters s with once := true }).emit (Event.gate s (a.eval p) true),
        Frame.Shutdown s (a.eval p) ShutdownPc.lock1 :: Frame.user f rest p :: st, r⟩
    refine ⟨firstShutdown_mono hle.log s _ ?_, hle.once s (by simp), ?_⟩
    · simp [firstShutdown_append, hfirst, Event.gateOf]
    · rw [h1]
      simp only [List.countP_cons, Frame.active]
      simpa using hact

/-- When a first `Shutdown(err)` call has returned, both signals have fired,
the stored error is `err` and the entry guard is free. -/
theorem shutdown_done (code : Nat → Body) (c0 : Config) (hinv : Inv c0) (m s : Nat)
    (a : Arg) (f : Option Func) (rest : List Call) (p : Error) (st : List Frame)
    (h0 : c0.stack = Frame.user f (Call.Shutdown s a :: rest) p :: st)
    (hrun : (c0.world.shutters s).once = false)
    (h1 : (exec code m c0).stack = Frame.user f rest p :: st) :
    ((exec code m c0).world.shutters s).terminatingCh = true ∧
    ((exec code m c0).world.shutters s).terminatedCh = true ∧
    ((exec code m c0).world.shutters s).err = a.eval p ∧
    ((exec code m c0).world.shutters s).lock = false := by
  obtain ⟨hf, ho, hc⟩ := shutdown_returned code c0 hinv m s a f rest p st h0 hrun h1
  have hi := Inv.exec code m hinv
  have k1 := hi.terminating s
  have k2 := hi.terminated s
  have m1 := countP_beforeTerminating_le s (exec code m c0).stack
  have m2 := countP_beforeTerminated_le s (exec code m c0).stack
  have m3 := countP_beforeErr_le s (exec code m c0).stack
  have ht : ((exec code m c0).world.shutters s).terminatingCh = true := by
    cases hx : ((exec code m c0).world.shutters s).terminatingCh
    · rw [hx, ho] at k1
      simp at k1
      omega
    · rfl
  have hd : ((exec code m c0).world.shutters s).terminatedCh = true := by
    cases hx : ((exec code m c0).world.shutters s).terminatedCh
    · rw [hx, ho] at k2
      simp at k2
      omega
    · rfl
  refine ⟨ht, hd, ?_, ?_⟩
  · have := hi.err s ho (by omega)
    rw [hf] at this
    exact (Option.some.inj this).symm
  · exact lock_free_of_terminating hi s _ _ h1 (by simp [Frame.holdsLock]) ht

/-- C6: (1) in every configuration a program reaches in which a `Shutdown(err)`
call on a coordinator whose gate is still open has returned to its caller,
`IsTerminating()` and `IsTerminated()` are true and `Err()` returns `err`
(`nil` included); (2) no transition of a program panics; (3) on a coordinator
that is running with no operation in progress and whose callbacks are quiet,
`Shutdown(err)` does return, with the same postcondition. -/
theorem shutdown_postcondition (code : Nat → Body) (s : Nat) (e : Error) :
    (∀ (main : List Call) (n m : Nat) (a : Arg) (f : Option Func) (rest : List Call)
        (p : Error) (st : List Frame),
      a.eval p = e →
      (exec code n (start main)).stack = Frame.user f (Call.Shutdown s a :: rest) p :: st →
      ((exec code n (start main)).world.shutters s).once = false →
      (exec code m (exec code n (start main))).stack = Frame.user f rest p :: st →
      ((exec code m (exec code n (start main))).world.shutters s).IsTerminating = true ∧
      ((exec code m (exec code n (start main))).world.shutters s).IsTerminated = true ∧
      ∀ (st' : List Frame) (r : Error),
        exec code 3 ⟨(exec code m (exec code n (start main))).world,
            Frame.Err s ErrPc.lock :: st', r⟩
          = ⟨(exec code m (exec code n (start main))).world.emit (Event.err s e), st', e⟩) ∧
    (∀ (main : List Call) (k : Nat), step code (exec code k (start main)) ≠ Step.panic) ∧
    (∀ (w : World) (st : List Frame) (r : Error), (w.shutters s).idle = true →
      (∀ f ∈ (w.shutters s).terminatingFunc ++ (w.shutters s).terminatedFunc,
        f.quiet code (enterTerminating s e w) = true) →
      ∃ w' r', Reaches code ⟨w, Frame.Shutdown s e ShutdownPc.once :: st, r⟩ ⟨w', st, r'⟩ ∧
        (w'.shutters s).IsTerminating = true ∧ (w'.shutters s).IsTerminated = true ∧
        (w'.shutters s).err = e) := by
  refine ⟨?_, ?_, ?_⟩
  · intro main n m a f rest p st he h0 hrun h1
    obtain ⟨ht, hd, herr, hl⟩ := shutdown_done code _ (inv_reach code main n) m s a f rest p st
      h0 hrun h1
    refine ⟨ht, hd, fun st' r => ?_⟩
    rw [err_returns code _ s st' r hl, herr, he]
  · intro main k hs
    have hi := inv_reach code main k
    generalize exec code k (start main) = c at hs hi
    obtain ⟨w, st, r⟩ := c
    cases st with
    | nil => simp [step] at hs
    | cons f st => exact no_panic code w f st r hi hs
  · intro w st r hi hq
    obtain ⟨r', h⟩ := shutdown_runs code s e st w r hi
      (fun f hf => hq f (List.mem_append_left _ hf))
      (fun f hf => hq f (List.mem_append_right _ hf))
    refine ⟨shutdownEffect code s e w, r', h, ?_, ?_, ?_⟩ <;>
      simp [shutdownEffect_shutters, Shutter.IsTerminating, Shutter.IsTerminated]

theorem shutdown_postcondition_witness :
    (((exec exampleCode 29 (exec exampleCode 16 (start exampleMulti))).world.shutters 0).IsTerminating
        = true ∧
      ((exec exampleCode 29 (exec exampleCode 16 (start exampleMulti))).world.shutters 0).IsTerminated
        = true ∧
      ∀ (st' : List Frame) (r : Error),
        exec exampleCode 3 ⟨(exec exampleCode 29 (exec exampleCode 16 (start exampleMulti))).world,
            Frame.Err 0 ErrPc.lock :: st', r⟩
          = ⟨(exec exampleCode 29 (exec exampleCode 16 (start exampleMulti))).world.emit
              (Event.err 0 Error.nil), st', Error.nil⟩) ∧
    ∃ w' r', Reaches exampleCode
        ⟨(exec exampleCode 16 (start exampleMulti)).world,
          [Frame.Shutdown 0 Error.nil ShutdownPc.once], Error.nil⟩ ⟨w', [], r'⟩ ∧
      (w'.shutters 0).IsTerminating = true ∧ (w'.shutters 0).IsTerminated = true ∧
      (w'.shutters 0).err = Error.nil :=
  ⟨(shutdown_postcondition exampleCode 0 Error.nil).1 exampleMulti 16 29 (Arg.lit Error.nil)
      none [] Error.nil [] rfl (by decide) (by decide) (by decide),
    (shutdown_postcondition exampleCode 0 Error.nil).2.2
      (exec exampleCode 16 (start exampleMulti)).world [] Error.nil (by decide) (by decide)⟩


/-! ## Idempotence -/

/-- After a `Shutdown` call has returned, the gate of the coordinator is
closed, whether or not that call was the first. -/
theorem once_after_call (code : Nat → Body) (c0 : Config) (hinv : Inv c0) (m s : Nat)
    (a : Arg) (f : Option Func) (rest : List Call) (p : Error) (st : List Frame)
    (h0 : c0.stack = Frame.user f (Call.Shutdown s a :: rest) p :: st)
    (h1 : (exec code m c0).stack = Frame.user f rest p :: st) :
    ((exec code m c0).world.shutters s).once = true := by
  cases ho : (c0.world.shutters s).once
  · exact (shutdown_returned code c0 hinv m s a f rest p st h0 ho h1).2.1
  · exact (Config.le_exec code m c0).once s ho

/-- `Shutdown` calls on a coordinator whose gate is closed return at once:
each only leaves the record of a lost gate in the log. -/
theorem noop_shutdowns (code : Nat → Body) (s : Nat) (a : Arg) (N : Nat) (f : Option Func)
    (rest : List Call) (p : Error) (st : List Frame) (w : World) (r : Error)
    (ho : (w.shutters s).once = true) :
    exec code (2 * N) ⟨w, Frame.user f (List.replicate N (Call.Shutdown s a) ++ rest) p :: st, r⟩
      = ⟨⟨w.shutters, w.vars, w.log ++ List.replicate N (Event.gate s (a.eval p) false)⟩,
          Frame.user f rest p :: st, r⟩ := by
  induction N generalizing w with
  | zero => simp [exec]
  | succ N ih =>
    have h2 : exec code 2
        ⟨w, Frame.user f (List.replicate (N + 1) (Call.Shutdown s a) ++ rest) p :: st, r⟩
        = ⟨w.emit (Event.gate s (a.eval p) false),
            Frame.user f (List.replicate N (Call.Shutdown s a) ++ rest) p :: st, r⟩ := by
      simp [exec, step, Frame.step, stepUser, stepShutdown, ho, List.replicate_succ]
    have hn : 2 * (N + 1) = 2 + 2 * N := by ring
    rw [hn, exec_add, h2, ih _ (by simpa using ho)]
    simp [List.replicate_succ]

/-- C2: in every configuration a program reaches, once a call `Shutdown(e1)`
has returned to its caller, `N` further calls `Shutdown(e2)` return after two
transitions each and leave the coordinators and the variables as they were;
the log gains only the `N` records of a lost gate, so no callback is invoked;
and when `Shutdown(e1)` found the gate open, the stored error, which `Err()`
returns, is `e1` afterwards. -/
theorem shutdown_idempotent (code : Nat → Body) (main : List Call) (n m s : Nat) (a1 a2 : Arg)
    (N : Nat) (f : Option Func) (rest : List Call) (p : Error) (st : List Frame)
    (h0 : (exec code n (start main)).stack
      = Frame.user f (Call.Shutdown s a1 :: (List.replicate N (Call.Shutdown s a2) ++ rest)) p
        :: st)
    (h1 : (exec code m (exec code n (start main))).stack
      = Frame.user f (List.replicate N (Call.Shutdown s a2) ++ rest) p :: st) :
    (exec code (2 * N) (exec code m (exec code n (start main)))).stack
      = Frame.user f rest p :: st ∧
    (exec code (2 * N) (exec code m (exec code n (start main)))).world.shutters
      = (exec code m (exec code n (start main))).world.shutters ∧
    (exec code (2 * N) (exec code m (exec code n (start main)))).world.vars
      = (exec code m (exec code n (start main))).world.vars ∧
    (exec code (2 * N) (exec code m (exec code n (start main)))).world.log
      = (exec code m (exec code n (start main))).world.log
        ++ List.replicate N (Event.gate s (a2.eval p) false) ∧
    invocations (exec code (2 * N) (exec code m (exec code n (start main)))).world.log
      = invocations (exec code m (exec code n (start main))).world.log ∧
    (((exec code n (start main)).world.shutters s).once = false →
      ((exec code (2 * N) (exec code m (exec code n (start main)))).world.shutters s).err
        = a1.eval p ∧
      ∀ (st' : List Frame) (r : Error),
        exec code 3 ⟨(exec code (2 * N) (exec code m (exec code n (start main)))).world,
            Frame.Err s ErrPc.lock :: st', r⟩
          = ⟨(exec code (2 * N) (exec code m (exec code n (start main)))).world.emit
              (Event.err s (a1.eval p)), st', a1.eval p⟩) := by
  have hinv := inv_reach code main n
  have ho := once_after_call code _ hinv m s a1 f _ p st h0 h1
  have hd := shutdown_done code _ hinv m s a1 f _ p st h0
  generalize exec code n (start main) = c0 at h0 h1 ho hd
  generalize hc1 : exec code m c0 = c1 at h1 ho hd
  obtain ⟨w, stack, r⟩ := c1
  simp only at h1 ho
  subst h1
  rw [noop_shutdowns code s a2 N f rest p st w r ho]
  refine ⟨rfl, rfl, rfl, rfl, ?_, fun hrun => ?_⟩
  · simp [invocations, List.filter_replicate]
  · obtain ⟨_, _, herr, hl⟩ := hd hrun rfl
    refine ⟨herr, fun st' r' => ?_⟩
    have := err_returns code ⟨w.shutters, w.vars,
      w.log ++ List.replicate N (Event.gate s (a2.eval p) false)⟩ s st' r' hl
    rw [this]
    simp only at herr
    simp [herr]

theorem shutdown_idempotent_witness :
    (exec exampleCode (2 * 1) (exec exampleCode 17 (exec exampleCode 0 (start exampleTwice)))).world.log
      = (exec exampleCode 17 (exec exampleCode 0 (start exampleTwice))).world.log
        ++ List.replicate 1 (Event.gate 0 (Error.New 2) false) ∧
    ((exec exampleCode (2 * 1) (exec exampleCode 17 (exec exampleCode 0 (start exampleTwice)))).world.shutters
        0).err = Error.New 1 :=
  ⟨(shutdown_idempotent exampleCode exampleTwice 0 17 0 (Arg.lit (Error.New 1))
      (Arg.lit (Error.New 2)) 1 none [] Error.nil [] (by decide) (by decide)).2.2.2.1,
    ((shutdown_idempotent exampleCode exampleTwice 0 17 0 (Arg.lit (Error.New 1))
      (Arg.lit (Error.New 2)) 1 none [] Error.nil [] (by decide) (by decide)).2.2.2.2.2
        (by decide)).1⟩


/-! ## Guarded initialisation -/

theorem Call.effect_vars (p : Error) (w : World) (c : Call) :
    (c.effect p w).vars = varsEffect w.vars [c] := by
  cases c <;> simp [Call.effect, varsEffect, World.add]

theorem quietEffect_vars (p : Error) (w : World) (calls : List Call) :
    (quietEffect p w calls).vars = varsEffect w.vars calls := by
  induction calls generalizing w with
  | nil => rfl
  | cons c rest ih =>
    rw [quietEffect, ih, Call.effect_vars]
    cases c <;> simp [varsEffect]

theorem Call.effect_count_init (p : Error) (w : World) (c : Call) (s : Nat) (fn : Func) :
    (c.effect p w).log.count (Event.init s fn) = w.log.count (Event.init s fn) := by
  cases c <;> simp [Call.effect, List.count_append]

theorem quietEffect_count_init (p : Error) (w : World) (calls : List Call) (s : Nat)
    (fn : Func) :
    (quietEffect p w calls).log.count (Event.init s fn) = w.log.count (Event.init s fn) := by
  induction calls generalizing w with
  | nil => rfl
  | cons c rest ih => rw [quietEffect, ih, Call.effect_count_init]

theorem lockedInitEffect_shutters (code : Nat → Body) (s : Nat) (fn : Func) (w : World)
    (hl : (w.shutters s).lock = false) :
    (lockedInitEffect code s fn w).shutters = w.shutters := by
  funext i
  simp only [lockedInitEffect, World.emit_shutters, World.set_shutters, quietEffect_shutters]
  split_ifs with h
  · subst h
    apply shutter_eq_of_fields <;> simp [hl]
  · rfl

/-- On a running coordinator whose entry guard is free, `LockedInit(fn)` with
a quiet `fn` runs `fn` and returns its result. -/
theorem lockedInit_runs (code : Nat → Body) (s : Nat) (fn : Func) (st : List Frame)
    (w : World) (r : Error) (hl : (w.shutters s).lock = false)
    (ht : (w.shutters s).IsTerminating = false)
    (hq : fn.quiet code (w.set s { w.shutters s with lock := true }) = true) :
    Reaches code ⟨w, Frame.LockedInit s fn LockedInitPc.lock :: st, r⟩
      ⟨lockedInitEffect code s fn w, st, (fn.body code).result⟩ := by
  have p1 : exec code 2 ⟨w, Frame.LockedInit s fn LockedInitPc.lock :: st, r⟩
      = ⟨(w.set s { w.shutters s with lock := true }).emit (Event.init s fn),
          Frame.user (some fn) (fn.body code).calls Error.nil
            :: Frame.LockedInit s fn LockedInitPc.deferred :: st, r⟩ := by
    simp only [Shutter.IsTerminating] at ht
    simp [exec, step, Frame.step, stepLockedInit, hl, ht, Shutter.IsTerminating]
  have hq' : fn.quiet code ((w.set s { w.shutters s with lock := true }).emit
      (Event.init s fn)) = true := by
    rw [func_quiet_congr code (World.emit_shutters _ _)]
    exact hq
  have p2 := quiet_func_runs code fn Error.nil
    (Frame.LockedInit s fn LockedInitPc.deferred :: st) _ r hq'
  have p3 : step code ⟨(quietEffect Error.nil ((w.set s { w.shutters s with lock := true }).emit
        (Event.init s fn)) (fn.body code).calls).emit (Event.returned fn),
      Frame.LockedInit s fn LockedInitPc.deferred :: st, (fn.body code).result⟩
      = Step.next ⟨lockedInitEffect code s fn w, st, (fn.body code).result⟩ := by
    simp [step, Frame.step, stepLockedInit, lockedInitEffect]
  have p1' : Reaches code _ _ := ⟨2, p1⟩
  exact p1'.trans (p2.trans (Reaches.of_step p3))

/-- C8: on a running coordinator whose entry guard is free, `LockedInit(fn)`
with a quiet `fn` (one that makes no call into the coordinator) returns to its
caller with the result of `fn`; `fn` has been invoked exactly once, its effect
on the variables has happened, and every coordinator is as before, so the
coordinator is still running with the same error and callback lists.  A
`Shutdown(e)` called next runs from that world: its callbacks see the
variables as `fn` left them. -/
theorem lockedInit_not_down (code : Nat → Body) (s : Nat) (fn : Func) (w : World)
    (hl : (w.shutters s).lock = false) (ht : (w.shutters s).IsTerminating = false)
    (hq : fn.quiet code (w.set s { w.shutters s with lock := true }) = true) :
    (∀ (st : List Frame) (r : Error),
      Reaches code ⟨w, Frame.LockedInit s fn LockedInitPc.lock :: st, r⟩
        ⟨lockedInitEffect code s fn w, st, (fn.body code).result⟩) ∧
    (lockedInitEffect code s fn w).shutters = w.shutters ∧
    (lockedInitEffect code s fn w).log.count (Event.init s fn)
      = w.log.count (Event.init s fn) + 1 ∧
    (lockedInitEffect code s fn w).vars = varsEffect w.vars (fn.body code).calls ∧
    (∀ (e : Error) (f : Option Func) (rest : List Call) (p : Error) (st : List Frame)
        (r : Error), (w.shutters s).idle = true →
      (∀ g ∈ (w.shutters s).terminatingFunc ++ (w.shutters s).terminatedFunc,
        g.quiet code (enterTerminating s e w) = true) →
      ∃ r', Reaches code
        ⟨w, Frame.user f (Call.LockedInit s fn :: Call.Shutdown s (Arg.lit e) :: rest) p :: st,
          r⟩
        ⟨shutdownEffect code s e (lockedInitEffect code s fn w), Frame.user f rest p :: st,
          r'⟩) := by
  have hsh := lockedInitEffect_shutters code s fn w hl
  refine ⟨fun st r => lockedInit_runs code s fn st w r hl ht hq, hsh, ?_, ?_, ?_⟩
  · simp [lockedInitEffect, List.count_append, quietEffect_count_init]
  · simp [lockedInitEffect, quietEffect_vars]
  · intro e f rest p st r hi hcb
    have p1 : Reaches code
        ⟨w, Frame.user f (Call.LockedInit s fn :: Call.Shutdown s (Arg.lit e) :: rest) p :: st,
          r⟩
        ⟨w, Frame.LockedInit s fn LockedInitPc.lock
          :: Frame.user f (Call.Shutdown s (Arg.lit e) :: rest) p :: st, r⟩ :=
      Reaches.of_step (by simp [step, Frame.step, stepUser])
    have p2 := lockedInit_runs code s fn
      (Frame.user f (Call.Shutdown s (Arg.lit e) :: rest) p :: st) w r hl ht hq
    have p3 : Reaches code
        ⟨lockedInitEffect code s fn w,
          Frame.user f (Call.Shutdown s (Arg.lit e) :: rest) p :: st, (fn.body code).result⟩
        ⟨lockedInitEffect code s fn w,
          Frame.Shutdown s e ShutdownPc.once :: Frame.user f rest p :: st,
          (fn.body code).result⟩ :=
      Reaches.of_step (by simp [step, Frame.step, stepUser, Arg.eval])
    have hq2 : ∀ g ∈ ((lockedInitEffect code s fn w).shutters s).terminatingFunc
        ++ ((lockedInitEffect code s fn w).shutters s).terminatedFunc,
        g.quiet code (enterTerminating s e (lockedInitEffect code s fn w)) = true := by
      rw [hsh]
      intro g hg
      rw [← hcb g hg]
      apply func_quiet_congr
      funext i
      simp [enterTerminating, hsh]
    obtain ⟨r', p4⟩ := shutdown_runs code s e (Frame.user f rest p :: st)
      (lockedInitEffect code s fn w) (fn.body code).result (by rw [hsh]; exact hi)
      (fun g hg => hq2 g (List.mem_append_left _ hg))
      (fun g hg => hq2 g (List.mem_append_right _ hg))
    exact ⟨r', p1.trans (p2.trans (p3.trans p4))⟩

theorem lockedInit_not_down_witness :
    (lockedInitEffect exampleCode 0 (Func.closure 1)
        (exec exampleCode 4 (start exampleNotDown)).world).shutters
      = (exec exampleCode 4 (start exampleNotDown)).world.shutters ∧
    (lockedInitEffect exampleCode 0 (Func.closure 1)
        (exec exampleCode 4 (start exampleNotDown)).world).log.count
        (Event.init 0 (Func.closure 1))
      = (exec exampleCode 4 (start exampleNotDown)).world.log.count
          (Event.init 0 (Func.closure 1)) + 1 ∧
    (lockedInitEffect exampleCode 0 (Func.closure 1)
        (exec exampleCode 4 (start exampleNotDown)).world).vars 0 = 1 ∧
    (exec exampleCode 60 (start exampleNotDown)).stack = [] ∧
    (exec exampleCode 60 (start exampleNotDown)).world.vars 0 = 0 :=
  ⟨(lockedInit_not_down exampleCode 0 (Func.closure 1)
      (exec exampleCode 4 (start exampleNotDown)).world (by decide) (by decide) (by decide)).2.1,
    (lockedInit_not_down exampleCode 0 (Func.closure 1)
      (exec exampleCode 4 (start exampleNotDown)).world (by decide) (by decide)
        (by decide)).2.2.1,
    by decide, by decide, by decide⟩


/-! ## Late registration -/

theorem callbacksOf_append (s : Nat) (ph : Phase) (log : List Event) (ev : Event) :
    callbacksOf s ph (log ++ [ev]) = callbacksOf s ph log ++ (ev.callbackOf s ph).toList := by
  unfold callbacksOf
  rw [List.filterMap_append]
  cases h : ev.callbackOf s ph <;> simp [List.filterMap_cons, h]

/-- Once the gate of `s` is closed and no activation of `Shutdown` on `s` can
still invoke a callback of the phase, a transition keeps it so and invokes no
callback of that phase. -/
theorem done_step (code : Nat → Body) (s' : Nat) (ph : Phase) (w : World) (f : Frame)
    (st : List Frame) (r : Error) (c' : Config)
    (ho : (w.shutters s').once = true)
    (hc : (f :: st).countP (Frame.canCall s' ph) = 0)
    (hs : step code ⟨w, f :: st, r⟩ = Step.next c') :
    ((c'.world.shutters s').once = true ∧ c'.stack.countP (Frame.canCall s' ph) = 0) ∧
    callbacksOf s' ph c'.world.log = callbacksOf s' ph w.log := by
  cases ph <;>
  rcases f with ⟨_ | g, _ | ⟨_ | _, rest⟩, p⟩ | ⟨s, e, _ | _ | _ | _ | _ | _ | _ | ⟨_ | _⟩ | _ | _ | _ | _ | _ | _ | ⟨_ | _⟩ | _⟩ |
    ⟨s, fn, _ | _⟩ | ⟨s, g, _ | _⟩ | ⟨s, g, _ | _⟩ | ⟨s, _ | _⟩ | ⟨p, q, _ | _⟩ <;>
    simp only [step, Frame.step, stepUser, stepShutdown, stepLockedInit, stepOnTerminating,
      stepOnTerminated, stepErr, stepBind, closeTerminatingCh, closeTerminatedCh,
      Shutter.IsTerminating, Shutter.IsTerminated] at hs <;>
    (try split_ifs at hs) <;>
    (try simp only [Step.next.injEq, reduceCtorEq] at hs) <;>
    (try subst hs) <;>
    (try simp [List.countP_cons, Frame.canCall, ShutdownPc.canCall,
      -List.countP_eq_zero] at hc) <;>
    (try simp [List.countP_cons, Frame.canCall, ShutdownPc.canCall, callbacksOf_append,
      Event.callbackOf, -List.countP_eq_zero]) <;>
    (try split_ifs at hc ⊢) <;>
    (try subst_vars) <;>
    (try simp_all [-List.countP_eq_zero]) <;> (try omega)

theorem done_exec (code : Nat → Body) (s : Nat) (ph : Phase) (c : Config)
    (ho : (c.world.shutters s).once = true) (hc : c.stack.countP (Frame.canCall s ph) = 0)
    (m : Nat) : callbacksOf s ph (exec code m c).world.log = callbacksOf s ph c.world.log := by
  have key := exec_induction code
    (fun c' => ((c'.world.shutters s).once = true ∧ c'.stack.countP (Frame.canCall s ph) = 0) ∧
      callbacksOf s ph c'.world.log = callbacksOf s ph c.world.log)
    (fun c1 c2 h1 hs => by
      obtain ⟨w, st, r⟩ := c1
      cases st with
      | nil => simp [step] at hs
      | cons f st =>
        have := done_step code s ph w f st r c2 h1.1.1 h1.1.2 hs
        exact ⟨this.1, this.2.trans h1.2⟩)
    m c ⟨⟨ho, hc⟩, rfl⟩
  exact key.2

/-- With the lock of the list free, `OnTerminating(f)` appends `f` and
returns after three transitions. -/
theorem onTerminating_runs (code : Nat → Body) (s : Nat) (f : Func) (st : List Frame)
    (w : World) (r : Error) (hl : (w.shutters s).terminatingFuncLock = false) :
    exec code 3 ⟨w, Frame.OnTerminating s f RegisterPc.lock :: st, r⟩
      = ⟨w.set s { w.shutters s with terminatingFunc := (w.shutters s).terminatingFunc ++ [f] },
          st, r⟩ := by
  simp [exec, step, Frame.step, stepOnTerminating, hl]
  apply world_eq_of_fields
  · intro i
    by_cases hi : i = s
    · subst hi
      apply shutter_eq_of_fields <;> simp [hl]
    · simp [hi]
  · simp
  · simp

/-- With the lock of the list free, `OnTerminated(f)` appends `f` and returns
after three transitions. -/
theorem onTerminated_runs (code : Nat → Body) (s : Nat) (f : Func) (st : List Frame)
    (w : World) (r : Error) (hl : (w.shutters s).terminatedFuncLock = false) :
    exec code 3 ⟨w, Frame.OnTerminated s f RegisterPc.lock :: st, r⟩
      = ⟨w.set s { w.shutters s with terminatedFunc := (w.shutters s).terminatedFunc ++ [f] },
          st, r⟩ := by
  simp [exec, step, Frame.step, stepOnTerminated, hl]
  apply world_eq_of_fields
  · intro i
    by_cases hi : i = s
    · subst hi
      apply shutter_eq_of_fields <;> simp [hl]
    · simp [hi]
  · simp
  · simp


/-! ## Bound coordinators -/

theorem World.later_refl (w : World) : w.later w := ⟨fun _ h => h, fun _ h => h, fun _ => rfl⟩

theorem World.later_trans {a b c : World} (h1 : a.later b) (h2 : b.later c) : a.later c :=
  ⟨fun i h => h2.once i (h1.once i h), fun i h => h2.terminating i (h1.terminating i h),
    fun i => (h2.lock i).trans (h1.lock i)⟩

theorem World.later_of_shutters {w w' : World} (h : w'.shutters = w.shutters) : w.later w' :=
  ⟨fun i hx => by rw [h]; exact hx, fun i hx => by rw [h]; exact hx, fun i => by rw [h]⟩

theorem later_enterTerminating (s : Nat) (e : Error) (w : World) :
    w.later (enterTerminating s e w) := by
  constructor <;> intro i <;> simp only [enterTerminating, World.emit_shutters,
    World.set_shutters] <;> split_ifs with h <;> simp_all

theorem later_enterTerminated (s : Nat) (w : World) : w.later (enterTerminated s w) := by
  constructor <;> intro i <;> simp only [enterTerminated, World.emit_shutters,
    World.set_shutters] <;> split_ifs with h <;> simp_all

theorem later_shutdownEffect (code : Nat → Body) (s : Nat) (e : Error) (w : World) :
    w.later (shutdownEffect code s e w) := by
  constructor <;> intro i <;> rw [shutdownEffect_shutters] <;> split_ifs with h <;> simp_all

theorem call_quiet_mono {w w' : World} (h : w.later w') (c : Call) (hq : c.quiet w = true) :
    c.quiet w' = true := by
  cases c <;> simp_all [Call.quiet, h.lock]
  · exact h.once _ hq
  · exact h.terminating _ hq.1

theorem func_quiet_mono (code : Nat → Body) {w w' : World} (h : w.later w') (f : Func)
    (hq : f.quiet code w = true) : f.quiet code w' = true := by
  unfold Func.quiet at hq ⊢
  rw [List.all_eq_true] at hq ⊢
  exact fun c hc => call_quiet_mono h c (hq c hc)

/-- `Bind(p, c)` registers the two propagating callbacks and returns. -/
theorem bind_runs (code : Nat → Body) (p c : Nat) (st : List Frame) (w : World) (r : Error)
    (hp : (w.shutters p).terminatingFuncLock = false)
    (hc : (w.shutters c).terminatingFuncLock = false) :
    exec code 9 ⟨w, Frame.Bind p c BindPc.first :: st, r⟩ = ⟨bindEffect p c w, st, r⟩ := by
  by_cases hpc : c = p
  · subst hpc
    simp [exec, step, Frame.step, stepBind, stepOnTerminating, hp, bindEffect]
    apply world_eq_of_fields
    · intro i
      by_cases hi : i = c
      · subst hi
        apply shutter_eq_of_fields <;> simp [hp]
      · simp [hi]
    · simp
    · simp
  · simp [exec, step, Frame.step, stepBind, stepOnTerminating, hp, hc, hpc, bindEffect]
    apply world_eq_of_fields
    · intro i
      by_cases hi : i = c
      · subst hi
        apply shutter_eq_of_fields <;> simp [hc, hpc]
      · by_cases hi' : i = p
        · subst hi'
          apply shutter_eq_of_fields <;> simp [hp, hi]
        · simp [hi, hi']
    · simp
    · simp


theorem Func.quiet_propagate (code : Nat → Body) (w : World) (t : Nat) :
    (Func.propagate t).quiet code w = (w.shutters t).once := by
  simp [Func.quiet, Func.body, Call.quiet]

/-- Two idle coordinators each of which has, as its last terminating
callback, the one that shuts the other down, all other callbacks being quiet:
`Shutdown(e)` on the first shuts both down and returns. -/
theorem bound_shutdown_runs (code : Nat → Body) (A B : Nat) (e : Error) (st : List Frame)
    (w : World) (r : Error) (tsA tsB : List Func) (hne : A ≠ B)
    (hA : (w.shutters A).idle = true) (hB : (w.shutters B).idle = true)
    (hlA : (w.shutters A).terminatingFunc = tsA ++ [Func.propagate B])
    (hlB : (w.shutters B).terminatingFunc = tsB ++ [Func.propagate A])
    (hqA : ∀ g ∈ tsA ++ (w.shutters A).terminatedFunc, g.quiet code w = true)
    (hqB : ∀ g ∈ tsB ++ (w.shutters B).terminatedFunc, g.quiet code w = true) :
    ∃ r', Reaches code ⟨w, Frame.Shutdown A e ShutdownPc.once :: st, r⟩
      ⟨leaveTerminated A ((w.shutters A).terminatedFunc.foldl
          (Func.effect code A Phase.terminated e)
          (enterTerminated A ((shutdownEffect code B e
            ((tsA.foldl (Func.effect code A Phase.terminating e) (enterTerminating A e w)).emit
              (Event.callback A Phase.terminating (Func.propagate B) e))).emit
            (Event.returned (Func.propagate B))))), st, r'⟩ := by
  obtain ⟨a1, a2, a3, a4, a5, a6⟩ := (Shutter.idle_iff _).mp hA
  have hBA : B ≠ A := fun h => hne h.symm
  -- the worlds on the way
  generalize hw1 : enterTerminating A e w = w1
  have l1 : w.later w1 := hw1 ▸ later_enterTerminating A e w
  have s1A : w1.shutters A = { w.shutters A with
      once := true, err := e, terminatingCh := true, terminatingFuncLock := true } := by
    subst hw1
    simp [enterTerminating]
  have s1B : w1.shutters B = w.shutters B := by
    subst hw1
    simp [enterTerminating, hBA]
  generalize hw2 : tsA.foldl (Func.effect code A Phase.terminating e) w1 = w2
  have s2 : w2.shutters = w1.shutters := by
    subst hw2
    simp
  generalize hw3 : w2.emit (Event.callback A Phase.terminating (Func.propagate B) e) = w3
  have s3 : w3.shutters = w1.shutters := by
    subst hw3
    simpa using s2
  have l3 : w.later w3 := World.later_trans l1 (World.later_of_shutters s3)
  generalize hw4 : shutdownEffect code B e w3 = w4
  have s4A : w4.shutters A = w1.shutters A := by
    subst hw4
    rw [shutdownEffect_shutters, if_neg hne, s3]
  have l4 : w.later w4 := World.later_trans l3 (hw4 ▸ later_shutdownEffect code B e w3)
  generalize hw5 : w4.emit (Event.returned (Func.propagate B)) = w5
  have s5 : w5.shutters = w4.shutters := by
    subst hw5
    simp
  have l5 : w.later w5 := World.later_trans l4 (World.later_of_shutters s5)
  have s5A : w5.shutters A = { w.shutters A with
      once := true, err := e, terminatingCh := true, terminatingFuncLock := true } := by
    rw [s5, s4A, s1A]
  -- from `once.Do` to the loop
  have p1 : Reaches code ⟨w, Frame.Shutdown A e ShutdownPc.once :: st, r⟩
      ⟨w1, Frame.Shutdown A e (ShutdownPc.callTerminating (tsA ++ [Func.propagate B])) :: st,
        r⟩ := by
    refine ⟨7, ?_⟩
    rw [shutdown_prologue code A e st w r hA, hw1, hlA]
  -- the quiet callbacks of `A`
  obtain ⟨r2, p2⟩ := terminating_loop_runs code A e tsA [Func.propagate B] st w1 r
    (fun g hg => func_quiet_mono code l1 g (hqA g (List.mem_append_left _ hg)))
  rw [hw2] at p2
  -- the callback that shuts `B` down
  have p3 : Reaches code
      ⟨w2, Frame.Shutdown A e (ShutdownPc.callTerminating [Func.propagate B]) :: st, r2⟩
      ⟨w3, Frame.Shutdown B e ShutdownPc.once
        :: Frame.user (some (Func.propagate B)) [] e
        :: Frame.Shutdown A e (ShutdownPc.callTerminating []) :: st, r2⟩ := by
    refine ⟨2, ?_⟩
    subst hw3
    simp [exec, step, Frame.step, stepShutdown, stepUser, Func.body, Arg.eval]
  have hB3 : (w3.shutters B).idle = true := by
    rw [s3, s1B]
    exact hB
  have hl3B : (w3.shutters B).terminatingFunc = tsB ++ [Func.propagate A] := by
    rw [s3, s1B]
    exact hlB
  have hd3B : (w3.shutters B).terminatedFunc = (w.shutters B).terminatedFunc := by
    rw [s3, s1B]
  have l3e : w.later (enterTerminating B e w3) := World.later_trans l3 (later_enterTerminating B e w3)
  obtain ⟨r4, p4⟩ := shutdown_runs code B e
    (Frame.user (some (Func.propagate B)) [] e
      :: Frame.Shutdown A e (ShutdownPc.callTerminating []) :: st) w3 r2 hB3
    (by
      intro g hg
      rw [hl3B] at hg
      rcases List.mem_append.mp hg with hg | hg
      · exact func_quiet_mono code l3e g (hqB g (List.mem_append_left _ hg))
      · rw [List.mem_singleton.mp hg, Func.quiet_propagate]
        have o1 : (w1.shutters A).once = true := by rw [s1A]
        exact (later_enterTerminating B e w3).once A (by rw [s3]; exact o1))
    (by
      intro g hg
      rw [hd3B] at hg
      exact func_quiet_mono code l3e g (hqB g (List.mem_append_right _ hg)))
  rw [hw4] at p4
  -- back in `A`
  have p5 : Reaches code
      ⟨w4, Frame.user (some (Func.propagate B)) [] e
        :: Frame.Shutdown A e (ShutdownPc.callTerminating []) :: st, r4⟩
      ⟨w5, Frame.Shutdown A e (ShutdownPc.callTerminating []) :: st,
        ((Func.propagate B).body code).result⟩ := by
    refine Reaches.of_step ?_
    subst hw5
    simp [step, Frame.step, stepUser]
  have p6 := shutdown_middle code A e st w5 ((Func.propagate B).body code).result
    (by rw [s5A]; exact a4) (by rw [s5A]; exact a3) (by rw [s5A]) (by rw [s5A]; exact a6)
  have hd5 : (w5.shutters A).terminatedFunc = (w.shutters A).terminatedFunc := by rw [s5A]
  rw [hd5] at p6
  obtain ⟨r7, p7⟩ := terminated_loop_runs code A e (w.shutters A).terminatedFunc [] st
    (enterTerminated A w5) ((Func.propagate B).body code).result
    (fun g hg => func_quiet_mono code (World.later_trans l5 (later_enterTerminated A w5)) g
      (hqA g (List.mem_append_right _ hg)))
  rw [List.append_nil] at p7
  have p8 := shutdown_epilogue code A e st
    ((w.shutters A).terminatedFunc.foldl (Func.effect code A Phase.terminated e)
      (enterTerminated A w5)) r7 (by simp [enterTerminated])
  have p6' : Reaches code _ _ := ⟨7, p6⟩
  have p8' : Reaches code _ _ := ⟨2, p8⟩
  exact ⟨r7, p1.trans (p2.trans (p3.trans (p4.trans (p5.trans (p6'.trans (p7.trans p8'))))))⟩


theorem boundEffect_shutters_fst (code : Nat → Body) (A B : Nat) (e : Error) (ts : List Func)
    (w : World) (hne : A ≠ B) :
    (boundEffect code A B e ts w).shutters A = { w.shutters A with
      once := true, err := e, terminatingCh := true, terminatedCh := true,
      terminatingFuncLock := false, terminatedFuncLock := false } := by
  simp [boundEffect, leaveTerminated, enterTerminated, shutdownEffect_shutters, hne,
    enterTerminating]

theorem boundEffect_shutters_snd (code : Nat → Body) (A B : Nat) (e : Error) (ts : List Func)
    (w : World) (hne : A ≠ B) :
    (boundEffect code A B e ts w).shutters B = { w.shutters B with
      once := true, err := e, terminatingCh := true, terminatedCh := true,
      terminatingFuncLock := false, terminatedFuncLock := false } := by
  have hBA : B ≠ A := fun h => hne h.symm
  simp [boundEffect, leaveTerminated, enterTerminated, shutdownEffect_shutters, hBA,
    enterTerminating]

theorem boundEffect_shutters_other (code : Nat → Body) (A B : Nat) (e : Error)
    (ts : List Func) (w : World) (i : Nat) (hA : i ≠ A) (hB : i ≠ B) :
    (boundEffect code A B e ts w).shutters i = w.shutters i := by
  simp [boundEffect, leaveTerminated, enterTerminated, shutdownEffect_shutters, hA, hB,
    enterTerminating]

theorem boundEffect_invocations (code : Nat → Body) (A B : Nat) (e : Error)
    (ts tsB : List Func) (w : World) (hne : A ≠ B)
    (hlB : (w.shutters B).terminatingFunc = tsB ++ [Func.propagate A]) :
    invocations (boundEffect code A B e ts w).log
      = invocations w.log ++ boundInvocations A B e ts (w.shutters A).terminatedFunc
          tsB (w.shutters B).terminatedFunc := by
  have hBA : B ≠ A := fun h => hne h.symm
  simp only [boundEffect, leaveTerminated, World.set_log, foldl_effect_invocations,
    enterTerminated, World.emit_log, invocations_append, shutdownEffect_invocations,
    World.emit_shutters, foldl_effect_shutters, enterTerminating, World.set_shutters,
    if_neg hBA, boundInvocations, hlB]
  simp [invocations]


theorem bindEffect_shutters_fst (P C : Nat) (w : World) (hne : P ≠ C) :
    (bindEffect P C w).shutters P = { w.shutters P with
      terminatingFunc := (w.shutters P).terminatingFunc ++ [Func.propagate C] } := by
  simp [bindEffect, hne]

theorem bindEffect_shutters_snd (P C : Nat) (w : World) (hne : P ≠ C) :
    (bindEffect P C w).shutters C = { w.shutters C with
      terminatingFunc := (w.shutters C).terminatingFunc ++ [Func.propagate P] } := by
  have hCP : C ≠ P := fun h => hne h.symm
  simp [bindEffect, hCP]

theorem later_bindEffect (P C : Nat) (w : World) : w.later (bindEffect P C w) := by
  constructor <;> intro i <;> simp only [bindEffect, World.set_shutters] <;>
    split_ifs <;> simp_all

theorem invocations_bindEffect (P C : Nat) (w : World) :
    invocations (bindEffect P C w).log = invocations w.log := by
  simp [bindEffect]

/-- After `Bind(P, C)` on two idle coordinators with quiet callbacks,
`Shutdown(e)` on `A`, one of the two, `B` being the other, shuts both down. -/
theorem bind_then_shutdown (code : Nat → Body) (P C A B : Nat) (e : Error) (w : World)
    (hne : P ≠ C) (hAB : (A = P ∧ B = C) ∨ (A = C ∧ B = P))
    (hP : (w.shutters P).idle = true) (hC : (w.shutters C).idle = true)
    (hq : ∀ g ∈ (w.shutters P).terminatingFunc ++ (w.shutters P).terminatedFunc
      ++ (w.shutters C).terminatingFunc ++ (w.shutters C).terminatedFunc,
      g.quiet code w = true)
    (f : Option Func) (rest : List Call) (p : Error) (st : List Frame) (r : Error) :
    ∃ w' r', Reaches code
        ⟨w, Frame.user f (Call.Bind P C :: Call.Shutdown A (Arg.lit e) :: rest) p :: st, r⟩
        ⟨w', Frame.user f rest p :: st, r'⟩ ∧
      (w'.shutters P).IsTerminated = true ∧ (w'.shutters C).IsTerminated = true ∧
      (w'.shutters P).err = e ∧ (w'.shutters C).err = e ∧
      invocations w'.log = invocations w.log ++ boundInvocations A B e
        (w.shutters A).terminatingFunc (w.shutters A).terminatedFunc
        (w.shutters B).terminatingFunc (w.shutters B).terminatedFunc := by
  have hCP : C ≠ P := fun h => hne h.symm
  have hAne : A ≠ B := by
    rcases hAB with ⟨rfl, rfl⟩ | ⟨rfl, rfl⟩
    · exact hne
    · exact hCP
  obtain ⟨_, _, _, _, tP, _⟩ := (Shutter.idle_iff _).mp hP
  obtain ⟨_, _, _, _, tC, _⟩ := (Shutter.idle_iff _).mp hC
  have sP := bindEffect_shutters_fst P C w hne
  have sC := bindEffect_shutters_snd P C w hne
  have hidle : ∀ i, (i = P ∨ i = C) → ((bindEffect P C w).shutters i).idle = true := by
    intro i hi
    rcases hi with rfl | rfl
    · rw [sP]
      exact hP
    · rw [sC]
      exact hC
  have hqb : ∀ g ∈ (w.shutters P).terminatingFunc ++ (w.shutters P).terminatedFunc
      ++ (w.shutters C).terminatingFunc ++ (w.shutters C).terminatedFunc,
      g.quiet code (bindEffect P C w) = true :=
    fun g hg => func_quiet_mono code (later_bindEffect P C w) g (hq g hg)
  have p1 : Reaches code
      ⟨w, Frame.user f (Call.Bind P C :: Call.Shutdown A (Arg.lit e) :: rest) p :: st, r⟩
      ⟨bindEffect P C w, Frame.Shutdown A e ShutdownPc.once :: Frame.user f rest p :: st,
        r⟩ := by
    refine ⟨1 + (9 + 1), ?_⟩
    rw [exec_add, exec_add]
    have e1 : exec code 1
        ⟨w, Frame.user f (Call.Bind P C :: Call.Shutdown A (Arg.lit e) :: rest) p :: st, r⟩
        = ⟨w, Frame.Bind P C BindPc.first
            :: Frame.user f (Call.Shutdown A (Arg.lit e) :: rest) p :: st, r⟩ := by
      simp [exec, step, Frame.step, stepUser]
    rw [e1, bind_runs code P C _ w r tP tC]
    simp [exec, step, Frame.step, stepUser, Arg.eval]
  have hlA : ((bindEffect P C w).shutters A).terminatingFunc
      = (w.shutters A).terminatingFunc ++ [Func.propagate B] := by
    rcases hAB with ⟨rfl, rfl⟩ | ⟨rfl, rfl⟩
    · rw [sP]
    · rw [sC]
  have hlB : ((bindEffect P C w).shutters B).terminatingFunc
      = (w.shutters B).terminatingFunc ++ [Func.propagate A] := by
    rcases hAB with ⟨rfl, rfl⟩ | ⟨rfl, rfl⟩
    · rw [sC]
    · rw [sP]
  have hdA : ((bindEffect P C w).shutters A).terminatedFunc = (w.shutters A).terminatedFunc := by
    rcases hAB with ⟨rfl, rfl⟩ | ⟨rfl, rfl⟩
    · rw [sP]
    · rw [sC]
  have hdB : ((bindEffect P C w).shutters B).terminatedFunc = (w.shutters B).terminatedFunc := by
    rcases hAB with ⟨rfl, rfl⟩ | ⟨rfl, rfl⟩
    · rw [sC]
    · rw [sP]
  have hmem : ∀ g, g ∈ (w.shutters A).terminatingFunc ++ (w.shutters A).terminatedFunc
      ∨ g ∈ (w.shutters B).terminatingFunc ++ (w.shutters B).terminatedFunc →
      g.quiet code (bindEffect P C w) = true := by
    intro g hg
    apply hqb g
    rcases hAB with ⟨rfl, rfl⟩ | ⟨rfl, rfl⟩ <;>
      simp only [List.mem_append] at hg ⊢ <;> tauto
  obtain ⟨r', p2⟩ := bound_shutdown_runs code A B e (Frame.user f rest p :: st)
    (bindEffect P C w) r (w.shutters A).terminatingFunc (w.shutters B).terminatingFunc hAne
    (hidle A (by rcases hAB with ⟨rfl, rfl⟩ | ⟨rfl, rfl⟩ <;> simp))
    (hidle B (by rcases hAB with ⟨rfl, rfl⟩ | ⟨rfl, rfl⟩ <;> simp))
    hlA hlB
    (fun g hg => hmem g (Or.inl (by rw [hdA] at hg; exact hg)))
    (fun g hg => hmem g (Or.inr (by rw [hdB] at hg; exact hg)))
  rw [hdA] at p2
  have hfin : boundEffect code A B e (w.shutters A).terminatingFunc (bindEffect P C w)
      = leaveTerminated A ((w.shutters A).terminatedFunc.foldl
          (Func.effect code A Phase.terminated e)
          (enterTerminated A ((shutdownEffect code B e
            (((w.shutters A).terminatingFunc.foldl (Func.effect code A Phase.terminating e)
              (enterTerminating A e (bindEffect P C w))).emit
              (Event.callback A Phase.terminating (Func.propagate B) e))).emit
            (Event.returned (Func.propagate B))))) := by
    simp only [boundEffect, hdA]
  rw [← hfin] at p2
  have hsA := boundEffect_shutters_fst code A B e (w.shutters A).terminatingFunc
    (bindEffect P C w) hAne
  have hsB := boundEffect_shutters_snd code A B e (w.shutters A).terminatingFunc
    (bindEffect P C w) hAne
  have hinv := boundEffect_invocations code A B e (w.shutters A).terminatingFunc
    (w.shutters B).terminatingFunc (bindEffect P C w) hAne hlB
  rw [hdA, hdB, invocations_bindEffect] at hinv
  refine ⟨_, r', p1.trans p2, ?_, ?_, ?_, ?_, hinv⟩ <;>
    rcases hAB with ⟨rfl, rfl⟩ | ⟨rfl, rfl⟩ <;>
    simp [hsA, hsB, Shutter.IsTerminated]

/-- C10, on `Bind` as modelled from the spec: for two distinct coordinators
`P` and `C` that are running with no operation in progress and whose
callbacks are quiet, after `P.Bind(C)` a call `Shutdown(e)` on `P`
(downstream) or on `C` (upstream) returns; both coordinators are then
terminated with stored error `e`, and the callbacks invoked are, in order:
the terminating callbacks of the one shut down, the propagation to the
other, the terminating callbacks of the other, the propagation back (which
finds the gate closed and invokes nothing), the terminated callbacks of the
other, the terminated callbacks of the one shut down: each once. -/
theorem bind_propagates (code : Nat → Body) (P C : Nat) (e : Error) (w : World) (hne : P ≠ C)
    (hP : (w.shutters P).idle = true) (hC : (w.shutters C).idle = true)
    (hq : ∀ g ∈ (w.shutters P).terminatingFunc ++ (w.shutters P).terminatedFunc
      ++ (w.shutters C).terminatingFunc ++ (w.shutters C).terminatedFunc,
      g.quiet code w = true)
    (f : Option Func) (rest : List Call) (p : Error) (st : List Frame) (r : Error) :
    (∃ w' r', Reaches code
        ⟨w, Frame.user f (Call.Bind P C :: Call.Shutdown P (Arg.lit e) :: rest) p :: st, r⟩
        ⟨w', Frame.user f rest p :: st, r'⟩ ∧
      (w'.shutters P).IsTerminated = true ∧ (w'.shutters C).IsTerminated = true ∧
      (w'.shutters P).err = e ∧ (w'.shutters C).err = e ∧
      invocations w'.log = invocations w.log ++ boundInvocations P C e
        (w.shutters P).terminatingFunc (w.shutters P).terminatedFunc
        (w.shutters C).terminatingFunc (w.shutters C).terminatedFunc) ∧
    (∃ w' r', Reaches code
        ⟨w, Frame.user f (Call.Bind P C :: Call.Shutdown C (Arg.lit e) :: rest) p :: st, r⟩
        ⟨w', Frame.user f rest p :: st, r'⟩ ∧
      (w'.shutters P).IsTerminated = true ∧ (w'.shutters C).IsTerminated = true ∧
      (w'.shutters P).err = e ∧ (w'.shutters C).err = e ∧
      invocations w'.log = invocations w.log ++ boundInvocations C P e
        (w.shutters C).terminatingFunc (w.shutters C).terminatedFunc
        (w.shutters P).terminatingFunc (w.shutters P).terminatedFunc) :=
  ⟨bind_then_shutdown code P C P C e w hne (Or.inl ⟨rfl, rfl⟩) hP hC hq f rest p st r,
    bind_then_shutdown code P C C P e w hne (Or.inr ⟨rfl, rfl⟩) hP hC hq f rest p st r⟩

theorem bind_propagates_witness :
    (∃ w' r', Reaches exampleCode
        ⟨(exec exampleCode 8 (start exampleBindUp)).world,
          [Frame.user none [Call.Bind 0 1, Call.Shutdown 1 (Arg.lit (Error.New 7))] Error.nil],
          Error.nil⟩
        ⟨w', [Frame.user none [] Error.nil], r'⟩ ∧
      (w'.shutters 0).IsTerminated = true ∧ (w'.shutters 1).IsTerminated = true ∧
      (w'.shutters 0).err = Error.New 7 ∧ (w'.shutters 1).err = Error.New 7 ∧
      invocations w'.log = invocations (exec exampleCode 8 (start exampleBindUp)).world.log
        ++ boundInvocations 1 0 (Error.New 7)
          ((exec exampleCode 8 (start exampleBindUp)).world.shutters 1).terminatingFunc
          ((exec exampleCode 8 (start exampleBindUp)).world.shutters 1).terminatedFunc
          ((exec exampleCode 8 (start exampleBindUp)).world.shutters 0).terminatingFunc
          ((exec exampleCode 8 (start exampleBindUp)).world.shutters 0).terminatedFunc) ∧
    (exec exampleCode 80 (start exampleBindUp)).stack = [] ∧
    (exec exampleCode 80 (start exampleBindUp)).world.vars 0 = 2 ∧
    ((exec exampleCode 80 (start exampleBindUp)).world.shutters 0).err = Error.New 7 ∧
    (exec exampleCode 80 (start exampleBindDown)).stack = [] ∧
    (exec exampleCode 80 (start exampleBindDown)).world.vars 0 = 2 ∧
    ((exec exampleCode 80 (start exampleBindDown)).world.shutters 1).err = Error.New 7 :=
  ⟨(bind_propagates exampleCode 0 1 (Error.New 7) (exec exampleCode 8 (start exampleBindUp)).world
      (by decide) (by decide) (by decide) (by decide) none [] Error.nil [] Error.nil).2,
    by decide, by decide, by decide, by decide, by decide, by decide⟩


/-! ## Fuel -/

/-- A goroutine that reaches the end of its stack after `n` transitions is
reported as returned by `run` with any fuel above `n`. -/
theorem run_returned (code : Nat → Body) (n k : Nat) (c : Config) (w : World) (r : Error)
    (h : exec code n c = ⟨w, [], r⟩) : run code (n + 1 + k) c = Outcome.returned w r := by
  induction n generalizing c with
  | zero =>
    simp only [exec] at h
    subst h
    rw [Nat.zero_add, Nat.add_comm]
    simp [run, step]
  | succ n ih =>
    cases hs : step code c with
    | next c' =>
      rw [exec_succ_of_next n hs] at h
      have : n + 1 + 1 + k = (n + 1 + k) + 1 := by omega
      rw [this]
      simp only [run, hs]
      exact ih c' h
    | blocked =>
      have hn : ∀ c', step code c ≠ Step.next c' := fun c' hc => by rw [hs] at hc; cases hc
      rw [exec_of_not_next _ hn] at h
      subst h
      simp [step] at hs
    | panic =>
      have hn : ∀ c', step code c ≠ Step.next c' := fun c' hc => by rw [hs] at hc; cases hc
      rw [exec_of_not_next _ hn] at h
      subst h
      simp [step] at hs
    | done =>
      have hn : ∀ c', step code c ≠ Step.next c' := fun c' hc => by rw [hs] at hc; cases hc
      rw [exec_of_not_next _ hn] at h
      subst h
      have : n + 1 + 1 + k = (n + 1 + k) + 1 := by omega
      rw [this]
      simp [run, step]

/-- A goroutine that waits for a mutex after `n` transitions is reported as
deadlocked by `run` with any fuel above `n`. -/
theorem run_deadlock (code : Nat → Body) (n k : Nat) (c : Config)
    (h : step code (exec code n c) = Step.blocked) :
    run code (n + 1 + k) c = Outcome.deadlock (exec code n c) := by
  induction n generalizing c with
  | zero =>
    simp only [exec] at h ⊢
    rw [Nat.zero_add, Nat.add_comm]
    simp [run, h]
  | succ n ih =>
    have e1 : n + 1 + 1 + k = (n + 1 + k) + 1 := by omega
    cases hs : step code c with
    | next c' =>
      rw [exec_succ_of_next n hs] at h ⊢
      rw [e1]
      simp only [run, hs]
      exact ih c' h
    | blocked =>
      have hn : ∀ c', step code c ≠ Step.next c' := fun c' hc => by rw [hs] at hc; cases hc
      rw [exec_of_not_next _ hn]
      rw [e1]
      simp [run, hs]
    | panic =>
      have hn : ∀ c', step code c ≠ Step.next c' := fun c' hc => by rw [hs] at hc; cases hc
      rw [exec_of_not_next _ hn] at h
      rw [hs] at h
      cases h
    | done =>
      have hn : ∀ c', step code c ≠ Step.next c' := fun c' hc => by rw [hs] at hc; cases hc
      rw [exec_of_not_next _ hn] at h
      rw [hs] at h
      cases h

/-! ## Re-entrant calls to `Shutdown` -/

theorem once_after_gate (code : Nat → Body) (s : Nat) (e : Error) (st : List Frame)
    (w : World) (r : Error) (k : Nat) (hk : 0 < k) :
    ((exec code k ⟨w, Frame.Shutdown s e ShutdownPc.once :: st, r⟩).world.shutters s).once
      = true := by
  obtain ⟨j, rfl⟩ : ∃ j, k = 1 + j := ⟨k - 1, by omega⟩
  rw [exec_add]
  apply (Config.le_exec code j _).once s
  by_cases ho : (w.shutters s).once = true
  · simp [exec, step, Frame.step, stepShutdown, ho]
  · simp [exec, step, Frame.step, stepShutdown, ho]

theorem quiet_of_reentrant (code : Nat → Body) (s : Nat) (w : World) (f : Func)
    (ho : (w.shutters s).once = true)
    (hq : ∀ c ∈ (f.body code).calls, (∃ a, c = Call.Shutdown s a) ∨ c.quiet w = true) :
    f.quiet code w = true := by
  unfold Func.quiet
  rw [List.all_eq_true]
  intro c hc
  rcases hq c hc with ⟨a, rfl⟩ | h
  · simpa [Call.quiet] using ho
  · exact h

/-- C11: on a coordinator that is running with no operation in progress,
whose callbacks call `Shutdown` on the same coordinator (with any argument)
and are otherwise quiet, the outer `Shutdown(e1)` returns to its caller; the
callbacks invoked are those of the two lists, once each; the stored error is
`e1` and `Err()` called next returns `e1`.  Every `Shutdown(e2)` call on the
coordinator that starts after the outer call has begun returns in its first
transition, at `once.Do`: the world only gains the record of the lost gate, so
no coordinator changes and no callback is invoked. -/
theorem reentrant_shutdown (code : Nat → Body) (s : Nat) (e1 : Error) (st : List Frame)
    (w : World) (r : Error) (hi : (w.shutters s).idle = true)
    (hq : ∀ f ∈ (w.shutters s).terminatingFunc ++ (w.shutters s).terminatedFunc,
      ∀ c ∈ (f.body code).calls,
        (∃ a, c = Call.Shutdown s a) ∨ c.quiet (enterTerminating s e1 w) = true) :
    (∃ m, (exec code m ⟨w, Frame.Shutdown s e1 ShutdownPc.once :: st, r⟩).stack = st ∧
      ((exec code m ⟨w, Frame.Shutdown s e1 ShutdownPc.once :: st, r⟩).world.shutters s).err
        = e1 ∧
      invocations (exec code m ⟨w, Frame.Shutdown s e1 ShutdownPc.once :: st, r⟩).world.log
        = invocations w.log
          ++ (w.shutters s).terminatingFunc.map
              (fun f => Event.callback s Phase.terminating f e1)
          ++ (w.shutters s).terminatedFunc.map
              (fun f => Event.callback s Phase.terminated f e1) ∧
      ∀ (st' : List Frame) (r' : Error),
        exec code 3 ⟨(exec code m ⟨w, Frame.Shutdown s e1 ShutdownPc.once :: st, r⟩).world,
            Frame.Err s ErrPc.lock :: st', r'⟩
          = ⟨(exec code m ⟨w, Frame.Shutdown s e1 ShutdownPc.once :: st, r⟩).world.emit
              (Event.err s e1), st', e1⟩) ∧
    (∀ (k : Nat) (e2 : Error) (st' : List Frame), 0 < k →
      (exec code k ⟨w, Frame.Shutdown s e1 ShutdownPc.once :: st, r⟩).stack
        = Frame.Shutdown s e2 ShutdownPc.once :: st' →
      step code (exec code k ⟨w, Frame.Shutdown s e1 ShutdownPc.once :: st, r⟩)
        = Step.next
          ⟨(exec code k ⟨w, Frame.Shutdown s e1 ShutdownPc.once :: st, r⟩).world.emit
              (Event.gate s e2 false), st',
            (exec code k ⟨w, Frame.Shutdown s e1 ShutdownPc.once :: st, r⟩).ret⟩) := by
  constructor
  · have ho : ((enterTerminating s e1 w).shutters s).once = true := by simp [enterTerminating]
    obtain ⟨r', m, hm⟩ := shutdown_runs code s e1 st w r hi
      (fun f hf => quiet_of_reentrant code s _ f ho (hq f (List.mem_append_left _ hf)))
      (fun f hf => quiet_of_reentrant code s _ f ho (hq f (List.mem_append_right _ hf)))
    refine ⟨m, ?_, ?_, ?_, ?_⟩
    · rw [hm]
    · rw [hm]
      simp [shutdownEffect_shutters]
    · rw [hm]
      exact shutdownEffect_invocations code s e1 w
    · intro st' r'
      rw [hm]
      have hl : ((shutdownEffect code s e1 w).shutters s).lock = false := by
        have := ((Shutter.idle_iff _).mp hi).2.2.2.1
        simp [shutdownEffect_shutters, this]
      rw [err_returns code _ s st' r' hl]
      simp [shutdownEffect_shutters]
  · intro k e2 st' hk hst
    have ho := once_after_gate code s e1 st w r k hk
    generalize exec code k ⟨w, Frame.Shutdown s e1 ShutdownPc.once :: st, r⟩ = c at hst ho
    obtain ⟨w2, stack, r2⟩ := c
    simp only at hst ho
    subst hst
    simp [step, Frame.step, stepShutdown, ho]

theorem reentrant_shutdown_witness :
    ((exec hazardCode 5 (start exampleReentrant)).world.shutters 0).idle = true ∧
    (exec hazardCode 5 (start exampleReentrant)).stack
      = [Frame.Shutdown 0 (Error.New 1) ShutdownPc.once,
          Frame.user none [Call.Err 0] Error.nil] ∧
    (∃ m, (exec hazardCode m ⟨(exec hazardCode 5 (start exampleReentrant)).world,
          [Frame.Shutdown 0 (Error.New 1) ShutdownPc.once,
            Frame.user none [Call.Err 0] Error.nil], Error.nil⟩).stack
        = [Frame.user none [Call.Err 0] Error.nil] ∧
      ((exec hazardCode m ⟨(exec hazardCode 5 (start exampleReentrant)).world,
          [Frame.Shutdown 0 (Error.New 1) ShutdownPc.once,
            Frame.user none [Call.Err 0] Error.nil], Error.nil⟩).world.shutters 0).err
        = Error.New 1) ∧
    step hazardCode (exec hazardCode 9 ⟨(exec hazardCode 5 (start exampleReentrant)).world,
        [Frame.Shutdown 0 (Error.New 1) ShutdownPc.once,
          Frame.user none [Call.Err 0] Error.nil], Error.nil⟩)
      = Step.next
        ⟨(exec hazardCode 9 ⟨(exec hazardCode 5 (start exampleReentrant)).world,
            [Frame.Shutdown 0 (Error.New 1) ShutdownPc.once,
              Frame.user none [Call.Err 0] Error.nil], Error.nil⟩).world.emit
            (Event.gate 0 (Error.New 2) false),
          [Frame.user (some (Func.closure 5)) [] (Error.New 1),
            Frame.Shutdown 0 (Error.New 1) (ShutdownPc.callTerminating []),
            Frame.user none [Call.Err 0] Error.nil],
          (exec hazardCode 9 ⟨(exec hazardCode 5 (start exampleReentrant)).world,
            [Frame.Shutdown 0 (Error.New 1) ShutdownPc.once,
              Frame.user none [Call.Err 0] Error.nil], Error.nil⟩).ret⟩ := by
  have ht : ((exec hazardCode 5 (start exampleReentrant)).world.shutters 0).terminatingFunc
      = [Func.closure 5] := by decide
  have hd : ((exec hazardCode 5 (start exampleReentrant)).world.shutters 0).terminatedFunc
      = [] := by decide
  have h := reentrant_shutdown hazardCode 0 (Error.New 1)
    [Frame.user none [Call.Err 0] Error.nil]
    (exec hazardCode 5 (start exampleReentrant)).world Error.nil (by decide)
    (by
      intro f hf c hc
      rw [ht, hd] at hf
      simp only [List.append_nil, List.mem_singleton] at hf
      subst hf
      simp only [Func.body, hazardCode, List.mem_singleton] at hc
      exact Or.inl ⟨_, hc⟩)
  obtain ⟨m, h1, h2, -⟩ := h.1
  exact ⟨by decide, by decide, ⟨m, h1, h2⟩, h.2 9 (Error.New 2) _ (by decide) (by decide)⟩

/-! ## What holds inside a callback and inside the function of `LockedInit` -/

/-- An activation of `Shutdown` with activations above it is in one of its
two loops. -/
theorem caller_in_loop {c : Config} (h : Inv c) (s : Nat) (e : Error) (pc : ShutdownPc)
    (f : Frame) (st : List Frame) (hst : c.stack = f :: st)
    (hm : Frame.Shutdown s e pc ∈ st) :
    (Frame.Shutdown s e pc).inTerminatingLoop s = true ∨
      (Frame.Shutdown s e pc).inTerminatedLoop s = true := by
  have hc := h.callers
  rw [hst, List.tail_cons, List.all_eq_true] at hc
  have := hc _ hm
  cases pc <;> simp [Frame.isCaller, Frame.inTerminatingLoop, Frame.inTerminatedLoop,
    ShutdownPc.inTerminatingLoop, ShutdownPc.inTerminatedLoop] at this ⊢

/-- While a callback of `Shutdown(e)` on `s` runs, the gate is passed, the
terminating signal has fired and the stored error is `e`. -/
theorem inside_callback {c : Config} (h : Inv c) (s : Nat) (e : Error) (pc : ShutdownPc)
    (f : Frame) (st : List Frame) (hst : c.stack = f :: st)
    (hm : Frame.Shutdown s e pc ∈ st) :
    (c.world.shutters s).once = true ∧ (c.world.shutters s).terminatingCh = true ∧
      (c.world.shutters s).err = e := by
  have hmem : Frame.Shutdown s e pc ∈ c.stack := by
    rw [hst]
    exact List.mem_cons_of_mem f hm
  have ht : (c.world.shutters s).terminatingCh = true := by
    rcases caller_in_loop h s e pc f st hst hm with h1 | h1
    · exact (in_terminating_loop h s _ hmem h1).1
    · exact terminating_of_terminated h s (in_terminated_loop h s _ hmem h1)
  refine ⟨(once_of_terminating h s ht).1, ht, ?_⟩
  have he := err_of_terminating h s ht
  have hw := h.winner s
  rw [List.countP_eq_zero] at hw
  have hx := hw _ hmem
  have ha : pc.active = true := by
    rcases caller_in_loop h s e pc f st hst hm with h1 | h1 <;>
      cases pc <;> simp [Frame.inTerminatingLoop, Frame.inTerminatedLoop,
        ShutdownPc.inTerminatingLoop, ShutdownPc.inTerminatedLoop, ShutdownPc.active] at h1 ⊢
  simp only [Frame.activeOther, decide_True, Bool.true_and, ha, Bool.and_eq_true,
    decide_eq_true_eq, ne_eq, not_not, he, Option.some.injEq] at hx
  exact hx

/-- While a callback of `Shutdown` on `s` runs, the entry guard of `s` is
free, unless the activation on top holds it. -/
theorem guard_free_inside_callback {c : Config} (h : Inv c) (s : Nat) (e : Error)
    (pc : ShutdownPc) (f : Frame) (st : List Frame) (hst : c.stack = f :: st)
    (hm : Frame.Shutdown s e pc ∈ st) (hf : f.holdsLock s = false) :
    (c.world.shutters s).lock = false :=
  lock_free_of_terminating h s f st hst hf (inside_callback h s e pc f st hst hm).2.1

/-- While the function given to `LockedInit` on `s` runs, the entry guard of
`s` is held, the gate is open and the terminating signal has not fired. -/
theorem inside_lockedInit {c : Config} (h : Inv c) (s : Nat) (fn : Func) (f : Frame)
    (st : List Frame) (hst : c.stack = f :: st)
    (hm : Frame.LockedInit s fn LockedInitPc.deferred ∈ st)
    (hf : f.beforeTerminating s = false) :
    (c.world.shutters s).lock = true ∧ (c.world.shutters s).terminatingCh = false ∧
      (c.world.shutters s).once = false := by
  have hpos : 0 < st.countP (Frame.holdsLock s) :=
    List.countP_pos_iff.mpr ⟨_, hm, by simp [Frame.holdsLock]⟩
  have h1 := h.lock s
  have h2 := h.guarded s
  have h3 := h.terminating s
  have hc := h.callers
  rw [hst] at h1 h3
  rw [hst, List.tail_cons] at h2 hc
  have hb : st.countP (Frame.beforeTerminating s) = 0 := by
    rw [List.countP_eq_zero]
    intro fr hfr
    rw [List.all_eq_true] at hc
    have := hc fr hfr
    cases fr with
    | Shutdown s' e pc =>
      cases pc <;> simp [Frame.isCaller, Frame.beforeTerminating,
        ShutdownPc.beforeTerminating] at this ⊢
    | _ => simp [Frame.beforeTerminating]
  have ht : (c.world.shutters s).terminatingCh = false := by
    cases hc : (c.world.shutters s).terminatingCh
    · rfl
    · have := h2 hc
      omega
  refine ⟨?_, ht, ?_⟩
  · cases hl : (c.world.shutters s).lock
    · rw [hl] at h1
      simp [List.countP_cons, -List.countP_eq_zero] at h1
      omega
    · rfl
  · rw [ht, List.countP_cons, hb, hf] at h3
    cases ho : (c.world.shutters s).once
    · rfl
    · rw [ho] at h3
      simp at h3

/-- The lock of the terminating list of `s` is free when the activation on
top does not hold it and no `Shutdown` on `s` is in its terminating loop. -/
theorem terminatingFuncLock_free {c : Config} (h : Inv c) (s : Nat) (f : Frame)
    (st : List Frame) (hst : c.stack = f :: st)
    (hf : f.holdsTerminatingFuncLock s = false)
    (hn : ∀ fr ∈ st, fr.inTerminatingLoop s = false) :
    (c.world.shutters s).terminatingFuncLock = false := by
  have h1 := h.terminatingFuncLock s
  have hc := h.callers
  rw [hst] at h1
  rw [hst, List.tail_cons, List.all_eq_true] at hc
  have hz : st.countP (Frame.holdsTerminatingFuncLock s) = 0 := by
    rw [List.countP_eq_zero]
    intro fr hfr
    have a := hc fr hfr
    have b := hn fr hfr
    cases fr with
    | Shutdown s' e pc =>
      cases pc <;> simp [Frame.isCaller, Frame.holdsTerminatingFuncLock,
        ShutdownPc.holdsTerminatingFuncLock, Frame.inTerminatingLoop,
        ShutdownPc.inTerminatingLoop] at a b ⊢
      exact b
    | OnTerminating s' g pc => simp [Frame.isCaller] at a
    | _ => simp [Frame.holdsTerminatingFuncLock]
  rw [List.countP_cons, hz, hf] at h1
  cases hl : (c.world.shutters s).terminatingFuncLock
  · rfl
  · rw [hl] at h1
    simp at h1

/-- The lock of the terminated list of `s` is free when the activation on
top does not hold it and no `Shutdown` on `s` is in its terminated loop. -/
theorem terminatedFuncLock_free {c : Config} (h : Inv c) (s : Nat) (f : Frame)
    (st : List Frame) (hst : c.stack = f :: st)
    (hf : f.holdsTerminatedFuncLock s = false)
    (hn : ∀ fr ∈ st, fr.inTerminatedLoop s = false) :
    (c.world.shutters s).terminatedFuncLock = false := by
  have h1 := h.terminatedFuncLock s
  have hc := h.callers
  rw [hst] at h1
  rw [hst, List.tail_cons, List.all_eq_true] at hc
  have hz : st.countP (Frame.holdsTerminatedFuncLock s) = 0 := by
    rw [List.countP_eq_zero]
    intro fr hfr
    have a := hc fr hfr
    have b := hn fr hfr
    cases fr with
    | Shutdown s' e pc =>
      cases pc <;> simp [Frame.isCaller, Frame.holdsTerminatedFuncLock,
        ShutdownPc.holdsTerminatedFuncLock, Frame.inTerminatedLoop,
        ShutdownPc.inTerminatedLoop] at a b ⊢
      exact b
    | OnTerminated s' g pc => simp [Frame.isCaller] at a
    | _ => simp [Frame.holdsTerminatedFuncLock]
  rw [List.countP_cons, hz, hf] at h1
  cases hl : (c.world.shutters s).terminatedFuncLock
  · rfl
  · rw [hl] at h1
    simp at h1

/-! ## `Shutdown` called from inside the function given to `LockedInit` -/

/-- A log that scans to a phase in which the terminating signal has not
fired holds no invocation of a callback of `s`. -/
theorem no_callback_before_terminating (s : Nat) (ph : Phase) (log : List Event) (b : Bool)
    (h : phaseScan s log = some (false, b)) : b = false ∧ callbacksOf s ph log = [] := by
  induction log using List.reverseRecOn generalizing b with
  | nil =>
    simp [phaseScan] at h
    exact ⟨h, rfl⟩
  | append_singleton l ev ih =>
    rw [phaseScan_append] at h
    cases hq : phaseScan s l with
    | none => simp [hq] at h
    | some q =>
      obtain ⟨a0, b0⟩ := q
      rw [hq] at h
      simp only [Option.some_bind] at h
      have ha0 : a0 = false := by
        cases a0
        · rfl
        · cases ev with
          | closed s' ph' =>
            cases ph' <;> simp only [Event.phaseStep] at h <;> split_ifs at h <;> simp at h
          | callback s' ph' f e =>
            cases ph' <;> simp only [Event.phaseStep] at h <;> split_ifs at h <;> simp at h
          | _ => simp [Event.phaseStep] at h
      subst ha0
      obtain ⟨hb0, hc⟩ := ih b0 hq
      subst hb0
      rw [callbacksOf_append, hc]
      cases ev with
      | closed s' ph' =>
        cases ph' <;> simp only [Event.phaseStep] at h <;> split_ifs at h <;>
          simp_all [Event.callbackOf]
      | callback s' ph' f e =>
        cases ph' <;> simp only [Event.phaseStep] at h <;> split_ifs at h <;>
          simp_all [Event.callbackOf]
      | _ =>
        simp_all [Event.phaseStep, Event.callbackOf]

/-- A goroutine that waits for a mutex stays where it is. -/
theorem exec_blocked (code : Nat → Body) (c : Config) (h : step code c = Step.blocked)
    (m : Nat) : exec code m c = c :=
  exec_of_not_next m (fun c' hc => by rw [h] at hc; cases hc)

/-- With the gate open and the entry guard held, `Shutdown` passes `once.Do`
and then waits at `s.lock.Lock()`. -/
theorem gate_then_blocked (code : Nat → Body) (s : Nat) (e : Error) (st : List Frame)
    (w : World) (r : Error) (ho : (w.shutters s).once = false)
    (hl : (w.shutters s).lock = true) :
    exec code 1 ⟨w, Frame.Shutdown s e ShutdownPc.once :: st, r⟩
      = ⟨(w.set s { w.shutters s with once := true }).emit (Event.gate s e true),
          Frame.Shutdown s e ShutdownPc.lock1 :: st, r⟩ ∧
    step code ⟨(w.set s { w.shutters s with once := true }).emit (Event.gate s e true),
        Frame.Shutdown s e ShutdownPc.lock1 :: st, r⟩ = Step.blocked := by
  constructor
  · simp [exec, step, Frame.step, stepShutdown, ho]
  · simp [step, Frame.step, stepShutdown, hl]

/-- C13: in every configuration a program reaches in which `Shutdown(e)` is
called on `s` from inside the function `fn` given to `LockedInit` on `s` (the
activation of `LockedInit` is below it on the stack, waiting for `fn`), the
gate of `s` is still open, so no `Shutdown` has passed it; the call wins the
gate, and at the next statement, `s.lock.Lock()`, it waits for the entry guard
that `LockedInit` holds.  The goroutine stays there for ever: with any amount
of fuel the run ends in that deadlock, so neither `Shutdown` nor `LockedInit`
returns; the terminating signal has not fired and no callback of `s` has been
invoked. -/
theorem shutdown_in_lockedInit (code : Nat → Body) (main : List Call) (n s : Nat) (e : Error)
    (fn : Func) (st : List Frame)
    (hst : (exec code n (start main)).stack = Frame.Shutdown s e ShutdownPc.once :: st)
    (hm : Frame.LockedInit s fn LockedInitPc.deferred ∈ st) :
    ((exec code n (start main)).world.shutters s).once = false ∧
    (exec code 1 (exec code n (start main))).stack = Frame.Shutdown s e ShutdownPc.lock1 :: st ∧
    (exec code 1 (exec code n (start main))).world.log
      = (exec code n (start main)).world.log ++ [Event.gate s e true] ∧
    step code (exec code 1 (exec code n (start main))) = Step.blocked ∧
    (∀ m, exec code m (exec code 1 (exec code n (start main)))
      = exec code 1 (exec code n (start main))) ∧
    (∀ k, run code (n + 2 + k) (start main)
      = Outcome.deadlock (exec code 1 (exec code n (start main)))) ∧
    ((exec code 1 (exec code n (start main))).world.shutters s).IsTerminating = false ∧
    (∀ ph, callbacksOf s ph (exec code 1 (exec code n (start main))).world.log = []) := by
  have hi := inv_reach code main n
  obtain ⟨hl, ht, ho⟩ := inside_lockedInit hi s fn _ st hst hm
    (by simp [Frame.beforeTerminating, ShutdownPc.beforeTerminating])
  have hord := hi.order s
  rw [ht] at hord
  have hcb := fun ph => (no_callback_before_terminating s ph _ _ hord).2
  have hrun : ∀ c1, exec code 1 (exec code n (start main)) = c1 →
      step code c1 = Step.blocked →
      ∀ k, run code (n + 2 + k) (start main) = Outcome.deadlock c1 := by
    intro c1 h1 hb k
    have h2 : exec code (n + 1) (start main) = c1 := by rw [exec_add, h1]
    have := run_deadlock code (n + 1) k (start main) (by rw [h2]; exact hb)
    rw [h2] at this
    rw [← this]
  generalize exec code n (start main) = c at hst hl ht ho hcb hrun
  obtain ⟨w, stack, r⟩ := c
  simp only at hst hl ht ho hcb
  subst hst
  obtain ⟨h1, h2⟩ := gate_then_blocked code s e st w r ho hl
  rw [h1]
  refine ⟨ho, rfl, by simp, h2, exec_blocked code _ h2, hrun _ h1 h2, ?_, ?_⟩
  · simp [Shutter.IsTerminating, ht]
  · intro ph
    simp only [World.emit_log, World.set_log]
    rw [callbacksOf_append, hcb ph]
    simp [Event.callbackOf]

theorem shutdown_in_lockedInit_witness :
    (exec hazardCode 8 (start exampleInitShutdown)).stack
      = [Frame.Shutdown 0 (Error.New 2) ShutdownPc.once,
          Frame.user (some (Func.closure 5)) [] Error.nil,
          Frame.LockedInit 0 (Func.closure 5) LockedInitPc.deferred,
          Frame.user none [] Error.nil] ∧
    step hazardCode (exec hazardCode 1 (exec hazardCode 8 (start exampleInitShutdown)))
      = Step.blocked ∧
    (∀ k, run hazardCode (8 + 2 + k) (start exampleInitShutdown)
      = Outcome.deadlock (exec hazardCode 1 (exec hazardCode 8 (start exampleInitShutdown)))) ∧
    ((exec hazardCode 1 (exec hazardCode 8 (start exampleInitShutdown))).world.shutters
      0).IsTerminating = false ∧
    (exec hazardCode 1 (exec hazardCode 8 (start exampleInitShutdown))).world.vars 0 = 0 :=
  have h := shutdown_in_lockedInit hazardCode exampleInitShutdown 8 0 (Error.New 2)
    (Func.closure 5)
    [Frame.user (some (Func.closure 5)) [] Error.nil,
      Frame.LockedInit 0 (Func.closure 5) LockedInitPc.deferred,
      Frame.user none [] Error.nil] (by decide) (by decide)
  ⟨by decide, h.2.2.2.1, h.2.2.2.2.2.1, h.2.2.2.2.2.2.1, by decide⟩

/-! ## Calls that need the entry guard, made from inside a callback -/

theorem quiet_of_guarded (code : Nat → Body) (s : Nat) (w : World) (f : Func)
    (hl : (w.shutters s).lock = false) (ht : (w.shutters s).terminatingCh = true)
    (hq : ∀ c ∈ (f.body code).calls,
      c = Call.Err s ∨ (∃ fn, c = Call.LockedInit s fn) ∨ c.quiet w = true) :
    f.quiet code w = true := by
  unfold Func.quiet
  rw [List.all_eq_true]
  intro c hc
  rcases hq c hc with rfl | ⟨fn, rfl⟩ | h
  · simp [Call.quiet, hl]
  · simp [Call.quiet, hl, ht]
  · exact h

/-- C14: in every configuration a program reaches, (1) when `Shutdown(e)` on
`s` is about to invoke a terminating or a terminated callback, the entry
guard of `s` is free; (2) `Err()` called on `s` while a callback of
`Shutdown(e)` on `s` runs takes the guard and returns `e` after three
transitions; (3) `LockedInit(fn)` called on `s` while such a callback runs
returns `ErrShutterWasAlreadyDown` after three transitions, and the world only
gains the record of that return, so `fn` was not invoked.  (4) On a coordinator
that is running with no operation in progress, whose callbacks call `Err()`
and `LockedInit` on it and are otherwise quiet, the outer `Shutdown(e)` returns
to its caller with both signals fired. -/
theorem callbacks_outside_guard (code : Nat → Body) (s : Nat) (e : Error) :
    (∀ (main : List Call) (n : Nat) (f : Func) (rest : List Func) (st : List Frame),
      ((exec code n (start main)).stack
          = Frame.Shutdown s e (ShutdownPc.callTerminating (f :: rest)) :: st ∨
        (exec code n (start main)).stack
          = Frame.Shutdown s e (ShutdownPc.callTerminated (f :: rest)) :: st) →
      ((exec code n (start main)).world.shutters s).lock = false) ∧
    (∀ (main : List Call) (n : Nat) (pc : ShutdownPc) (st : List Frame),
      (exec code n (start main)).stack = Frame.Err s ErrPc.lock :: st →
      Frame.Shutdown s e pc ∈ st →
      exec code 3 (exec code n (start main))
        = ⟨(exec code n (start main)).world.emit (Event.err s e), st, e⟩) ∧
    (∀ (main : List Call) (n : Nat) (fn : Func) (pc : ShutdownPc) (st : List Frame),
      (exec code n (start main)).stack = Frame.LockedInit s fn LockedInitPc.lock :: st →
      Frame.Shutdown s e pc ∈ st →
      exec code 3 (exec code n (start main))
        = ⟨(exec code n (start main)).world.emit
            (Event.lockedInit s Error.ErrShutterWasAlreadyDown), st,
            Error.ErrShutterWasAlreadyDown⟩) ∧
    (∀ (w : World) (st : List Frame) (r : Error), (w.shutters s).idle = true →
      (∀ f ∈ (w.shutters s).terminatingFunc ++ (w.shutters s).terminatedFunc,
        ∀ c ∈ (f.body code).calls,
          c = Call.Err s ∨ (∃ fn, c = Call.LockedInit s fn) ∨
            c.quiet (enterTerminating s e w) = true) →
      ∃ m, (exec code m ⟨w, Frame.Shutdown s e ShutdownPc.once :: st, r⟩).stack = st ∧
        ((exec code m ⟨w, Frame.Shutdown s e ShutdownPc.once :: st, r⟩).world.shutters
          s).IsTerminating = true ∧
        ((exec code m ⟨w, Frame.Shutdown s e ShutdownPc.once :: st, r⟩).world.shutters
          s).IsTerminated = true ∧
        ((exec code m ⟨w, Frame.Shutdown s e ShutdownPc.once :: st, r⟩).world.shutters
          s).err = e) := by
  refine ⟨?_, ?_, ?_, ?_⟩
  · intro main n f rest st hst
    have hi := inv_reach code main n
    rcases hst with hst | hst
    · exact lock_free_of_terminating hi s _ st hst
        (by simp [Frame.holdsLock, ShutdownPc.holdsLock])
        (in_terminating_loop hi s _ (by rw [hst]; exact List.mem_cons_self _ _)
          (by simp [Frame.inTerminatingLoop, ShutdownPc.inTerminatingLoop])).1
    · exact lock_free_of_terminating hi s _ st hst
        (by simp [Frame.holdsLock, ShutdownPc.holdsLock])
        (terminating_of_terminated hi s
          (in_terminated_loop hi s _ (by rw [hst]; exact List.mem_cons_self _ _)
            (by simp [Frame.inTerminatedLoop, ShutdownPc.inTerminatedLoop])))
  · intro main n pc st hst hm
    have hi := inv_reach code main n
    have hl := guard_free_inside_callback hi s e pc _ st hst hm (by simp [Frame.holdsLock])
    have he := (inside_callback hi s e pc _ st hst hm).2.2
    generalize exec code n (start main) = c at hst hl he
    obtain ⟨w, stack, r⟩ := c
    simp only at hst hl he
    subst hst
    rw [err_returns code w s st r hl, he]
  · intro main n fn pc st hst hm
    have hi := inv_reach code main n
    have hl := guard_free_inside_callback hi s e pc _ st hst hm (by simp [Frame.holdsLock])
    have ht := (inside_callback hi s e pc _ st hst hm).2.1
    generalize exec code n (start main) = c at hst hl ht
    obtain ⟨w, stack, r⟩ := c
    simp only at hst hl ht
    subst hst
    rw [lockedInit_down code w s fn st r hl ht]
  · intro w st r hi hq
    have hl : ((enterTerminating s e w).shutters s).lock = false := by
      have := ((Shutter.idle_iff _).mp hi).2.2.2.1
      simp [enterTerminating, this]
    have ht : ((enterTerminating s e w).shutters s).terminatingCh = true := by
      simp [enterTerminating]
    obtain ⟨r', m, hm⟩ := shutdown_runs code s e st w r hi
      (fun f hf => quiet_of_guarded code s _ f hl ht (hq f (List.mem_append_left _ hf)))
      (fun f hf => quiet_of_guarded code s _ f hl ht (hq f (List.mem_append_right _ hf)))
    refine ⟨m, ?_, ?_, ?_, ?_⟩ <;> rw [hm] <;>
      simp [shutdownEffect_shutters, Shutter.IsTerminating, Shutter.IsTerminated]

theorem callbacks_outside_guard_witness :
    ((exec hazardCode 16 (start exampleGuardFree)).world.shutters 0).lock = false ∧
    exec hazardCode 3 (exec hazardCode 18 (start exampleGuardFree))
      = ⟨(exec hazardCode 18 (start exampleGuardFree)).world.emit
          (Event.err 0 (Error.New 1)),
        [Frame.user (some (Func.closure 6)) [Call.LockedInit 0 (Func.closure 1)] (Error.New 1),
          Frame.Shutdown 0 (Error.New 1) (ShutdownPc.callTerminating []),
          Frame.user none [] Error.nil], Error.New 1⟩ ∧
    exec hazardCode 3 (exec hazardCode 39 (start exampleGuardFree))
      = ⟨(exec hazardCode 39 (start exampleGuardFree)).world.emit
          (Event.lockedInit 0 Error.ErrShutterWasAlreadyDown),
        [Frame.user (some (Func.closure 6)) [] (Error.New 1),
          Frame.Shutdown 0 (Error.New 1) (ShutdownPc.callTerminated []),
          Frame.user none [] Error.nil], Error.ErrShutterWasAlreadyDown⟩ ∧
    (∃ m, (exec hazardCode m ⟨(exec hazardCode 9 (start exampleGuardFree)).world,
        [Frame.Shutdown 0 (Error.New 1) ShutdownPc.once, Frame.user none [] Error.nil],
        Error.nil⟩).stack = [Frame.user none [] Error.nil] ∧
      ((exec hazardCode m ⟨(exec hazardCode 9 (start exampleGuardFree)).world,
        [Frame.Shutdown 0 (Error.New 1) ShutdownPc.once, Frame.user none [] Error.nil],
        Error.nil⟩).world.shutters 0).IsTerminating = true ∧
      ((exec hazardCode m ⟨(exec hazardCode 9 (start exampleGuardFree)).world,
        [Frame.Shutdown 0 (Error.New 1) ShutdownPc.once, Frame.user none [] Error.nil],
        Error.nil⟩).world.shutters 0).IsTerminated = true ∧
      ((exec hazardCode m ⟨(exec hazardCode 9 (start exampleGuardFree)).world,
        [Frame.Shutdown 0 (Error.New 1) ShutdownPc.once, Frame.user none [] Error.nil],
        Error.nil⟩).world.shutters 0).err = Error.New 1) := by
  have h := callbacks_outside_guard hazardCode 0 (Error.New 1)
  have ht : ((exec hazardCode 9 (start exampleGuardFree)).world.shutters 0).terminatingFunc
      = [Func.closure 6] := by decide
  have hd : ((exec hazardCode 9 (start exampleGuardFree)).world.shutters 0).terminatedFunc
      = [Func.closure 6] := by decide
  refine ⟨h.1 exampleGuardFree 16 (Func.closure 6) [] [Frame.user none [] Error.nil]
      (Or.inl (by decide)),
    h.2.1 exampleGuardFree 18 (ShutdownPc.callTerminating []) _ (by decide) (by decide),
    h.2.2.1 exampleGuardFree 39 (Func.closure 1) (ShutdownPc.callTerminated []) _
      (by decide) (by decide),
    h.2.2.2 (exec hazardCode 9 (start exampleGuardFree)).world [Frame.user none [] Error.nil]
      Error.nil (by decide) ?_⟩
  intro f hf c hc
  rw [ht, hd] at hf
  simp only [List.singleton_append, List.mem_cons, List.mem_singleton, or_self,
    List.not_mem_nil, or_false] at hf
  subst hf
  simp only [Func.body, hazardCode, List.mem_cons, List.mem_singleton, List.not_mem_nil,
    or_false] at hc
  rcases hc with rfl | rfl
  · exact Or.inl rfl
  · exact Or.inr (Or.inl ⟨_, rfl⟩)

/-! ## Registering from inside a callback -/

/-- A goroutine that waits for a mutex after `n` transitions stays there,
and with any amount of fuel the run ends in that deadlock. -/
theorem deadlock_of_blocked (code : Nat → Body) (main : List Call) (n : Nat)
    (h : step code (exec code n (start main)) = Step.blocked) :
    (∀ m, exec code m (exec code n (start main)) = exec code n (start main)) ∧
    (∀ k, run code (n + 1 + k) (start main) = Outcome.deadlock (exec code n (start main))) :=
  ⟨exec_blocked code _ h, fun k => run_deadlock code n k (start main) h⟩

/-- While `Shutdown` on `s` is in its terminating loop, the lock of the
terminating list of `s` is held and the lock of its terminated list is free,
unless the activation on top holds it. -/
theorem locks_in_terminating_loop {c : Config} (h : Inv c) (s : Nat) (e : Error)
    (rest : List Func) (f : Frame) (st : List Frame) (hst : c.stack = f :: st)
    (hm : Frame.Shutdown s e (ShutdownPc.callTerminating rest) ∈ st)
    (hf : f.holdsTerminatedFuncLock s = false) :
    (c.world.shutters s).terminatingFuncLock = true ∧
      (c.world.shutters s).terminatedFuncLock = false := by
  have hmem : Frame.Shutdown s e (ShutdownPc.callTerminating rest) ∈ c.stack := by
    rw [hst]
    exact List.mem_cons_of_mem f hm
  constructor
  · have hpos : 0 < c.stack.countP (Frame.holdsTerminatingFuncLock s) :=
      List.countP_pos_iff.mpr ⟨_, hmem,
        by simp [Frame.holdsTerminatingFuncLock, ShutdownPc.holdsTerminatingFuncLock]⟩
    have h1 := h.terminatingFuncLock s
    cases hl : (c.world.shutters s).terminatingFuncLock
    · rw [hl] at h1
      simp only [Bool.toNat_false] at h1
      omega
    · rfl
  · have hd := (in_terminating_loop h s _ hmem
      (by simp [Frame.inTerminatingLoop, ShutdownPc.inTerminatingLoop])).2
    apply terminatedFuncLock_free h s f st hst hf
    intro fr hfr
    cases hx : fr.inTerminatedLoop s
    · rfl
    · have := in_terminated_loop h s fr (by rw [hst]; exact List.mem_cons_of_mem f hfr) hx
      rw [hd] at this
      cases this

/-- While `Shutdown` on `s` is in its terminated loop, the lock of the
terminated list of `s` is held and the lock of its terminating list is free,
unless the activation on top holds it. -/
theorem locks_in_terminated_loop {c : Config} (h : Inv c) (s : Nat) (e : Error)
    (rest : List Func) (f : Frame) (st : List Frame) (hst : c.stack = f :: st)
    (hm : Frame.Shutdown s e (ShutdownPc.callTerminated rest) ∈ st)
    (hf : f.holdsTerminatingFuncLock s = false) :
    (c.world.shutters s).terminatedFuncLock = true ∧
      (c.world.shutters s).terminatingFuncLock = false := by
  have hmem : Frame.Shutdown s e (ShutdownPc.callTerminated rest) ∈ c.stack := by
    rw [hst]
    exact List.mem_cons_of_mem f hm
  constructor
  · have hpos : 0 < c.stack.countP (Frame.holdsTerminatedFuncLock s) :=
      List.countP_pos_iff.mpr ⟨_, hmem,
        by simp [Frame.holdsTerminatedFuncLock, ShutdownPc.holdsTerminatedFuncLock]⟩
    have h1 := h.terminatedFuncLock s
    cases hl : (c.world.shutters s).terminatedFuncLock
    · rw [hl] at h1
      simp only [Bool.toNat_false] at h1
      omega
    · rfl
  · have hd := in_terminated_loop h s _ hmem
      (by simp [Frame.inTerminatedLoop, ShutdownPc.inTerminatedLoop])
    apply terminatingFuncLock_free h s f st hst hf
    intro fr hfr
    cases hx : fr.inTerminatingLoop s
    · rfl
    · have := (in_terminating_loop h s fr (by rw [hst]; exact List.mem_cons_of_mem f hfr) hx).2
      rw [hd] at this
      cases this

/-- C15, as amended: the lock of a list is held while `Shutdown` invokes the
callbacks of that list.  In every configuration a program reaches in which
`OnTerminating(f)` is called on `s` while a terminating callback of `Shutdown`
on `s` runs, or `OnTerminated(f)` while a terminated callback runs, the call
waits for the lock of the list for ever: with any amount of fuel the run ends
in that deadlock, so neither the registration nor `Shutdown` returns.  Only
the lock of the other list is free: `OnTerminated(f)` called while a
terminating callback runs, and `OnTerminating(f)` called while a terminated
callback runs, append `f` and return after three transitions. -/
theorem register_in_callback (code : Nat → Body) (main : List Call) (n s : Nat) (f : Func)
    (e : Error) (rest : List Func) (st : List Frame) :
    ((exec code n (start main)).stack = Frame.OnTerminating s f RegisterPc.lock :: st →
      Frame.Shutdown s e (ShutdownPc.callTerminating rest) ∈ st →
      step code (exec code n (start main)) = Step.blocked ∧
      (∀ m, exec code m (exec code n (start main)) = exec code n (start main)) ∧
      (∀ k, run code (n + 1 + k) (start main)
        = Outcome.deadlock (exec code n (start main)))) ∧
    ((exec code n (start main)).stack = Frame.OnTerminated s f RegisterPc.lock :: st →
      Frame.Shutdown s e (ShutdownPc.callTerminated rest) ∈ st →
      step code (exec code n (start main)) = Step.blocked ∧
      (∀ m, exec code m (exec code n (start main)) = exec code n (start main)) ∧
      (∀ k, run code (n + 1 + k) (start main)
        = Outcome.deadlock (exec code n (start main)))) ∧
    ((exec code n (start main)).stack = Frame.OnTerminated s f RegisterPc.lock :: st →
      Frame.Shutdown s e (ShutdownPc.callTerminating rest) ∈ st →
      exec code 3 (exec code n (start main))
        = ⟨(exec code n (start main)).world.set s
            { (exec code n (start main)).world.shutters s with
              terminatedFunc :=
                ((exec code n (start main)).world.shutters s).terminatedFunc ++ [f] },
          st, (exec code n (start main)).ret⟩) ∧
    ((exec code n (start main)).stack = Frame.OnTerminating s f RegisterPc.lock :: st →
      Frame.Shutdown s e (ShutdownPc.callTerminated rest) ∈ st →
      exec code 3 (exec code n (start main))
        = ⟨(exec code n (start main)).world.set s
            { (exec code n (start main)).world.shutters s with
              terminatingFunc :=
                ((exec code n (start main)).world.shutters s).terminatingFunc ++ [f] },
          st, (exec code n (start main)).ret⟩) := by
  have hi := inv_reach code main n
  refine ⟨?_, ?_, ?_, ?_⟩
  · intro hst hm
    have hl := (locks_in_terminating_loop hi s e rest _ st hst hm
      (by simp [Frame.holdsTerminatedFuncLock])).1
    have hb : step code (exec code n (start main)) = Step.blocked := by
      generalize exec code n (start main) = c at hst hl
      obtain ⟨w, stack, r⟩ := c
      simp only at hst hl
      subst hst
      simp [step, Frame.step, stepOnTerminating, hl]
    exact ⟨hb, deadlock_of_blocked code main n hb⟩
  · intro hst hm
    have hl := (locks_in_terminated_loop hi s e rest _ st hst hm
      (by simp [Frame.holdsTerminatingFuncLock])).1
    have hb : step code (exec code n (start main)) = Step.blocked := by
      generalize exec code n (start main) = c at hst hl
      obtain ⟨w, stack, r⟩ := c
      simp only at hst hl
      subst hst
      simp [step, Frame.step, stepOnTerminated, hl]
    exact ⟨hb, deadlock_of_blocked code main n hb⟩
  · intro hst hm
    have hl := (locks_in_terminating_loop hi s e rest _ st hst hm
      (by simp [Frame.holdsTerminatedFuncLock])).2
    generalize exec code n (start main) = c at hst hl
    obtain ⟨w, stack, r⟩ := c
    simp only at hst hl
    subst hst
    exact onTerminated_runs code s f st w r hl
  · intro hst hm
    have hl := (locks_in_terminated_loop hi s e rest _ st hst hm
      (by simp [Frame.holdsTerminatingFuncLock])).2
    generalize exec code n (start main) = c at hst hl
    obtain ⟨w, stack, r⟩ := c
    simp only at hst hl
    subst hst
    exact onTerminating_runs code s f st w r hl

theorem register_in_callback_witness :
    (step hazardCode (exec hazardCode 14 (start exampleSelfRegister)) = Step.blocked ∧
      (∀ m, exec hazardCode m (exec hazardCode 14 (start exampleSelfRegister))
        = exec hazardCode 14 (start exampleSelfRegister)) ∧
      (∀ k, run hazardCode (14 + 1 + k) (start exampleSelfRegister)
        = Outcome.deadlock (exec hazardCode 14 (start exampleSelfRegister)))) ∧
    (exec hazardCode 14 (start exampleSelfRegister)).stack
      = [Frame.OnTerminating 0 (Func.closure 1) RegisterPc.lock,
          Frame.user (some (Func.closure 7)) [] Error.nil,
          Frame.Shutdown 0 Error.nil (ShutdownPc.callTerminating []),
          Frame.user none [] Error.nil] ∧
    exec hazardCode 3 (exec hazardCode 21 (start exampleCrossRegister))
      = ⟨(exec hazardCode 21 (start exampleCrossRegister)).world.set 0
          { (exec hazardCode 21 (start exampleCrossRegister)).world.shutters 0 with
            terminatingFunc :=
              ((exec hazardCode 21 (start exampleCrossRegister)).world.shutters
                0).terminatingFunc ++ [Func.closure 1] },
        [Frame.user (some (Func.closure 7)) [] Error.nil,
          Frame.Shutdown 0 Error.nil (ShutdownPc.callTerminated []),
          Frame.user none [] Error.nil],
        (exec hazardCode 21 (start exampleCrossRegister)).ret⟩ :=
  ⟨(register_in_callback hazardCode exampleSelfRegister 14 0 (Func.closure 1) Error.nil []
      [Frame.user (some (Func.closure 7)) [] Error.nil,
        Frame.Shutdown 0 Error.nil (ShutdownPc.callTerminating []),
        Frame.user none [] Error.nil]).1 (by decide) (by decide),
    by decide,
    (register_in_callback hazardCode exampleCrossRegister 21 0 (Func.closure 1) Error.nil []
      [Frame.user (some (Func.closure 7)) [] Error.nil,
        Frame.Shutdown 0 Error.nil (ShutdownPc.callTerminated []),
        Frame.user none [] Error.nil]).2.2.2 (by decide) (by decide)⟩

/-- C15 as stated fails: with the terminating callback `t` that calls
`OnTerminating(g)` on its own coordinator, `Shutdown(nil)` invokes `t`, and
the registration call waits for `terminatingFuncLock`, which `Shutdown` holds:
after 14 transitions the goroutine is blocked, the run ends in a deadlock with
`Shutdown` still on the stack, `g` is not registered and the terminated signal
has not fired.  The same happens after 21 transitions with the terminated
callback that calls `OnTerminated(g)`. -/
theorem register_in_callback_counterexample :
    (exec hazardCode 14 (start exampleSelfRegister)).stack
      = [Frame.OnTerminating 0 (Func.closure 1) RegisterPc.lock,
          Frame.user (some (Func.closure 7)) [] Error.nil,
          Frame.Shutdown 0 Error.nil (ShutdownPc.callTerminating []),
          Frame.user none [] Error.nil] ∧
    blockedAt hazardCode (exec hazardCode 14 (start exampleSelfRegister)) = true ∧
    (run hazardCode 1000 (start exampleSelfRegister)).isDeadlock = true ∧
    (run hazardCode 1000 (start exampleSelfRegister)).isReturned = false ∧
    ((exec hazardCode 14 (start exampleSelfRegister)).world.shutters 0).terminatingFuncLock
      = true ∧
    ((exec hazardCode 1000 (start exampleSelfRegister)).world.shutters 0).terminatingFunc
      = [Func.closure 7] ∧
    ((exec hazardCode 1000 (start exampleSelfRegister)).world.shutters 0).IsTerminated
      = false ∧
    (exec hazardCode 21 (start exampleSelfRegisterLate)).stack
      = [Frame.OnTerminated 0 (Func.closure 1) RegisterPc.lock,
          Frame.user (some (Func.closure 4)) [] Error.nil,
          Frame.Shutdown 0 Error.nil (ShutdownPc.callTerminated []),
          Frame.user none [] Error.nil] ∧
    blockedAt hazardCode (exec hazardCode 21 (start exampleSelfRegisterLate)) = true ∧
    (run hazardCode 1000 (start exampleSelfRegisterLate)).isDeadlock = true := by
  decide

/-! ## `Err` and the queries called from inside the function given to `LockedInit` -/

/-- C19: in every configuration a program reaches while the function `fn`
given to `LockedInit` on `s` runs (the activation of `LockedInit` is on the
stack, waiting for `fn`): a call to `Err()` on `s` waits at `s.lock.Lock()`
for the entry guard that `LockedInit` holds, the goroutine stays there for
ever and with any amount of fuel the run ends in that deadlock; whereas
`IsTerminating()` and `IsTerminated()` on `s` are one transition each, consult
no mutex, report `false` and leave the rest of the function to run. -/
theorem err_in_lockedInit (code : Nat → Body) (main : List Call) (n s : Nat) (fn : Func)
    (st : List Frame) (hm : Frame.LockedInit s fn LockedInitPc.deferred ∈ st) :
    ((exec code n (start main)).stack = Frame.Err s ErrPc.lock :: st →
      step code (exec code n (start main)) = Step.blocked ∧
      (∀ m, exec code m (exec code n (start main)) = exec code n (start main)) ∧
      (∀ k, run code (n + 1 + k) (start main)
        = Outcome.deadlock (exec code n (start main)))) ∧
    (∀ (f : Option Func) (rest : List Call) (p : Error),
      (exec code n (start main)).stack = Frame.user f (Call.IsTerminating s :: rest) p :: st →
      step code (exec code n (start main))
        = Step.next ⟨(exec code n (start main)).world.emit (Event.isTerminating s false),
            Frame.user f rest p :: st, (exec code n (start main)).ret⟩) ∧
    (∀ (f : Option Func) (rest : List Call) (p : Error),
      (exec code n (start main)).stack = Frame.user f (Call.IsTerminated s :: rest) p :: st →
      step code (exec code n (start main))
        = Step.next ⟨(exec code n (start main)).world.emit (Event.isTerminated s false),
            Frame.user f rest p :: st, (exec code n (start main)).ret⟩) := by
  have hi := inv_reach code main n
  refine ⟨?_, ?_, ?_⟩
  · intro hst
    have hl := (inside_lockedInit hi s fn _ st hst hm (by simp [Frame.beforeTerminating])).1
    have hb : step code (exec code n (start main)) = Step.blocked := by
      generalize exec code n (start main) = c at hst hl
      obtain ⟨w, stack, r⟩ := c
      simp only at hst hl
      subst hst
      simp [step, Frame.step, stepErr, hl]
    exact ⟨hb, deadlock_of_blocked code main n hb⟩
  · intro f rest p hst
    have ht := (inside_lockedInit hi s fn _ st hst hm (by simp [Frame.beforeTerminating])).2.1
    generalize exec code n (start main) = c at hst ht
    obtain ⟨w, stack, r⟩ := c
    simp only at hst ht
    subst hst
    simp [step, Frame.step, stepUser, Shutter.IsTerminating, ht]
  · intro f rest p hst
    have ht := (inside_lockedInit hi s fn _ st hst hm (by simp [Frame.beforeTerminating])).2.1
    have hd : ((exec code n (start main)).world.shutters s).terminatedCh = false := by
      cases hx : ((exec code n (start main)).world.shutters s).terminatedCh
      · rfl
      · rw [terminating_of_terminated hi s hx] at ht
        cases ht
    generalize exec code n (start main) = c at hst hd
    obtain ⟨w, stack, r⟩ := c
    simp only at hst hd
    subst hst
    simp [step, Frame.step, stepUser, Shutter.IsTerminated, hd]

theorem err_in_lockedInit_witness :
    (exec hazardCode 6 (start exampleInitErr)).stack
      = [Frame.Err 0 ErrPc.lock,
          Frame.user (some (Func.closure 8)) [] Error.nil,
          Frame.LockedInit 0 (Func.closure 8) LockedInitPc.deferred,
          Frame.user none [] Error.nil] ∧
    (step hazardCode (exec hazardCode 6 (start exampleInitErr)) = Step.blocked ∧
      (∀ m, exec hazardCode m (exec hazardCode 6 (start exampleInitErr))
        = exec hazardCode 6 (start exampleInitErr)) ∧
      (∀ k, run hazardCode (6 + 1 + k) (start exampleInitErr)
        = Outcome.deadlock (exec hazardCode 6 (start exampleInitErr)))) ∧
    step hazardCode (exec hazardCode 3 (start exampleInitErr))
      = Step.next ⟨(exec hazardCode 3 (start exampleInitErr)).world.emit
          (Event.isTerminating 0 false),
        [Frame.user (some (Func.closure 8)) [Call.IsTerminated 0, Call.Err 0] Error.nil,
          Frame.LockedInit 0 (Func.closure 8) LockedInitPc.deferred,
          Frame.user none [] Error.nil], (exec hazardCode 3 (start exampleInitErr)).ret⟩ ∧
    step hazardCode (exec hazardCode 4 (start exampleInitErr))
      = Step.next ⟨(exec hazardCode 4 (start exampleInitErr)).world.emit
          (Event.isTerminated 0 false),
        [Frame.user (some (Func.closure 8)) [Call.Err 0] Error.nil,
          Frame.LockedInit 0 (Func.closure 8) LockedInitPc.deferred,
          Frame.user none [] Error.nil], (exec hazardCode 4 (start exampleInitErr)).ret⟩ :=
  ⟨by decide,
    (err_in_lockedInit hazardCode exampleInitErr 6 0 (Func.closure 8)
      [Frame.user (some (Func.closure 8)) [] Error.nil,
        Frame.LockedInit 0 (Func.closure 8) LockedInitPc.deferred,
        Frame.user none [] Error.nil] (by decide)).1 (by decide),
    (err_in_lockedInit hazardCode exampleInitErr 3 0 (Func.closure 8)
      [Frame.LockedInit 0 (Func.closure 8) LockedInitPc.deferred,
        Frame.user none [] Error.nil] (by decide)).2.1 _ _ _ (by decide),
    (err_in_lockedInit hazardCode exampleInitErr 4 0 (Func.closure 8)
      [Frame.LockedInit 0 (Func.closure 8) LockedInitPc.deferred,
        Frame.user none [] Error.nil] (by decide)).2.2 _ _ _ (by decide)⟩

/-! ## Running user code that registers a callback -/

/-- Quiet statements at the head of a function run, and the rest of the
function is left to run. -/
theorem quiet_prefix_runs (code : Nat → Body) (f : Option Func) (calls rest : List Call)
    (p : Error) (st : List Frame) (w : World) (r : Error)
    (hq : calls.all (Call.quiet w) = true) :
    ∃ r', Reaches code ⟨w, Frame.user f (calls ++ rest) p :: st, r⟩
      ⟨quietEffect p w calls, Frame.user f rest p :: st, r'⟩ := by
  induction calls generalizing w r with
  | nil => exact ⟨r, Reaches.refl _ _⟩
  | cons c cs ih =>
    simp only [List.all_cons, Bool.and_eq_true] at hq
    obtain ⟨r1, h1⟩ := quiet_call_runs code w f c (cs ++ rest) p st r hq.1
    have hq2 : cs.all (Call.quiet (c.effect p w)) = true := by
      rw [← hq.2]
      congr 1
      funext x
      exact call_quiet_congr (call_effect_shutters p w c) x
    obtain ⟨r2, h2⟩ := ih (c.effect p w) r1 hq2
    exact ⟨r2, h1.trans h2⟩

/-- A registration whose list mutex is free appends and returns to the
function that called it, after four transitions. -/
theorem register_call_runs (code : Nat → Body) (ph : Phase) (s : Nat) (g : Func)
    (f : Option Func) (rest : List Call) (p : Error) (st : List Frame) (w : World) (r : Error)
    (hl : (w.shutters s).listLock ph = false) :
    exec code 4 ⟨w, Frame.user f (Call.register ph s g :: rest) p :: st, r⟩
      = ⟨w.set s ((w.shutters s).append ph g), Frame.user f rest p :: st, r⟩ := by
  cases ph with
  | terminating =>
    simp only [Shutter.listLock] at hl
    have h1 : exec code 1 ⟨w, Frame.user f (Call.register Phase.terminating s g :: rest) p :: st, r⟩
        = ⟨w, Frame.OnTerminating s g RegisterPc.lock :: Frame.user f rest p :: st, r⟩ := by
      simp [exec, step, Frame.step, stepUser, Call.register]
    rw [show (4 : Nat) = 1 + 3 from rfl, exec_add, h1, onTerminating_runs code s g _ w r hl]
    rfl
  | terminated =>
    simp only [Shutter.listLock] at hl
    have h1 : exec code 1 ⟨w, Frame.user f (Call.register Phase.terminated s g :: rest) p :: st, r⟩
        = ⟨w, Frame.OnTerminated s g RegisterPc.lock :: Frame.user f rest p :: st, r⟩ := by
      simp [exec, step, Frame.step, stepUser, Call.register]
    rw [show (4 : Nat) = 1 + 3 from rfl, exec_add, h1, onTerminated_runs code s g _ w r hl]
    rfl

theorem World.later_append (w : World) (ph : Phase) (s : Nat) (g : Func) :
    w.later (w.set s ((w.shutters s).append ph g)) := by
  constructor <;> intro i <;> by_cases hi : i = s <;>
    cases ph <;> simp [World.set, Shutter.append, hi]

theorem all_quiet_mono {w w' : World} (h : w.later w') (calls : List Call)
    (hq : calls.all (Call.quiet w) = true) : calls.all (Call.quiet w') = true := by
  rw [List.all_eq_true] at hq ⊢
  exact fun c hc => call_quiet_mono h c (hq c hc)

/-- A function whose statements are quiet but for one registration, on a
list whose mutex is free, runs and returns its result. -/
theorem register_func_runs (code : Nat → Body) (fn : Func) (ph : Phase) (s : Nat) (g : Func)
    (pre post : List Call) (p : Error) (st : List Frame) (w : World) (r : Error)
    (hb : (fn.body code).calls = pre ++ Call.register ph s g :: post)
    (hq : (pre ++ post).all (Call.quiet w) = true)
    (hl : (w.shutters s).listLock ph = false) :
    Reaches code ⟨w, Frame.user (some fn) (fn.body code).calls p :: st, r⟩
      ⟨(registerEffect p ph s g pre post w).emit (Event.returned fn), st,
        (fn.body code).result⟩ := by
  rw [List.all_append, Bool.and_eq_true] at hq
  rw [hb]
  obtain ⟨r1, h1⟩ := quiet_prefix_runs code (some fn) pre (Call.register ph s g :: post) p st
    w r hq.1
  have hl2 : ((quietEffect p w pre).shutters s).listLock ph = false := by
    rw [quietEffect_shutters]
    exact hl
  have h2 : Reaches code _ _ := ⟨4, register_call_runs code ph s g (some fn) post p st
    (quietEffect p w pre) r1 hl2⟩
  have hq3 : post.all (Call.quiet ((quietEffect p w pre).set s
      (((quietEffect p w pre).shutters s).append ph g))) = true :=
    all_quiet_mono (World.later_trans (World.later_of_shutters (quietEffect_shutters p w pre))
      (World.later_append _ ph s g)) post hq.2
  obtain ⟨r3, h3⟩ := quiet_calls_run code (some fn) post p st _ r1 hq3
  refine h1.trans (h2.trans (h3.trans (Reaches.of_step ?_)))
  simp [step, Frame.step, stepUser, registerEffect, hb]

/-! ## Registering from inside the function given to `LockedInit` -/

@[simp] theorem registerEffect_shutters (p : Error) (ph : Phase) (s : Nat) (g : Func)
    (pre post : List Call) (w : World) :
    (registerEffect p ph s g pre post w).shutters
      = (w.set s ((w.shutters s).append ph g)).shutters := by
  funext i
  simp [registerEffect]

theorem registerEffect_invocations (p : Error) (ph : Phase) (s : Nat) (g : Func)
    (pre post : List Call) (w : World) :
    invocations (registerEffect p ph s g pre post w).log = invocations w.log := by
  simp [registerEffect, quietEffect_invocations]

/-- On a running coordinator whose entry guard and list mutex are free,
`LockedInit(fn)` with an `fn` that is quiet but for one registration on the
coordinator runs `fn` and returns its result. -/
theorem lockedRegister_runs (code : Nat → Body) (s : Nat) (fn : Func) (ph : Phase) (f : Func)
    (pre post : List Call) (st : List Frame) (w : World) (r : Error)
    (hl : (w.shutters s).lock = false) (ht : (w.shutters s).terminatingCh = false)
    (hll : (w.shutters s).listLock ph = false)
    (hb : (fn.body code).calls = pre ++ Call.register ph s f :: post)
    (hq : (pre ++ post).all (Call.quiet (w.set s { w.shutters s with lock := true })) = true) :
    Reaches code ⟨w, Frame.LockedInit s fn LockedInitPc.lock :: st, r⟩
      ⟨lockedRegisterEffect code s fn ph f pre post w, st, (fn.body code).result⟩ := by
  have p1 : exec code 2 ⟨w, Frame.LockedInit s fn LockedInitPc.lock :: st, r⟩
      = ⟨(w.set s { w.shutters s with lock := true }).emit (Event.init s fn),
          Frame.user (some fn) (fn.body code).calls Error.nil
            :: Frame.LockedInit s fn LockedInitPc.deferred :: st, r⟩ := by
    simp [exec, step, Frame.step, stepLockedInit, hl, ht, Shutter.IsTerminating]
  have hq' : (pre ++ post).all (Call.quiet ((w.set s { w.shutters s with lock := true }).emit
      (Event.init s fn))) = true :=
    all_quiet_mono (World.later_of_shutters (World.emit_shutters _ _)) _ hq
  have hll' : (((w.set s { w.shutters s with lock := true }).emit
      (Event.init s fn)).shutters s).listLock ph = false := by
    cases ph <;> simpa [Shutter.listLock] using hll
  have p2 := register_func_runs code fn ph s f pre post Error.nil
    (Frame.LockedInit s fn LockedInitPc.deferred :: st) _ r hb hq' hll'
  have p3 : step code ⟨(registerEffect Error.nil ph s f pre post
        ((w.set s { w.shutters s with lock := true }).emit (Event.init s fn))).emit
        (Event.returned fn),
      Frame.LockedInit s fn LockedInitPc.deferred :: st, (fn.body code).result⟩
      = Step.next ⟨lockedRegisterEffect code s fn ph f pre post w, st,
          (fn.body code).result⟩ := by
    cases ph <;> simp [step, Frame.step, stepLockedInit, lockedRegisterEffect, Shutter.append]
  have p1' : Reaches code _ _ := ⟨2, p1⟩
  exact p1'.trans (p2.trans (Reaches.of_step p3))

theorem lockedRegisterEffect_shutters (code : Nat → Body) (s : Nat) (fn : Func) (ph : Phase)
    (f : Func) (pre post : List Call) (w : World) (hl : (w.shutters s).lock = false)
    (i : Nat) :
    (lockedRegisterEffect code s fn ph f pre post w).shutters i
      = if i = s then (w.shutters s).append ph f else w.shutters i := by
  simp only [lockedRegisterEffect, World.emit_shutters, World.set_shutters,
    registerEffect_shutters]
  split_ifs with h
  · subst h
    cases ph <;> apply shutter_eq_of_fields <;> simp [hl, Shutter.append]
  · rfl

theorem lockedRegisterEffect_invocations (code : Nat → Body) (s : Nat) (fn : Func)
    (ph : Phase) (f : Func) (pre post : List Call) (w : World) :
    invocations (lockedRegisterEffect code s fn ph f pre post w).log = invocations w.log := by
  simp [lockedRegisterEffect, registerEffect_invocations]
  simp [invocations]

theorem count_callback_map (s : Nat) (ph ph' : Phase) (f : Func) (e : Error) (l : List Func) :
    (l.map (fun g => Event.callback s ph' g e)).count (Event.callback s ph f e)
      = if ph' = ph then l.count f else 0 := by
  induction l with
  | nil => simp
  | cons g l ih =>
    rw [List.map_cons, List.count_cons, List.count_cons, ih]
    by_cases hp : ph' = ph
    · subst hp
      by_cases hg : g = f
      · subst hg
        simp
      · have : ¬ (f = g) := fun h => hg h.symm
        simp [hg, this]
    · have : ¬ (ph = ph') := fun h => hp h.symm
      simp [hp, this]

theorem later_enterTerminating_of_flags (s : Nat) (e : Error) (w w1 : World)
    (h : ∀ i, (w1.shutters i).once = (w.shutters i).once ∧
      (w1.shutters i).terminatingCh = (w.shutters i).terminatingCh ∧
      (w1.shutters i).lock = (w.shutters i).lock) :
    (enterTerminating s e w).later (enterTerminating s e w1) := by
  constructor <;> intro i <;> by_cases hi : i = s <;>
    simp [enterTerminating, hi, (h i).1, (h i).2.1, (h i).2.2]
  exact (h s).2.2

/-- C17: on a coordinator that is running with no operation in progress,
`LockedInit(fn)` with an `fn` that calls `OnTerminating(f)` (phase
terminating) or `OnTerminated(f)` (phase terminated) on the coordinator, and
is otherwise quiet, returns to its caller with the result of `fn`; the
registration has appended `f` to its list, the coordinator is otherwise as
before (so still running), the other coordinators are untouched and no
callback has been invoked.  With quiet callbacks, a `Shutdown(e)` called next
returns and has invoked the callbacks of the two lists, once per
registration, each with `e`: the invocation `f(e)` occurs once more than `f`
was registered before on that list. -/
theorem register_in_lockedInit (code : Nat → Body) (s : Nat) (ph : Phase) (fn f : Func)
    (pre post : List Call) (e : Error) (st : List Frame) (w : World) (r : Error)
    (hi : (w.shutters s).idle = true)
    (hb : (fn.body code).calls = pre ++ Call.register ph s f :: post)
    (hq : (pre ++ post).all (Call.quiet (w.set s { w.shutters s with lock := true })) = true)
    (hc : ∀ g ∈ f :: ((w.shutters s).terminatingFunc ++ (w.shutters s).terminatedFunc),
      g.quiet code (enterTerminating s e w) = true) :
    ∃ w1, Reaches code ⟨w, Frame.LockedInit s fn LockedInitPc.lock :: st, r⟩
        ⟨w1, st, (fn.body code).result⟩ ∧
      (w1.shutters s).callbacks ph = (w.shutters s).callbacks ph ++ [f] ∧
      w1.shutters s = (w.shutters s).append ph f ∧
      (∀ i, i ≠ s → w1.shutters i = w.shutters i) ∧
      invocations w1.log = invocations w.log ∧
      ∃ w2 r2, Reaches code ⟨w1, Frame.Shutdown s e ShutdownPc.once :: st,
          (fn.body code).result⟩ ⟨w2, st, r2⟩ ∧
        invocations w2.log = invocations w.log
          ++ (w1.shutters s).terminatingFunc.map
              (fun g => Event.callback s Phase.terminating g e)
          ++ (w1.shutters s).terminatedFunc.map
              (fun g => Event.callback s Phase.terminated g e) ∧
        (invocations w2.log).count (Event.callback s ph f e)
          = (invocations w.log).count (Event.callback s ph f e)
            + ((w.shutters s).callbacks ph).count f + 1 := by
  obtain ⟨h1, h2, h3, h4, h5, h6⟩ := (Shutter.idle_iff _).mp hi
  have hll : (w.shutters s).listLock ph = false := by
    cases ph
    · exact h5
    · exact h6
  have hs := lockedRegisterEffect_shutters code s fn ph f pre post w h4
  have hss : (lockedRegisterEffect code s fn ph f pre post w).shutters s
      = (w.shutters s).append ph f := by simp [hs]
  have hi1 : ((lockedRegisterEffect code s fn ph f pre post w).shutters s).idle = true := by
    rw [hss]
    cases ph <;> simpa [Shutter.idle, Shutter.append] using hi
  have hlater := later_enterTerminating_of_flags s e w
    (lockedRegisterEffect code s fn ph f pre post w) (by
      intro i
      rw [hs]
      split_ifs with h
      · subst h
        cases ph <;> simp [Shutter.append]
      · simp)
  have hmem : ∀ g ∈ ((lockedRegisterEffect code s fn ph f pre post w).shutters s).terminatingFunc
      ++ ((lockedRegisterEffect code s fn ph f pre post w).shutters s).terminatedFunc,
      g ∈ f :: ((w.shutters s).terminatingFunc ++ (w.shutters s).terminatedFunc) := by
    intro g hg
    rw [hss] at hg
    cases ph <;> simp [Shutter.append] at hg ⊢ <;> tauto
  obtain ⟨w2, r2, hr, hinv⟩ := shutdown_invokes code s e st
    (lockedRegisterEffect code s fn ph f pre post w) (fn.body code).result hi1
    (fun g hg => func_quiet_mono code hlater g (hc g (hmem g hg)))
  rw [lockedRegisterEffect_invocations] at hinv
  refine ⟨lockedRegisterEffect code s fn ph f pre post w,
    lockedRegister_runs code s fn ph f pre post st w r h4 h2 hll hb hq, ?_, hss, ?_,
    lockedRegisterEffect_invocations code s fn ph f pre post w, w2, r2, hr, hinv, ?_⟩
  · rw [hss]
    cases ph <;> simp [Shutter.append, Shutter.callbacks]
  · intro i hne
    rw [hs]
    simp [hne]
  · rw [hinv, hss, List.count_append, List.count_append, count_callback_map,
      count_callback_map]
    cases ph <;> simp [Shutter.append, Shutter.callbacks] <;> omega

theorem register_in_lockedInit_witness :
    (World.init.shutters 0).idle = true ∧
    ∃ w1, Reaches hazardCode
        ⟨World.init, [Frame.LockedInit 0 (Func.closure 9) LockedInitPc.lock], Error.nil⟩
        ⟨w1, [], Error.New 3⟩ ∧
      (w1.shutters 0).callbacks Phase.terminating = [Func.closure 2] ∧
      invocations w1.log = [] ∧
      ∃ w2 r2, Reaches hazardCode
          ⟨w1, [Frame.Shutdown 0 (Error.New 1) ShutdownPc.once], Error.New 3⟩ ⟨w2, [], r2⟩ ∧
        (invocations w2.log).count
            (Event.callback 0 Phase.terminating (Func.closure 2) (Error.New 1)) = 1 := by
  obtain ⟨w1, h1, h2, -, -, h5, w2, r2, h6, -, h8⟩ :=
    register_in_lockedInit hazardCode 0 Phase.terminating (Func.closure 9) (Func.closure 2)
      [Call.add 0 1] [Call.IsTerminating 0] (Error.New 1) [] World.init Error.nil
      (by decide) (by decide) (by decide) (by decide)
  exact ⟨by decide, w1, h1, h2, h5, w2, r2, h6, h8⟩

/-! ## A terminated callback registered by a terminating callback -/

theorem call_effect_log (p : Error) (w : World) (c : Call) : w.log <+: (c.effect p w).log := by
  cases c <;> simp [Call.effect, World.add]

theorem quietEffect_log (p : Error) (w : World) (calls : List Call) :
    w.log <+: (quietEffect p w calls).log := by
  induction calls generalizing w with
  | nil => exact List.prefix_refl _
  | cons c rest ih => exact (call_effect_log p w c).trans (ih _)

theorem func_effect_log (code : Nat → Body) (s : Nat) (ph : Phase) (e : Error) (w : World)
    (f : Func) : w.log <+: (Func.effect code s ph e w f).log := by
  simp only [Func.effect, World.emit_log]
  have h1 : w.log <+: (w.emit (Event.callback s ph f e)).log := List.prefix_append _ _
  exact (h1.trans (quietEffect_log e _ _)).trans (List.prefix_append _ _)

theorem foldl_effect_log (code : Nat → Body) (s : Nat) (ph : Phase) (e : Error)
    (fs : List Func) (w : World) : w.log <+: (fs.foldl (Func.effect code s ph e) w).log := by
  induction fs generalizing w with
  | nil => exact List.prefix_refl _
  | cons f fs ih => exact (func_effect_log code s ph e w f).trans (ih _)

theorem registerEffect_log (p : Error) (ph : Phase) (s : Nat) (g : Func)
    (pre post : List Call) (w : World) : w.log <+: (registerEffect p ph s g pre post w).log := by
  simp only [registerEffect]
  have h1 := quietEffect_log p ((quietEffect p w pre).set s
    (((quietEffect p w pre).shutters s).append ph g)) post
  exact (quietEffect_log p w pre).trans h1

/-- The invocations in the part of a log that was added to `l`. -/
theorem invocations_of_suffix (l t : List Event) (x : List Event)
    (h : invocations (l ++ t) = invocations l ++ x) : invocations t = x := by
  rw [invocations_append] at h
  exact List.append_cancel_left h

theorem registeringEffect_shutters (code : Nat → Body) (s : Nat) (e : Error)
    (ts1 : List Func) (t g : Func) (pre post : List Call) (ts2 : List Func) (w : World)
    (i : Nat) :
    (registeringEffect code s e ts1 t g pre post ts2 w).shutters i
      = if i = s then ((enterTerminating s e w).shutters s).append Phase.terminated g
        else (enterTerminating s e w).shutters i := by
  simp [registeringEffect]

theorem registeringEffect_invocations (code : Nat → Body) (s : Nat) (e : Error)
    (ts1 : List Func) (t g : Func) (pre post : List Call) (ts2 : List Func) (w : World) :
    invocations (registeringEffect code s e ts1 t g pre post ts2 w).log
      = invocations w.log
        ++ (ts1 ++ t :: ts2).map (fun f => Event.callback s Phase.terminating f e) := by
  simp only [registeringEffect, foldl_effect_invocations, World.emit_log, invocations_append,
    registerEffect_invocations]
  simp [enterTerminating, invocations]

theorem registeringEffect_log (code : Nat → Body) (s : Nat) (e : Error)
    (ts1 : List Func) (t g : Func) (pre post : List Call) (ts2 : List Func) (w : World) :
    w.log <+: (registeringEffect code s e ts1 t g pre post ts2 w).log := by
  simp only [registeringEffect]
  have h0 : w.log <+: (enterTerminating s e w).log := by
    simp only [enterTerminating, World.emit_log, World.set_log, List.append_assoc]
    exact List.prefix_append _ _
  have h1 := foldl_effect_log code s Phase.terminating e ts1 (enterTerminating s e w)
  have h2 : (ts1.foldl (Func.effect code s Phase.terminating e) (enterTerminating s e w)).log
      <+: ((ts1.foldl (Func.effect code s Phase.terminating e) (enterTerminating s e w)).emit
        (Event.callback s Phase.terminating t e)).log := List.prefix_append _ _
  have h3 := registerEffect_log e Phase.terminated s g pre post
    ((ts1.foldl (Func.effect code s Phase.terminating e) (enterTerminating s e w)).emit
      (Event.callback s Phase.terminating t e))
  have h4 : (registerEffect e Phase.terminated s g pre post
      ((ts1.foldl (Func.effect code s Phase.terminating e) (enterTerminating s e w)).emit
        (Event.callback s Phase.terminating t e))).log
      <+: ((registerEffect e Phase.terminated s g pre post
      ((ts1.foldl (Func.effect code s Phase.terminating e) (enterTerminating s e w)).emit
        (Event.callback s Phase.terminating t e))).emit (Event.returned t)).log :=
    List.prefix_append _ _
  exact h0.trans (h1.trans (h2.trans (h3.trans (h4.trans
    (foldl_effect_log code s Phase.terminating e ts2 _)))))

/-- The terminating phase of `Shutdown(e)` on an idle coordinator one of
whose terminating callbacks registers a terminated callback. -/
theorem registering_phase_runs (code : Nat → Body) (s : Nat) (e : Error) (ts1 : List Func)
    (t g : Func) (pre post : List Call) (ts2 : List Func) (st : List Frame) (w : World)
    (r : Error) (hi : (w.shutters s).idle = true)
    (hts : (w.shutters s).terminatingFunc = ts1 ++ t :: ts2)
    (hb : (t.body code).calls = pre ++ Call.OnTerminated s g :: post)
    (hpre : (pre ++ post).all (Call.quiet (enterTerminating s e w)) = true)
    (hq : ∀ f ∈ ts1 ++ ts2, f.quiet code (enterTerminating s e w) = true) :
    ∃ r', Reaches code ⟨w, Frame.Shutdown s e ShutdownPc.once :: st, r⟩
      ⟨registeringEffect code s e ts1 t g pre post ts2 w,
        Frame.Shutdown s e (ShutdownPc.callTerminating []) :: st, r'⟩ := by
  obtain ⟨h1, h2, h3, h4, h5, h6⟩ := (Shutter.idle_iff _).mp hi
  have p1 : Reaches code ⟨w, Frame.Shutdown s e ShutdownPc.once :: st, r⟩ _ :=
    ⟨7, shutdown_prologue code s e st w r hi⟩
  rw [hts] at p1
  obtain ⟨r2, p2⟩ := terminating_loop_runs code s e ts1 (t :: ts2) st
    (enterTerminating s e w) r (fun f hf => hq f (List.mem_append_left _ hf))
  have p3 : step code ⟨ts1.foldl (Func.effect code s Phase.terminating e)
        (enterTerminating s e w),
      Frame.Shutdown s e (ShutdownPc.callTerminating (t :: ts2)) :: st, r2⟩
      = Step.next ⟨(ts1.foldl (Func.effect code s Phase.terminating e)
          (enterTerminating s e w)).emit (Event.callback s Phase.terminating t e),
        Frame.user (some t) (t.body code).calls e
          :: Frame.Shutdown s e (ShutdownPc.callTerminating ts2) :: st, r2⟩ := by
    simp [step, Frame.step, stepShutdown]
  have hsh : ((ts1.foldl (Func.effect code s Phase.terminating e)
      (enterTerminating s e w)).emit (Event.callback s Phase.terminating t e)).shutters
      = (enterTerminating s e w).shutters := by simp
  have p4 := register_func_runs code t Phase.terminated s g pre post e
    (Frame.Shutdown s e (ShutdownPc.callTerminating ts2) :: st)
    ((ts1.foldl (Func.effect code s Phase.terminating e)
      (enterTerminating s e w)).emit (Event.callback s Phase.terminating t e)) r2 hb
    (all_quiet_mono (World.later_of_shutters hsh) _ hpre)
    (by rw [hsh]; simpa [Shutter.listLock, enterTerminating] using h6)
  have hlater : (enterTerminating s e w).later ((registerEffect e Phase.terminated s g pre post
      ((ts1.foldl (Func.effect code s Phase.terminating e)
        (enterTerminating s e w)).emit (Event.callback s Phase.terminating t e))).emit
      (Event.returned t)) := by
    apply World.later_trans (World.later_of_shutters hsh)
    apply World.later_trans (World.later_append _ Phase.terminated s g)
    apply World.later_of_shutters
    simp
  obtain ⟨r5, p5⟩ := terminating_loop_runs code s e ts2 [] st _ (t.body code).result
    (fun f hf => func_quiet_mono code hlater f (hq f (List.mem_append_right _ hf)))
  rw [List.append_nil] at p5
  exact ⟨r5, p1.trans (p2.trans ((Reaches.of_step p3).trans (p4.trans p5)))⟩

/-- C18: on a coordinator that is running with no operation in progress,
whose terminating callbacks are the quiet `ts1`, then `t`, which calls
`OnTerminated(g)` on the coordinator and is otherwise quiet, then the quiet
`ts2`, and whose terminated callbacks and `g` are quiet, `Shutdown(e)` returns
to its caller (so the registration returned).  What this call adds to the log
is `l1`, then the record of the terminated signal, then `l2`: the invocations
in `l1` are the terminating callbacks in order, each with `e`; those in `l2`
are the terminated callbacks registered before, in order, and then `g`, each
with `e`.  So `g(e)` is invoked by the same call, after the terminated signal
and after every terminated callback registered earlier, and once more than
`g` was registered before. -/
theorem register_terminated_in_terminating (code : Nat → Body) (s : Nat) (e : Error)
    (ts1 : List Func) (t g : Func) (pre post : List Call) (ts2 : List Func) (st : List Frame)
    (w : World) (r : Error) (hi : (w.shutters s).idle = true)
    (hts : (w.shutters s).terminatingFunc = ts1 ++ t :: ts2)
    (hb : (t.body code).calls = pre ++ Call.OnTerminated s g :: post)
    (hpre : (pre ++ post).all (Call.quiet (enterTerminating s e w)) = true)
    (hq : ∀ f ∈ ts1 ++ ts2 ++ (w.shutters s).terminatedFunc ++ [g],
      f.quiet code (enterTerminating s e w) = true) :
    ∃ w' r' l1 l2, Reaches code ⟨w, Frame.Shutdown s e ShutdownPc.once :: st, r⟩ ⟨w', st, r'⟩ ∧
      w'.log = w.log ++ l1 ++ Event.closed s Phase.terminated :: l2 ∧
      invocations l1
        = (ts1 ++ t :: ts2).map (fun f => Event.callback s Phase.terminating f e) ∧
      invocations l2
        = ((w.shutters s).terminatedFunc ++ [g]).map
            (fun f => Event.callback s Phase.terminated f e) ∧
      (w'.shutters s).terminatedFunc = (w.shutters s).terminatedFunc ++ [g] ∧
      l2.count (Event.callback s Phase.terminated g e)
        = (w.shutters s).terminatedFunc.count g + 1 := by
  obtain ⟨h1, h2, h3, h4, h5, h6⟩ := (Shutter.idle_iff _).mp hi
  obtain ⟨r4, p4⟩ := registering_phase_runs code s e ts1 t g pre post ts2 st w r hi hts hb hpre
    (fun f hf => hq f (by
      rw [List.append_assoc]
      exact List.mem_append_left _ hf))
  have hs4 := registeringEffect_shutters code s e ts1 t g pre post ts2 w
  have hss : (registeringEffect code s e ts1 t g pre post ts2 w).shutters s
      = ((enterTerminating s e w).shutters s).append Phase.terminated g := by
    rw [hs4]
    simp
  have hds : ((registeringEffect code s e ts1 t g pre post ts2 w).shutters s).terminatedFunc
      = (w.shutters s).terminatedFunc ++ [g] := by
    rw [hss]
    simp [Shutter.append, enterTerminating]
  have p6 := shutdown_middle code s e st (registeringEffect code s e ts1 t g pre post ts2 w) r4
    (by rw [hss]; simpa [Shutter.append, enterTerminating] using h4)
    (by rw [hss]; simpa [Shutter.append, enterTerminating] using h3)
    (by rw [hss]; simp [Shutter.append, enterTerminating])
    (by rw [hss]; simpa [Shutter.append, enterTerminating] using h6)
  rw [hds] at p6
  have hlater : (enterTerminating s e w).later
      (enterTerminated s (registeringEffect code s e ts1 t g pre post ts2 w)) := by
    constructor <;> intro i <;> by_cases hx : i = s <;>
      simp [enterTerminated, hs4, hx, Shutter.append]
  obtain ⟨r7, p7⟩ := terminated_loop_runs code s e ((w.shutters s).terminatedFunc ++ [g]) [] st
    (enterTerminated s (registeringEffect code s e ts1 t g pre post ts2 w)) r4
    (fun f hf => func_quiet_mono code hlater f (hq f (by
      simp only [List.mem_append, List.mem_singleton] at hf ⊢
      tauto)))
  rw [List.append_nil] at p7
  have p8 := shutdown_epilogue code s e st
    (((w.shutters s).terminatedFunc ++ [g]).foldl (Func.effect code s Phase.terminated e)
      (enterTerminated s (registeringEffect code s e ts1 t g pre post ts2 w))) r7
    (by simp [enterTerminated])
  obtain ⟨l1, hl1⟩ := registeringEffect_log code s e ts1 t g pre post ts2 w
  obtain ⟨l2, hl2⟩ := foldl_effect_log code s Phase.terminated e
    ((w.shutters s).terminatedFunc ++ [g])
    (enterTerminated s (registeringEffect code s e ts1 t g pre post ts2 w))
  have hi1 : invocations l1
      = (ts1 ++ t :: ts2).map (fun f => Event.callback s Phase.terminating f e) := by
    apply invocations_of_suffix w.log
    rw [hl1]
    exact registeringEffect_invocations code s e ts1 t g pre post ts2 w
  have hi2 : invocations l2 = ((w.shutters s).terminatedFunc ++ [g]).map
      (fun f => Event.callback s Phase.terminated f e) := by
    apply invocations_of_suffix
      (enterTerminated s (registeringEffect code s e ts1 t g pre post ts2 w)).log
    rw [hl2]
    exact foldl_effect_invocations code s Phase.terminated e _ _
  have p6' : Reaches code _ _ := ⟨7, p6⟩
  have p8' : Reaches code _ _ := ⟨2, p8⟩
  refine ⟨_, r7, l1, l2, p4.trans (p6'.trans (p7.trans p8')), ?_, hi1, hi2, ?_, ?_⟩
  · simp only [leaveTerminated, World.set_log]
    rw [← hl2]
    simp only [enterTerminated, World.emit_log, World.set_log]
    rw [← hl1]
    simp
  · simp [leaveTerminated, enterTerminated, hds]
  · have hc : l2.count (Event.callback s Phase.terminated g e)
        = (invocations l2).count (Event.callback s Phase.terminated g e) := by
      unfold invocations
      rw [List.count_filter]
      rfl
    rw [hc, hi2, count_callback_map]
    simp

theorem register_terminated_in_terminating_witness :
    ((exec exampleCode 9 (start exampleRegister)).world.shutters 0).idle = true ∧
    ((exec exampleCode 9 (start exampleRegister)).world.shutters 0).terminatingFunc
      = [Func.closure 4] ∧
    ((exec exampleCode 9 (start exampleRegister)).world.shutters 0).terminatedFunc
      = [Func.closure 0] ∧
    ∃ w' r' l1 l2, Reaches exampleCode
        ⟨(exec exampleCode 9 (start exampleRegister)).world,
          [Frame.Shutdown 0 Error.nil ShutdownPc.once, Frame.user none [] Error.nil],
          Error.nil⟩ ⟨w', [Frame.user none [] Error.nil], r'⟩ ∧
      w'.log = (exec exampleCode 9 (start exampleRegister)).world.log ++ l1
        ++ Event.closed 0 Phase.terminated :: l2 ∧
      invocations l1 = [Event.callback 0 Phase.terminating (Func.closure 4) Error.nil] ∧
      invocations l2 = [Event.callback 0 Phase.terminated (Func.closure 0) Error.nil,
        Event.callback 0 Phase.terminated (Func.closure 1) Error.nil] ∧
      l2.count (Event.callback 0 Phase.terminated (Func.closure 1) Error.nil) = 1 := by
  have hd : ((exec exampleCode 9 (start exampleRegister)).world.shutters 0).terminatedFunc
      = [Func.closure 0] := by decide
  obtain ⟨w', r', l1, l2, h1, h2, h3, h4, -, h6⟩ :=
    register_terminated_in_terminating exampleCode 0 Error.nil [] (Func.closure 4)
      (Func.closure 1) [] [] [] [Frame.user none [] Error.nil]
      (exec exampleCode 9 (start exampleRegister)).world Error.nil
      (by decide) (by decide) (by decide) (by decide) (by decide)
  rw [hd] at h4 h6
  exact ⟨by decide, by decide, hd, w', r', l1, l2, h1, h2, h3, h4, h6⟩

/-! ## `New` with options -/

theorem registered_cons (ph : Phase) (o : ShutterOption) (os : List ShutterOption) :
    registered ph (o :: os) = (o.callback ph).toList ++ registered ph os := by
  unfold registered
  cases h : ShutterOption.callback ph o <;> simp [List.filterMap_cons, h]

/-- The loop of `New` over the options, from a coordinator whose list mutexes
are free. -/
theorem options_fold (opts : List ShutterOption) (sh : Shutter)
    (h1 : sh.terminatingFuncLock = false) (h2 : sh.terminatedFuncLock = false) :
    opts.foldlM (fun sh opt => opt.apply sh) sh
      = some { sh with
          terminatingFunc := sh.terminatingFunc ++ registered Phase.terminating opts
          terminatedFunc := sh.terminatedFunc ++ registered Phase.terminated opts } := by
  induction opts generalizing sh with
  | nil => simp [registered]
  | cons o os ih =>
    rw [List.foldlM_cons]
    cases o with
    | RegisterOnTerminated f =>
      have ha : (ShutterOption.RegisterOnTerminated f).apply sh
          = some { sh with terminatedFunc := sh.terminatedFunc ++ [f] } := by
        simp only [ShutterOption.apply, Shutter.OnTerminated, h2, Bool.false_eq_true, if_false]
      simp only [ha, Option.bind_eq_bind, Option.some_bind]
      rw [ih { sh with terminatedFunc := sh.terminatedFunc ++ [f] } h1 h2]
      simp [registered_cons, ShutterOption.callback]
    | RegisterOnTerminating f =>
      have ha : (ShutterOption.RegisterOnTerminating f).apply sh
          = some { sh with terminatingFunc := sh.terminatingFunc ++ [f] } := by
        simp only [ShutterOption.apply, Shutter.OnTerminating, h1, Bool.false_eq_true, if_false]
      simp only [ha, Option.bind_eq_bind, Option.some_bind]
      rw [ih { sh with terminatingFunc := sh.terminatingFunc ++ [f] } h1 h2]
      simp [registered_cons, ShutterOption.callback]

/-- The registration calls of a list of options, made one after the other on
a coordinator whose list mutexes are free, take four transitions each and
leave the coordinator with the callbacks appended to its lists. -/
theorem options_run (code : Nat → Body) (opts : List ShutterOption) (s : Nat)
    (f : Option Func) (rest : List Call) (p : Error) (st : List Frame) (w : World) (r : Error)
    (h1 : (w.shutters s).terminatingFuncLock = false)
    (h2 : (w.shutters s).terminatedFuncLock = false) :
    exec code (4 * opts.length)
        ⟨w, Frame.user f (opts.map (ShutterOption.call s) ++ rest) p :: st, r⟩
      = ⟨w.set s { w.shutters s with
            terminatingFunc :=
              (w.shutters s).terminatingFunc ++ registered Phase.terminating opts
            terminatedFunc :=
              (w.shutters s).terminatedFunc ++ registered Phase.terminated opts },
          Frame.user f rest p :: st, r⟩ := by
  induction opts generalizing w with
  | nil =>
    simp only [List.length_nil, Nat.mul_zero, exec, List.map_nil, List.nil_append, registered,
      List.filterMap_nil, List.append_nil]
    congr 1
    apply world_eq_of_fields
    · intro i
      by_cases hi : i = s
      · subst hi
        simp
      · simp [hi]
    · rfl
    · rfl
  | cons o os ih =>
    rw [List.length_cons, show 4 * (os.length + 1) = 4 + 4 * os.length by ring, exec_add,
      List.map_cons, List.cons_append]
    cases o with
    | RegisterOnTerminated g =>
      have hs := register_call_runs code Phase.terminated s g f
        (os.map (ShutterOption.call s) ++ rest) p st w r h2
      simp only [Call.register] at hs
      simp only [ShutterOption.call]
      rw [hs, ih _ (by simpa [Shutter.append] using h1) (by simpa [Shutter.append] using h2)]
      congr 1
      apply world_eq_of_fields
      · intro i
        by_cases hi : i = s
        · subst hi
          simp [Shutter.append, registered_cons, ShutterOption.callback]
        · simp [hi]
      · rfl
      · rfl
    | RegisterOnTerminating g =>
      have hs := register_call_runs code Phase.terminating s g f
        (os.map (ShutterOption.call s) ++ rest) p st w r h1
      simp only [Call.register] at hs
      simp only [ShutterOption.call]
      rw [hs, ih _ (by simpa [Shutter.append] using h1) (by simpa [Shutter.append] using h2)]
      congr 1
      apply world_eq_of_fields
      · intro i
        by_cases hi : i = s
        · subst hi
          simp [Shutter.append, registered_cons, ShutterOption.callback]
        · simp [hi]
      · rfl
      · rfl

/-- C16: for every list of options, `New(opts...)` returns a coordinator
`sh`; it is running (`IsTerminating()` and `IsTerminated()` are false, the
gate is open, the three mutexes are free) with error `nil`, so `Err()` on it
returns `nil`; its terminating list is the callbacks of the
`RegisterOnTerminating` options and its terminated list those of the
`RegisterOnTerminated` options, each in option order.  It is the coordinator
that `New()` followed by the calls `OnTerminating(f)` / `OnTerminated(g)` of
the options, in the same order, leaves: these calls take four transitions
each, return, and change nothing but the coordinator; the log is as before,
so no callback has been invoked. -/
theorem new_with_options (opts : List ShutterOption) :
    ∃ sh, NewWith opts = some sh ∧
      sh.IsTerminating = false ∧ sh.IsTerminated = false ∧ sh.err = Error.nil ∧
      sh.terminatingFunc = registered Phase.terminating opts ∧
      sh.terminatedFunc = registered Phase.terminated opts ∧
      sh.idle = true ∧
      (∀ (code : Nat → Body) (w : World) (s : Nat) (st : List Frame) (r : Error),
        w.shutters s = sh →
        exec code 3 ⟨w, Frame.Err s ErrPc.lock :: st, r⟩
          = ⟨w.emit (Event.err s Error.nil), st, Error.nil⟩) ∧
      (∀ (code : Nat → Body) (w : World) (s : Nat) (f : Option Func) (rest : List Call)
          (p : Error) (st : List Frame) (r : Error),
        w.shutters s = New →
        exec code (4 * opts.length)
            ⟨w, Frame.user f (opts.map (ShutterOption.call s) ++ rest) p :: st, r⟩
          = ⟨w.set s sh, Frame.user f rest p :: st, r⟩) := by
  refine ⟨_, options_fold opts New rfl rfl, rfl, rfl, rfl, ?_, ?_, rfl, ?_, ?_⟩
  · simp [New]
  · simp [New]
  · intro code w s st r hw
    have hl : (w.shutters s).lock = false := by rw [hw]; rfl
    rw [err_returns code w s st r hl, hw]
    rfl
  · intro code w s f rest p st r hw
    rw [options_run code opts s f rest p st w r (by rw [hw]; rfl) (by rw [hw]; rfl), hw]

theorem new_with_options_witness :
    NewWith [ShutterOption.RegisterOnTerminating (Func.closure 0),
        ShutterOption.RegisterOnTerminated (Func.closure 1),
        ShutterOption.RegisterOnTerminating (Func.closure 2)]
      = some { New with
          terminatingFunc := [Func.closure 0, Func.closure 2]
          terminatedFunc := [Func.closure 1] } ∧
    (exec exampleCode (4 * 3) (start
        [Call.OnTerminating 0 (Func.closure 0), Call.OnTerminated 0 (Func.closure 1),
          Call.OnTerminating 0 (Func.closure 2)])).world.shutters 0
      = { New with
          terminatingFunc := [Func.closure 0, Func.closure 2]
          terminatedFunc := [Func.closure 1] } ∧
    invocations (exec exampleCode (4 * 3) (start
        [Call.OnTerminating 0 (Func.closure 0), Call.OnTerminated 0 (Func.closure 1),
          Call.OnTerminating 0 (Func.closure 2)])).world.log = [] := by
  obtain ⟨sh, h1, -, -, -, -, -, -, -, h9⟩ := new_with_options
    [ShutterOption.RegisterOnTerminating (Func.closure 0),
      ShutterOption.RegisterOnTerminated (Func.closure 1),
      ShutterOption.RegisterOnTerminating (Func.closure 2)]
  have h := h9 exampleCode World.init 0 none [] Error.nil [] Error.nil rfl
  have h1' : NewWith [ShutterOption.RegisterOnTerminating (Func.closure 0),
      ShutterOption.RegisterOnTerminated (Func.closure 1),
      ShutterOption.RegisterOnTerminating (Func.closure 2)]
      = some { New with
          terminatingFunc := [Func.closure 0, Func.closure 2]
          terminatedFunc := [Func.closure 1] } := by decide
  rw [h1'] at h1
  have hsh := Option.some.inj h1
  subst hsh
  exact ⟨h1', (congrArg (fun c => c.world.shutters 0) h).trans (by simp),
    congrArg (fun c => invocations c.world.log) h⟩

/-! ## Registration after `Shutdown` has left its loop -/

/-- Once the gate of `s` is closed and no activation of `Shutdown` on `s`, in
either goroutine, can still invoke a callback of the phase, a transition of
either goroutine keeps it so and invokes no callback of that phase. -/
theorem done_pair_step (code : Nat → Body) (s : Nat) (ph : Phase) (c : Pair) (pick : Bool)
    (ho : (c.world.shutters s).once = true)
    (hc : (c.fst ++ c.snd).countP (Frame.canCall s ph) = 0) :
    (((c.step code pick).world.shutters s).once = true ∧
      ((c.step code pick).fst ++ (c.step code pick).snd).countP (Frame.canCall s ph) = 0) ∧
    callbacksOf s ph (c.step code pick).world.log = callbacksOf s ph c.world.log := by
  obtain ⟨w, a, ra, b, rb⟩ := c
  simp only at ho
  simp only [List.countP_append, Nat.add_eq_zero] at hc
  cases pick with
  | true =>
    simp only [Pair.step, if_true]
    split
    · next c' hs =>
      cases a with
      | nil => simp [shutter.step] at hs
      | cons f st =>
        obtain ⟨⟨h1, h2⟩, h3⟩ := done_step code s ph w f st ra c' ho hc.1 hs
        exact ⟨⟨h1, by simp only [List.countP_append, h2, hc.2]⟩, h3⟩
    · exact ⟨⟨ho, by simp only [List.countP_append, hc.1, hc.2]⟩, rfl⟩
  | false =>
    simp only [Pair.step, Bool.false_eq_true, if_false]
    split
    · next c' hs =>
      cases b with
      | nil => simp [shutter.step] at hs
      | cons f st =>
        obtain ⟨⟨h1, h2⟩, h3⟩ := done_step code s ph w f st rb c' ho hc.2 hs
        exact ⟨⟨h1, by simp only [List.countP_append, h2, hc.1]⟩, h3⟩
    · exact ⟨⟨ho, by simp only [List.countP_append, hc.1, hc.2]⟩, rfl⟩

theorem done_pair_exec (code : Nat → Body) (s : Nat) (ph : Phase) (sched : List Bool)
    (c : Pair) (ho : (c.world.shutters s).once = true)
    (hc : (c.fst ++ c.snd).countP (Frame.canCall s ph) = 0) :
    callbacksOf s ph (Pair.exec code sched c).world.log = callbacksOf s ph c.world.log := by
  induction sched generalizing c with
  | nil => rfl
  | cons pick sched ih =>
    obtain ⟨⟨h1, h2⟩, h3⟩ := done_pair_step code s ph c pick ho hc
    simp only [Pair.exec]
    rw [ih _ h1 h2, h3]

/-- An activation of `Shutdown` on `s` in its loop over the terminating
callbacks can still invoke one. -/
theorem canCall_of_inTerminatingLoop (s : Nat) (fr : Frame)
    (h : fr.inTerminatingLoop s = true) : fr.canCall s Phase.terminating = true := by
  cases fr with
  | Shutdown s' e pc =>
    cases pc <;> simp [Frame.inTerminatingLoop, ShutdownPc.inTerminatingLoop, Frame.canCall,
      ShutdownPc.canCall] at h ⊢
    exact h
  | _ => simp [Frame.inTerminatingLoop] at h

/-- An activation of `Shutdown` on `s` in its loop over the terminated
callbacks can still invoke one. -/
theorem canCall_of_inTerminatedLoop (s : Nat) (fr : Frame)
    (h : fr.inTerminatedLoop s = true) : fr.canCall s Phase.terminated = true := by
  cases fr with
  | Shutdown s' e pc =>
    cases pc <;> simp [Frame.inTerminatedLoop, ShutdownPc.inTerminatedLoop, Frame.canCall,
      ShutdownPc.canCall] at h ⊢
    exact h
  | _ => simp [Frame.inTerminatedLoop] at h

theorem not_in_loop_of_countP (s : Nat) (ph : Phase) (f : Frame) (st : List Frame)
    (hc : (f :: st).countP (Frame.canCall s ph) = 0) :
    ∀ fr ∈ st, fr.canCall s ph = false := by
  intro fr hfr
  rw [List.countP_eq_zero] at hc
  have := hc fr (List.mem_cons_of_mem f hfr)
  simpa using this

/-- C9, as amended: (1) in every configuration a program reaches in which
`OnTerminating(f)` is entered on a coordinator whose terminating signal has
fired and on which `Shutdown` has left its loop over the terminating
callbacks (no activation of `Shutdown` on the stack can still invoke one, as
is the case once `Shutdown` has returned), the call appends `f` to the list
and returns after three transitions, and no terminating callback of that
coordinator is invoked in any later configuration: `f` is never invoked.
(2) The same holds of `OnTerminated(f)`, the terminated signal and the loop
over the terminated callbacks.  (3) With two goroutines: from every state in
which the gate of the coordinator has been passed and no activation of
`Shutdown` on either stack can still invoke a callback of the phase, no
schedule of transitions invokes a callback of that phase, so whatever is
registered from then on is never invoked. -/
theorem late_registration (code : Nat → Body) (s : Nat) (f : Func) :
    (∀ (main : List Call) (n : Nat) (st : List Frame),
      (exec code n (start main)).stack = Frame.OnTerminating s f RegisterPc.lock :: st →
      ((exec code n (start main)).world.shutters s).IsTerminating = true →
      (exec code n (start main)).stack.countP (Frame.canCall s Phase.terminating) = 0 →
      (exec code 3 (exec code n (start main))).stack = st ∧
      ((exec code 3 (exec code n (start main))).world.shutters s).terminatingFunc
        = ((exec code n (start main)).world.shutters s).terminatingFunc ++ [f] ∧
      ∀ m, callbacksOf s Phase.terminating (exec code m (exec code n (start main))).world.log
        = callbacksOf s Phase.terminating (exec code n (start main)).world.log) ∧
    (∀ (main : List Call) (n : Nat) (st : List Frame),
      (exec code n (start main)).stack = Frame.OnTerminated s f RegisterPc.lock :: st →
      ((exec code n (start main)).world.shutters s).IsTerminated = true →
      (exec code n (start main)).stack.countP (Frame.canCall s Phase.terminated) = 0 →
      (exec code 3 (exec code n (start main))).stack = st ∧
      ((exec code 3 (exec code n (start main))).world.shutters s).terminatedFunc
        = ((exec code n (start main)).world.shutters s).terminatedFunc ++ [f] ∧
      ∀ m, callbacksOf s Phase.terminated (exec code m (exec code n (start main))).world.log
        = callbacksOf s Phase.terminated (exec code n (start main)).world.log) ∧
    (∀ (ph : Phase) (c : Pair) (sched : List Bool),
      (c.world.shutters s).once = true →
      (c.fst ++ c.snd).countP (Frame.canCall s ph) = 0 →
      callbacksOf s ph (Pair.exec code sched c).world.log = callbacksOf s ph c.world.log) := by
  refine ⟨?_, ?_, fun ph c sched ho hc => done_pair_exec code s ph sched c ho hc⟩
  · intro main n st hst ht hc
    have hi := inv_reach code main n
    have ho := (once_of_terminating hi s ht).1
    have hl : ((exec code n (start main)).world.shutters s).terminatingFuncLock = false := by
      apply terminatingFuncLock_free hi s _ st hst (by simp [Frame.holdsTerminatingFuncLock])
      intro fr hfr
      rw [hst] at hc
      have h1 := not_in_loop_of_countP s Phase.terminating _ st hc fr hfr
      cases hx : fr.inTerminatingLoop s
      · rfl
      · rw [canCall_of_inTerminatingLoop s fr hx] at h1
        cases h1
    generalize exec code n (start main) = c at hst hc ho hl
    refine ⟨?_, ?_, done_exec code s Phase.terminating c ho hc⟩ <;>
    · obtain ⟨w, stack, r⟩ := c
      simp only at hst hl
      subst hst
      simp [onTerminating_runs code s f st w r hl]
  · intro main n st hst ht hc
    have hi := inv_reach code main n
    have ho := (once_of_terminating hi s (terminating_of_terminated hi s ht)).1
    have hl : ((exec code n (start main)).world.shutters s).terminatedFuncLock = false := by
      apply terminatedFuncLock_free hi s _ st hst (by simp [Frame.holdsTerminatedFuncLock])
      intro fr hfr
      rw [hst] at hc
      have h1 := not_in_loop_of_countP s Phase.terminated _ st hc fr hfr
      cases hx : fr.inTerminatedLoop s
      · rfl
      · rw [canCall_of_inTerminatedLoop s fr hx] at h1
        cases h1
    generalize exec code n (start main) = c at hst hc ho hl
    refine ⟨?_, ?_, done_exec code s Phase.terminated c ho hc⟩ <;>
    · obtain ⟨w, stack, r⟩ := c
      simp only at hst hl
      subst hst
      simp [onTerminated_runs code s f st w r hl]

theorem late_registration_witness :
    (((exec exampleCode 3 (exec exampleCode 18 (start exampleLate))).world.shutters 0).terminatingFunc
        = ((exec exampleCode 18 (start exampleLate)).world.shutters 0).terminatingFunc
          ++ [Func.closure 1] ∧
      callbacksOf 0 Phase.terminating
          (exec exampleCode 40 (exec exampleCode 18 (start exampleLate))).world.log
        = callbacksOf 0 Phase.terminating (exec exampleCode 18 (start exampleLate)).world.log) ∧
    (((exec exampleCode 3 (exec exampleCode 22 (start exampleLate))).world.shutters 0).terminatedFunc
        = ((exec exampleCode 22 (start exampleLate)).world.shutters 0).terminatedFunc
          ++ [Func.closure 1] ∧
      callbacksOf 0 Phase.terminated
          (exec exampleCode 40 (exec exampleCode 22 (start exampleLate))).world.log
        = callbacksOf 0 Phase.terminated (exec exampleCode 22 (start exampleLate)).world.log) ∧
    ((Pair.exec exampleCode [true, false, true, false, true, false]
        ⟨(exec exampleCode 17 (start exampleLate)).world,
          [Frame.OnTerminating 0 (Func.closure 1) RegisterPc.lock], Error.nil,
          [Frame.OnTerminated 0 (Func.closure 1) RegisterPc.lock], Error.nil⟩).world.shutters
        0).terminatingFunc = [Func.closure 1] ∧
    callbacksOf 0 Phase.terminating
        (Pair.exec exampleCode [true, false, true, false, true, false]
          ⟨(exec exampleCode 17 (start exampleLate)).world,
            [Frame.OnTerminating 0 (Func.closure 1) RegisterPc.lock], Error.nil,
            [Frame.OnTerminated 0 (Func.closure 1) RegisterPc.lock], Error.nil⟩).world.log
      = callbacksOf 0 Phase.terminating (exec exampleCode 17 (start exampleLate)).world.log :=
  ⟨⟨((late_registration exampleCode 0 (Func.closure 1)).1 exampleLate 18
        [Frame.user none [Call.OnTerminated 0 (Func.closure 1)] Error.nil]
        (by decide) (by decide) (by decide)).2.1,
      ((late_registration exampleCode 0 (Func.closure 1)).1 exampleLate 18
        [Frame.user none [Call.OnTerminated 0 (Func.closure 1)] Error.nil]
        (by decide) (by decide) (by decide)).2.2 40⟩,
    ⟨((late_registration exampleCode 0 (Func.closure 1)).2.1 exampleLate 22
        [Frame.user none [] Error.nil] (by decide) (by decide) (by decide)).2.1,
      ((late_registration exampleCode 0 (Func.closure 1)).2.1 exampleLate 22
        [Frame.user none [] Error.nil] (by decide) (by decide) (by decide)).2.2 40⟩,
    by decide,
    (late_registration exampleCode 0 (Func.closure 1)).2.2 Phase.terminating
      ⟨(exec exampleCode 17 (start exampleLate)).world,
        [Frame.OnTerminating 0 (Func.closure 1) RegisterPc.lock], Error.nil,
        [Frame.OnTerminated 0 (Func.closure 1) RegisterPc.lock], Error.nil⟩
      [true, false, true, false, true, false] (by decide) (by decide)⟩

/-- C9 as stated fails: after `Shutdown(errors.New(..))` has returned, both
signals have fired; `OnTerminating(f)` and `OnTerminated(f)` then register
`f` on each list, the program runs to its end, and no callback at all has
been invoked: `f` was skipped twice. -/
theorem late_registration_counterexample :
    (exec exampleCode 18 (start exampleLate)).stack
      = [Frame.OnTerminating 0 (Func.closure 1) RegisterPc.lock,
          Frame.user none [Call.OnTerminated 0 (Func.closure 1)] Error.nil] ∧
    ((exec exampleCode 18 (start exampleLate)).world.shutters 0).IsTerminating = true ∧
    ((exec exampleCode 18 (start exampleLate)).world.shutters 0).IsTerminated = true ∧
    ((exec exampleCode 18 (start exampleLate)).world.shutters 0).err = Error.New 1 ∧
    (exec exampleCode 26 (start exampleLate)).stack = [] ∧
    ((exec exampleCode 26 (start exampleLate)).world.shutters 0).terminatingFunc
      = [Func.closure 1] ∧
    ((exec exampleCode 26 (start exampleLate)).world.shutters 0).terminatedFunc
      = [Func.closure 1] ∧
    invocations (exec exampleCode 26 (start exampleLate)).world.log = [] ∧
    (exec exampleCode 26 (start exampleLate)).world.vars 0 = 0 := by
  decide

/-- Why the hypothesis is that `Shutdown` has left its loop, and not only that
the signal has fired: a second goroutine that registers `f` after
`close(s.terminatingCh)` and before `s.terminatingFuncLock.Lock()` of
`Shutdown(e)` has its `f` invoked by the loop, once, with `e`. -/
theorem registration_before_loop :
    ((Pair.exec exampleCode [false, false, false, false, false]
        ⟨World.init, [Frame.OnTerminating 0 (Func.closure 1) RegisterPc.lock], Error.nil,
          [Frame.Shutdown 0 (Error.New 1) ShutdownPc.once], Error.nil⟩).world.shutters
        0).IsTerminating = true ∧
    (Pair.exec exampleCode [false, false, false, false, false]
        ⟨World.init, [Frame.OnTerminating 0 (Func.closure 1) RegisterPc.lock], Error.nil,
          [Frame.Shutdown 0 (Error.New 1) ShutdownPc.once], Error.nil⟩).snd
      = [Frame.Shutdown 0 (Error.New 1) ShutdownPc.lockTerminatingFunc] ∧
    ((Pair.exec exampleCode [false, false, false, false, false]
        ⟨World.init, [Frame.OnTerminating 0 (Func.closure 1) RegisterPc.lock], Error.nil,
          [Frame.Shutdown 0 (Error.New 1) ShutdownPc.once], Error.nil⟩).world.shutters
        0).terminatingFuncLock = false ∧
    (Pair.exec exampleCode
        ([false, false, false, false, false] ++ [true, true, true] ++ List.replicate 20 false)
        ⟨World.init, [Frame.OnTerminating 0 (Func.closure 1) RegisterPc.lock], Error.nil,
          [Frame.Shutdown 0 (Error.New 1) ShutdownPc.once], Error.nil⟩).snd = [] ∧
    callbacksOf 0 Phase.terminating
        (Pair.exec exampleCode
          ([false, false, false, false, false] ++ [true, true, true]
            ++ List.replicate 20 false)
          ⟨World.init, [Frame.OnTerminating 0 (Func.closure 1) RegisterPc.lock], Error.nil,
            [Frame.Shutdown 0 (Error.New 1) ShutdownPc.once], Error.nil⟩).world.log
      = [(Func.closure 1, Error.New 1)] := by
  decide

/-! ## `LockedInit` racing with `Shutdown` -/

/-- Once the terminating signal has fired, `LockedInit` never runs `fn`. -/
theorem after_step (code : Nat → Body) (s : Nat) (fn : Func) (c : Pair) (pick : Bool)
    (h : After s fn c) : After s fn (c.step code pick) := by
  obtain ⟨w, a, ra, b, rb⟩ := c
  obtain ⟨hf, ha⟩ := h
  simp only at hf ha
  cases pick with
  | false =>
    simp only [Pair.step, Bool.false_eq_true, if_false]
    split
    · next c' hs => exact ⟨(Config.le_step hs).terminating s hf, ha⟩
    · exact ⟨hf, ha⟩
  | true =>
    rcases ha with rfl | rfl | rfl | rfl
    · by_cases hl : (w.shutters s).lock = true
      · have : shutter.step code ⟨w, [Frame.LockedInit s fn LockedInitPc.lock], ra⟩
            = Step.blocked := by simp [shutter.step, Frame.step, stepLockedInit, hl]
        simp only [Pair.step, if_true, this]
        exact ⟨hf, Or.inl rfl⟩
      · have : shutter.step code ⟨w, [Frame.LockedInit s fn LockedInitPc.lock], ra⟩
            = Step.next ⟨w.set s { w.shutters s with lock := true },
                [Frame.LockedInit s fn LockedInitPc.check], ra⟩ := by
          simp [shutter.step, Frame.step, stepLockedInit, hl]
        simp only [Pair.step, if_true, this]
        exact ⟨by simpa using hf, Or.inr (Or.inl rfl)⟩
    · have : shutter.step code ⟨w, [Frame.LockedInit s fn LockedInitPc.check], ra⟩
          = Step.next ⟨w, [Frame.LockedInit s fn LockedInitPc.deferred],
              Error.ErrShutterWasAlreadyDown⟩ := by
        simp [shutter.step, Frame.step, stepLockedInit, Shutter.IsTerminating, hf]
      simp only [Pair.step, if_true, this]
      exact ⟨hf, Or.inr (Or.inr (Or.inl rfl))⟩
    · by_cases hl : (w.shutters s).lock = true
      · have : shutter.step code ⟨w, [Frame.LockedInit s fn LockedInitPc.deferred], ra⟩
            = Step.next ⟨(w.set s { w.shutters s with lock := false }).emit
                (Event.lockedInit s ra), [], ra⟩ := by
          simp [shutter.step, Frame.step, stepLockedInit, hl]
        simp only [Pair.step, if_true, this]
        exact ⟨by simpa using hf, Or.inr (Or.inr (Or.inr rfl))⟩
      · have : shutter.step code ⟨w, [Frame.LockedInit s fn LockedInitPc.deferred], ra⟩
            = Step.panic := by simp [shutter.step, Frame.step, stepLockedInit, hl]
        simp only [Pair.step, if_true, this]
        exact ⟨hf, Or.inr (Or.inr (Or.inl rfl))⟩
    · have : shutter.step code ⟨w, [], ra⟩ = Step.done := by simp [shutter.step]
      simp only [Pair.step, if_true, this]
      exact ⟨hf, Or.inr (Or.inr (Or.inr rfl))⟩

/-- A transition keeps the count of the holders of the entry guard of a
coordinator in step with the guard, whatever else holds it. -/
theorem lock_count_step (code : Nat → Body) (w : World) (f : Frame) (st : List Frame)
    (r : Error) (c' : Config) (s' k : Nat)
    (h1 : (f :: st).countP (Frame.holdsLock s') + k = (w.shutters s').lock.toNat)
    (hs : step code ⟨w, f :: st, r⟩ = Step.next c') :
    c'.stack.countP (Frame.holdsLock s') + k = (c'.world.shutters s').lock.toNat := by
  rcases f with ⟨_ | g, _ | ⟨_ | _, rest⟩, p⟩ | ⟨s, e, _ | _ | _ | _ | _ | _ | _ | ⟨_ | _⟩ | _ | _ | _ | _ | _ | _ | ⟨_ | _⟩ | _⟩ |
    ⟨s, fn, _ | _⟩ | ⟨s, g, _ | _⟩ | ⟨s, g, _ | _⟩ | ⟨s, _ | _⟩ | ⟨p, q, _ | _⟩ <;>
    simp only [step, Frame.step, stepUser, stepShutdown, stepLockedInit, stepOnTerminating,
      stepOnTerminated, stepErr, stepBind, closeTerminatingCh, closeTerminatedCh,
      Shutter.IsTerminating, Shutter.IsTerminated] at hs <;>
    (try split_ifs at hs) <;>
    (try simp only [Step.next.injEq, reduceCtorEq] at hs) <;>
    (try subst hs) <;>
    simp [List.countP_cons, Frame.holdsLock, ShutdownPc.holdsLock,
      -List.countP_eq_zero] at h1 ⊢ <;>
    (try split_ifs at h1 ⊢) <;>
    (try subst_vars) <;>
    (try simp_all [-List.countP_eq_zero]) <;> (try omega)

/-- A transition of the activation on top does not look at the activations
below it. -/
theorem step_above (code : Nat → Body) (w : World) (f : Frame) (t x : List Frame) (r : Error)
    (c' : Config) (hs : step code ⟨w, f :: (t ++ x), r⟩ = Step.next c') :
    ∃ t', c'.stack = t' ++ x := by
  simp only [step] at hs
  cases h : f.step code w r with
  | goto w1 k r1 =>
    rw [h] at hs
    simp only [Step.next.injEq] at hs
    subst hs
    exact ⟨k :: t, rfl⟩
  | call w1 k callee =>
    rw [h] at hs
    simp only [Step.next.injEq] at hs
    subst hs
    exact ⟨callee :: k :: t, rfl⟩
  | ret w1 r1 =>
    rw [h] at hs
    simp only [Step.next.injEq] at hs
    subst hs
    exact ⟨t, rfl⟩
  | blocked =>
    rw [h] at hs
    cases hs
  | panic =>
    rw [h] at hs
    cases hs

/-- A transition of calm code leaves calm activations, leaves the gate, the
terminating signal and the error of every coordinator as they are, and
invokes no callback. -/
theorem calm_step (code : Nat → Body) (ok : Nat → Bool)
    (hok : ∀ id, ok id = true → (code id).calls.all (Call.calm ok) = true)
    (w : World) (f : Frame) (st : List Frame) (r : Error) (c' : Config)
    (hf : f.calm ok = true) (hst : st.all (Frame.calm ok) = true)
    (hs : step code ⟨w, f :: st, r⟩ = Step.next c') :
    c'.stack.all (Frame.calm ok) = true ∧
    (∀ i, (c'.world.shutters i).once = (w.shutters i).once ∧
      (c'.world.shutters i).terminatingCh = (w.shutters i).terminatingCh ∧
      (c'.world.shutters i).err = (w.shutters i).err) ∧
    invocations c'.world.log = invocations w.log := by
  cases f with
  | Shutdown s' e pc => simp [Frame.calm] at hf
  | Bind p q pc => simp [Frame.calm] at hf
  | user g rest p =>
    cases rest with
    | nil =>
      cases g <;> simp only [step, Frame.step, stepUser, Step.next.injEq] at hs <;> subst hs <;>
        simp [hst, invocations]
    | cons c rest =>
      simp only [Frame.calm, List.all_cons, Bool.and_eq_true] at hf
      cases c <;> simp only [step, Frame.step, stepUser, Step.next.injEq] at hs <;>
        (try subst hs) <;>
        simp_all [Frame.calm, Call.calm, invocations]
  | LockedInit s' fn pc =>
    simp only [Frame.calm] at hf
    cases pc <;> simp only [step, Frame.step, stepLockedInit] at hs <;>
      split_ifs at hs <;> simp only [Step.next.injEq, reduceCtorEq] at hs <;> subst hs
    · refine ⟨by simp [Frame.calm, hf, hst], fun i => ?_, by simp⟩
      by_cases hi : i = s' <;> simp [hi]
    · exact ⟨by simp [Frame.calm, hf, hst], fun i => ⟨rfl, rfl, rfl⟩, rfl⟩
    · refine ⟨?_, fun i => ⟨rfl, rfl, rfl⟩, by simp [invocations]⟩
      cases fn with
      | closure id =>
        simp only [Func.calm] at hf
        simp [Frame.calm, Func.calm, Func.body, hf, hst, hok id hf]
      | propagate t => simp [Func.calm] at hf
    · refine ⟨by simp [hst], fun i => ?_, by simp [invocations]⟩
      by_cases hi : i = s' <;> simp [hi]
  | OnTerminating s' g pc =>
    cases pc <;> simp only [step, Frame.step, stepOnTerminating] at hs <;>
      (try split_ifs at hs) <;> simp only [Step.next.injEq, reduceCtorEq] at hs <;> subst hs <;>
      refine ⟨by simp [Frame.calm, hst], fun i => ?_, by simp⟩ <;>
      by_cases hi : i = s' <;> simp [hi]
  | OnTerminated s' g pc =>
    cases pc <;> simp only [step, Frame.step, stepOnTerminated] at hs <;>
      (try split_ifs at hs) <;> simp only [Step.next.injEq, reduceCtorEq] at hs <;> subst hs <;>
      refine ⟨by simp [Frame.calm, hst], fun i => ?_, by simp⟩ <;>
      by_cases hi : i = s' <;> simp [hi]
  | Err s' pc =>
    cases pc <;> simp only [step, Frame.step, stepErr] at hs <;>
      (try split_ifs at hs) <;> simp only [Step.next.injEq, reduceCtorEq] at hs <;> subst hs <;>
      refine ⟨by simp [Frame.calm, hst], fun i => ?_, by simp [invocations]⟩ <;>
      by_cases hi : i = s' <;> simp [hi]

/-- A transition of the first goroutine keeps it in `LockedInit`: before
`fn`, with `fn` and what it called above `LockedInit`, at the deferred
`Unlock`, or returned. -/
theorem fst_shape_step (code : Nat → Body) (s : Nat) (fn : Func) (w : World)
    (a : List Frame) (ra : Error) (c' : Config)
    (ha : a = [] ∨ a = [Frame.LockedInit s fn LockedInitPc.lock] ∨
      a = [Frame.LockedInit s fn LockedInitPc.check] ∨
      ∃ top, a = top ++ [Frame.LockedInit s fn LockedInitPc.deferred])
    (hs : step code ⟨w, a, ra⟩ = Step.next c') :
    c'.stack = [] ∨ c'.stack = [Frame.LockedInit s fn LockedInitPc.lock] ∨
      c'.stack = [Frame.LockedInit s fn LockedInitPc.check] ∨
      ∃ top, c'.stack = top ++ [Frame.LockedInit s fn LockedInitPc.deferred] := by
  rcases ha with rfl | rfl | rfl | ⟨top, rfl⟩
  · simp [step] at hs
  · simp only [step, Frame.step, stepLockedInit] at hs
    split_ifs at hs
    simp only [Step.next.injEq] at hs
    subst hs
    exact Or.inr (Or.inr (Or.inl rfl))
  · simp only [step, Frame.step, stepLockedInit] at hs
    split_ifs at hs <;> simp only [Step.next.injEq] at hs <;> subst hs
    · exact Or.inr (Or.inr (Or.inr ⟨[], rfl⟩))
    · exact Or.inr (Or.inr (Or.inr ⟨[_], rfl⟩))
  · cases top with
    | nil =>
      simp only [List.nil_append, step, Frame.step, stepLockedInit] at hs
      split_ifs at hs
      simp only [Step.next.injEq] at hs
      subst hs
      exact Or.inl rfl
    | cons f t =>
      obtain ⟨t', ht'⟩ := step_above code w f t _ ra c' hs
      exact Or.inr (Or.inr (Or.inr ⟨t', ht'⟩))

/-- A transition of the first goroutine keeps `Before`. -/
theorem before_step_fst (code : Nat → Body) (ok : Nat → Bool) (s : Nat) (fn : Func)
    (e : Error) (w0 : World) (c : Pair)
    (hok : ∀ id, ok id = true → (code id).calls.all (Call.calm ok) = true)
    (h : Before ok s fn e w0 c) : Before ok s fn e w0 (c.step code true) := by
  obtain ⟨w, a, ra, b, rb⟩ := c
  obtain ⟨hu, hcalm, ha, hsnd, hl, he, hg⟩ := h
  simp only at hu hcalm ha hsnd hl he hg
  simp only [Pair.step, if_true]
  split
  · next c' hs =>
    have hshape := fst_shape_step code s fn w a ra c' ha hs
    cases a with
    | nil => simp [shutter.step] at hs
    | cons f st =>
      simp only [List.all_cons, Bool.and_eq_true] at hcalm
      obtain ⟨k1, k2, k3⟩ := calm_step code ok hok w f st ra c' hcalm.1 hcalm.2 hs
      rw [List.countP_append] at hl
      have k4 := lock_count_step code w f st ra c' s _ hl hs
      refine ⟨?_, k1, hshape, hsnd, ?_, ?_, ?_⟩
      · simp only
        rw [(k2 s).2.1]
        exact hu
      · simp only
        rw [List.countP_append]
        exact k4
      · intro hx
        simp only
        rw [(k2 s).2.2, k3]
        exact he hx
      · intro hx
        simp only
        rw [(k2 s).1]
        exact hg hx
  · exact ⟨hu, hcalm, ha, hsnd, hl, he, hg⟩

/-- A transition of the second goroutine keeps `Before`, or fires the
terminating signal while the first goroutine is outside its critical
section. -/
theorem before_step_snd (code : Nat → Body) (ok : Nat → Bool) (s : Nat) (fn : Func)
    (e : Error) (w0 : World) (c : Pair) (h : Before ok s fn e w0 c) :
    Before ok s fn e w0 (c.step code false) ∨ After s fn (c.step code false) := by
  obtain ⟨w, a, ra, b, rb⟩ := c
  obtain ⟨hu, hcalm, ha, hsnd, hl, he, hg⟩ := h
  simp only at hu hcalm ha hsnd hl he hg
  rcases hsnd with rfl | rfl | rfl | rfl
  · have ho := hg rfl
    have : shutter.step code ⟨w, [Frame.Shutdown s e ShutdownPc.once], rb⟩
        = Step.next ⟨(w.set s { w.shutters s with once := true }).emit (Event.gate s e true),
            [Frame.Shutdown s e ShutdownPc.lock1], rb⟩ := by
      simp [shutter.step, Frame.step, stepShutdown, ho]
    simp only [Pair.step, Bool.false_eq_true, if_false, this]
    refine Or.inl ⟨by simpa using hu, hcalm, ha, Or.inr (Or.inl rfl), ?_, ?_, ?_⟩
    · simp [List.countP_append, List.countP_cons, Frame.holdsLock, ShutdownPc.holdsLock,
        -List.countP_eq_zero] at hl ⊢
      exact hl
    · intro _
      have := he (Or.inl rfl)
      simpa [invocations] using this
    · intro hx
      simp at hx
  · by_cases hk : (w.shutters s).lock = true
    · have : shutter.step code ⟨w, [Frame.Shutdown s e ShutdownPc.lock1], rb⟩
          = Step.blocked := by simp [shutter.step, Frame.step, stepShutdown, hk]
      simp only [Pair.step, Bool.false_eq_true, if_false, this]
      exact Or.inl ⟨hu, hcalm, ha, Or.inr (Or.inl rfl), hl, he, hg⟩
    · have : shutter.step code ⟨w, [Frame.Shutdown s e ShutdownPc.lock1], rb⟩
          = Step.next ⟨w.set s { w.shutters s with lock := true },
              [Frame.Shutdown s e ShutdownPc.setErr], rb⟩ := by
        simp [shutter.step, Frame.step, stepShutdown, hk]
      simp only [Pair.step, Bool.false_eq_true, if_false, this]
      simp only [Bool.not_eq_true] at hk
      refine Or.inl ⟨by simpa using hu, hcalm, ha, Or.inr (Or.inr (Or.inl rfl)), ?_, ?_, ?_⟩
      · simp [List.countP_append, List.countP_cons, Frame.holdsLock, ShutdownPc.holdsLock, hk,
          -List.countP_eq_zero] at hl ⊢
        omega
      · intro hx
        simp at hx
      · intro hx
        simp at hx
  · have : shutter.step code ⟨w, [Frame.Shutdown s e ShutdownPc.setErr], rb⟩
        = Step.next ⟨w.set s { w.shutters s with err := e },
            [Frame.Shutdown s e ShutdownPc.closeTerminating], rb⟩ := by
      simp [shutter.step, Frame.step, stepShutdown]
    simp only [Pair.step, Bool.false_eq_true, if_false, this]
    refine Or.inl ⟨by simpa using hu, hcalm, ha, Or.inr (Or.inr (Or.inr rfl)), ?_, ?_, ?_⟩
    · simp [List.countP_append, List.countP_cons, Frame.holdsLock, ShutdownPc.holdsLock,
        -List.countP_eq_zero] at hl ⊢
      exact hl
    · intro hx
      simp at hx
    · intro hx
      simp at hx
  · have : shutter.step code ⟨w, [Frame.Shutdown s e ShutdownPc.closeTerminating], rb⟩
        = Step.next ⟨(w.set s { w.shutters s with terminatingCh := true }).emit
            (Event.closed s Phase.terminating),
            [Frame.Shutdown s e ShutdownPc.unlock1], rb⟩ := by
      simp [shutter.step, Frame.step, stepShutdown, closeTerminatingCh, hu]
    simp only [Pair.step, Bool.false_eq_true, if_false, this]
    have hle := Bool.toNat_le (w.shutters s).lock
    refine Or.inr ⟨by simp, ?_⟩
    rcases ha with rfl | rfl | rfl | ⟨top, rfl⟩
    · exact Or.inr (Or.inr (Or.inr rfl))
    · exact Or.inl rfl
    · simp [List.countP_cons, Frame.holdsLock, ShutdownPc.holdsLock] at hl
      omega
    · simp [List.countP_append, List.countP_cons, Frame.holdsLock, ShutdownPc.holdsLock,
        -List.countP_eq_zero] at hl
      omega

/-- Every state of the race is a `Before` or an `After` state. -/
theorem race_invariant (code : Nat → Body) (ok : Nat → Bool) (s : Nat) (fn : Func)
    (e : Error) (w0 : World)
    (hok : ∀ id, ok id = true → (code id).calls.all (Call.calm ok) = true)
    (sched : List Bool) (c : Pair) (h : Before ok s fn e w0 c ∨ After s fn c) :
    Before ok s fn e w0 (Pair.exec code sched c) ∨ After s fn (Pair.exec code sched c) := by
  induction sched generalizing c with
  | nil => exact h
  | cons pick sched ih =>
    apply ih
    rcases h with h | h
    · cases pick
      · exact before_step_snd code ok s fn e w0 c h
      · exact Or.inl (before_step_fst code ok s fn e w0 c hok h)
    · exact Or.inr (after_step code s fn c pick h)

theorem before_race (ok : Nat → Bool) (s : Nat) (fn : Func) (e : Error) (w : World)
    (hi : (w.shutters s).idle = true) (hfn : fn.calm ok = true) :
    Before ok s fn e w (race s fn e w) := by
  obtain ⟨h1, h2, h3, h4, h5, h6⟩ := (Shutter.idle_iff _).mp hi
  refine ⟨h2, ?_, Or.inr (Or.inl rfl), Or.inl rfl, ?_, fun _ => ⟨rfl, rfl⟩, fun _ => h1⟩
  · simp [race, Frame.calm, hfn]
  · simp [race, Frame.holdsLock, ShutdownPc.holdsLock, h4]

/-- C12, as amended: the first goroutine calls `LockedInit(fn)` and the
second calls `Shutdown(e)`, on a coordinator `s` that is running with no
operation in progress; `fn` makes no call to `Shutdown` or `Bind`, neither
itself nor in a function it gives to a nested `LockedInit` (`ok` is a set of
function literals, closed under that nesting, that holds `fn`); it may
register callbacks, call `Err`, `LockedInit` and the queries, on any
coordinator.  In every state that any schedule of their transitions reaches
in which `fn` is executing (the activation of `fn` is on the stack of the
first goroutine, above that of `LockedInit`, with whatever it has called
above it): the entry guard is held; `Shutdown` is at `once.Do` or at
`s.lock.Lock()`, so it has not returned, has not recorded the error, has not
fired the terminating signal and has invoked no callback: the stored error is
that of the initial world, `IsTerminating()` is false and the log holds the
invocations of the initial log only; and at `s.lock.Lock()` a transition of
the second goroutine changes nothing: it waits. -/
theorem guard_mutual_exclusion (code : Nat → Body) (ok : Nat → Bool) (s : Nat) (fn : Func)
    (e : Error) (w : World) (sched : List Bool) (above : List Frame) (rest : List Call)
    (p : Error) (hi : (w.shutters s).idle = true) (hfn : fn.calm ok = true)
    (hok : ∀ id, ok id = true → (code id).calls.all (Call.calm ok) = true)
    (hrun : (Pair.exec code sched (race s fn e w)).fst
      = above ++ [Frame.user (some fn) rest p, Frame.LockedInit s fn LockedInitPc.deferred]) :
    ((Pair.exec code sched (race s fn e w)).snd = [Frame.Shutdown s e ShutdownPc.once] ∨
      (Pair.exec code sched (race s fn e w)).snd = [Frame.Shutdown s e ShutdownPc.lock1]) ∧
    ((Pair.exec code sched (race s fn e w)).world.shutters s).lock = true ∧
    ((Pair.exec code sched (race s fn e w)).world.shutters s).err = (w.shutters s).err ∧
    ((Pair.exec code sched (race s fn e w)).world.shutters s).IsTerminating = false ∧
    invocations (Pair.exec code sched (race s fn e w)).world.log = invocations w.log ∧
    ((Pair.exec code sched (race s fn e w)).snd = [Frame.Shutdown s e ShutdownPc.lock1] →
      (Pair.exec code sched (race s fn e w)).step code false
        = Pair.exec code sched (race s fn e w)) := by
  have hinv := race_invariant code ok s fn e w hok sched (race s fn e w)
    (Or.inl (before_race ok s fn e w hi hfn))
  generalize Pair.exec code sched (race s fn e w) = c at hrun hinv
  obtain ⟨w', a, ra, b, rb⟩ := c
  simp only at hrun
  subst hrun
  rcases hinv with h | h
  · obtain ⟨hu, -, -, hsnd, hl, he, -⟩ := h
    simp only at hu hsnd hl he
    have hle := Bool.toNat_le (w'.shutters s).lock
    have hb : b = [Frame.Shutdown s e ShutdownPc.once] ∨
        b = [Frame.Shutdown s e ShutdownPc.lock1] := by
      rcases hsnd with rfl | rfl | rfl | rfl
      · exact Or.inl rfl
      · exact Or.inr rfl
      · simp [List.countP_append, List.countP_cons, Frame.holdsLock, ShutdownPc.holdsLock,
          -List.countP_eq_zero] at hl
        omega
      · simp [List.countP_append, List.countP_cons, Frame.holdsLock, ShutdownPc.holdsLock,
          -List.countP_eq_zero] at hl
        omega
    have hk : (w'.shutters s).lock = true := by
      cases hx : (w'.shutters s).lock
      · rw [hx] at hl
        simp [List.countP_append, List.countP_cons, Frame.holdsLock,
          -List.countP_eq_zero] at hl
      · rfl
    refine ⟨hb, hk, (he hb).1, hu, (he hb).2, ?_⟩
    intro hx
    subst hx
    have : shutter.step code ⟨w', [Frame.Shutdown s e ShutdownPc.lock1], rb⟩
        = Step.blocked := by simp [shutter.step, Frame.step, stepShutdown, hk]
    simp only [Pair.step, Bool.false_eq_true, if_false, this]
  · obtain ⟨-, hf⟩ := h
    simp only at hf
    have hlen : 2 ≤ (above ++ [Frame.user (some fn) rest p,
        Frame.LockedInit s fn LockedInitPc.deferred]).length := by simp
    rcases hf with hf | hf | hf | hf <;> rw [hf] at hlen <;> simp at hlen

theorem guard_mutual_exclusion_witness :
    (World.init.shutters 0).idle = true ∧
    (Pair.exec hazardCode [true, true, true, true, false, false, true]
      (race 0 (Func.closure 9) (Error.New 1) World.init)).fst
      = [Frame.OnTerminating 0 (Func.closure 2) RegisterPc.append,
          Frame.user (some (Func.closure 9)) [Call.IsTerminating 0] Error.nil,
          Frame.LockedInit 0 (Func.closure 9) LockedInitPc.deferred] ∧
    (Pair.exec hazardCode [true, true, true, true, false, false, true]
      (race 0 (Func.closure 9) (Error.New 1) World.init)).snd
      = [Frame.Shutdown 0 (Error.New 1) ShutdownPc.lock1] ∧
    ((Pair.exec hazardCode [true, true, true, true, false, false, true]
      (race 0 (Func.closure 9) (Error.New 1) World.init)).world.shutters 0).lock = true ∧
    ((Pair.exec hazardCode [true, true, true, true, false, false, true]
      (race 0 (Func.closure 9) (Error.New 1) World.init)).world.shutters 0).err = Error.nil ∧
    ((Pair.exec hazardCode [true, true, true, true, false, false, true]
      (race 0 (Func.closure 9) (Error.New 1) World.init)).world.shutters 0).IsTerminating
      = false ∧
    invocations (Pair.exec hazardCode [true, true, true, true, false, false, true]
      (race 0 (Func.closure 9) (Error.New 1) World.init)).world.log = [] :=
  have h := guard_mutual_exclusion hazardCode (fun i => decide (i = 9)) 0 (Func.closure 9)
    (Error.New 1) World.init [true, true, true, true, false, false, true]
    [Frame.OnTerminating 0 (Func.closure 2) RegisterPc.append] [Call.IsTerminating 0]
    Error.nil (by decide) (by decide)
    (by
      intro id hid
      simp only [decide_eq_true_eq] at hid
      subst hid
      decide)
    (by decide)
  ⟨by decide, by decide, by decide, h.2.1, h.2.2.1, h.2.2.2.1, h.2.2.2.2.1⟩

/-- C12 as stated fails for an `fn` that calls `Shutdown`: with
`fn = func() error { s.Shutdown(e2); return nil }`, the schedule that lets the
first goroutine take the guard, start `fn` and pass `once.Do` in its
`Shutdown(e2)`, and then lets the second goroutine run, has the concurrent
`Shutdown(e1)` find the gate passed and return at once (its stack is empty,
the log records the lost gate), while `fn` is still executing: it waits at
`s.lock.Lock()` for the guard that its own `LockedInit` holds, for ever. -/
theorem guard_mutual_exclusion_counterexample :
    (World.init.shutters 0).idle = true ∧
    (Pair.exec hazardCode [true, true, true, true, false]
      (race 0 (Func.closure 5) (Error.New 1) World.init)).fst
      = [Frame.Shutdown 0 (Error.New 2) ShutdownPc.lock1,
          Frame.user (some (Func.closure 5)) [] Error.nil,
          Frame.LockedInit 0 (Func.closure 5) LockedInitPc.deferred] ∧
    (Pair.exec hazardCode [true, true, true, true, false]
      (race 0 (Func.closure 5) (Error.New 1) World.init)).snd = [] ∧
    (Pair.exec hazardCode [true, true, true, true, false]
      (race 0 (Func.closure 5) (Error.New 1) World.init)).world.log
      = [Event.init 0 (Func.closure 5), Event.gate 0 (Error.New 2) true,
          Event.gate 0 (Error.New 1) false] ∧
    ((Pair.exec hazardCode [true, true, true, true, false]
      (race 0 (Func.closure 5) (Error.New 1) World.init)).snd
        ≠ [Frame.Shutdown 0 (Error.New 1) ShutdownPc.once] ∧
      (Pair.exec hazardCode [true, true, true, true, false]
        (race 0 (Func.closure 5) (Error.New 1) World.init)).snd
        ≠ [Frame.Shutdown 0 (Error.New 1) ShutdownPc.lock1]) ∧
    blockedAt hazardCode
      ⟨(Pair.exec hazardCode [true, true, true, true, false]
          (race 0 (Func.closure 5) (Error.New 1) World.init)).world,
        (Pair.exec hazardCode [true, true, true, true, false]
          (race 0 (Func.closure 5) (Error.New 1) World.init)).fst,
        (Pair.exec hazardCode [true, true, true, true, false]
          (race 0 (Func.closure 5) (Error.New 1) World.init)).fstRet⟩ = true ∧
    (Pair.exec hazardCode ([true, true, true, true, false] ++ List.replicate 8 true)
      (race 0 (Func.closure 5) (Error.New 1) World.init)).fst
      = [Frame.Shutdown 0 (Error.New 2) ShutdownPc.lock1,
          Frame.user (some (Func.closure 5)) [] Error.nil,
          Frame.LockedInit 0 (Func.closure 5) LockedInitPc.deferred] := by
  decide

end shutter
